import Mathlib

/-!
# EVS camera: buffer pool and stream state machine

A shallow embedding of `automotive/evs/1.1/default/EvsCamera.cpp`.

* A `buffer_handle_t` is an `Option Handle`; `nullptr` is `none`.
* `mFramesAllowed` and `mFramesInUse` have the C type `unsigned`; every `++`,
  `--` and `-` on them is taken modulo `2 ^ 32`.
* The graphics allocator is an oracle `alloc : Nat → Option Handle`: the result
  of the `k`-th call of `alloc.allocate` (`none` when the call reports an error
  or hands back a null handle).  The camera state counts the calls made so far
  (`allocCalls`) and logs every argument passed to `alloc.free` (`freed`).
* The buffer mapper is an input as well: an external buffer is represented by
  the result of `mapper.importBuffer` on it (`none` when the import fails).
* Loop indices (`idx`, `i`) are plain naturals: the model follows the source
  for record sequences shorter than `2 ^ 32` entries.
* The extended-information map `mExtInfo` is kept next to the camera in a
  `CameraObject`; its mapped type comes from `EvsCamera.h`, so the conversion
  of the `int32_t` value of `setExtendedInfo` is a parameter.
-/

namespace EvsCamera

/-- A non-null buffer handle. -/
abbrev Handle := Nat

/-- Arbitrary limit on number of graphics buffers allowed to be allocated. -/
def kMaxBuffersInFlight : Nat := 100

/-- Minimum number of buffers to run a video stream. -/
def kMinimumBuffersInFlight : Nat := 1

/-- The operation `x++` on an `unsigned`. -/
def incU (x : Nat) : Nat := (x + 1) % 4294967296

/-- The operation `x--` on an `unsigned`. -/
def decU (x : Nat) : Nat := (x + 4294967295) % 4294967296

/-- The operation `a - b` on two `unsigned` values. -/
def subU (a b : Nat) : Nat := (a + (4294967296 - b % 4294967296)) % 4294967296

/-- One entry of `mBuffers`. -/
structure BufferRecord where
  handle : Option Handle
  inUse : Bool
deriving DecidableEq, Repr

/-- Modelled from the spec: the constructor `BufferRecord(buffer_handle_t)` is
declared in `EvsCamera.h`, which is not among the sources.  A record wrapping a
new handle holds that handle and is not checked out. -/
def BufferRecord.wrap (h : Handle) : BufferRecord := ⟨some h, false⟩

inductive StreamState where
  | STOPPED
  | RUNNING
  | STOPPING
  | DEAD
deriving DecidableEq, Repr

inductive EvsResult where
  | OK
  | INVALID_ARG
  | STREAM_ALREADY_RUNNING
  | BUFFER_NOT_AVAILABLE
  | OWNERSHIP_LOST
  | UNDERLYING_SERVICE_ERROR
deriving DecidableEq, Repr

/-- The fields of `EvsCamera` that the pool and the stream state machine use,
with the two allocator logs. -/
structure Camera where
  mBuffers : List BufferRecord
  mFramesAllowed : Nat
  mFramesInUse : Nat
  mStreamState : StreamState
  mStream : Option Nat
  allocCalls : Nat
  freed : List (Option Handle)
deriving DecidableEq, Repr

/-- The constructor: `mFramesAllowed(0), mFramesInUse(0), mStreamState(STOPPED)`. -/
def fresh : Camera :=
  { mBuffers := [], mFramesAllowed := 0, mFramesInUse := 0,
    mStreamState := StreamState.STOPPED, mStream := none,
    allocCalls := 0, freed := [] }

/-- Apply `f` to the record at index `i` (nothing happens past the end). -/
def modifyAt (f : BufferRecord → BufferRecord) : Nat → List BufferRecord → List BufferRecord
  | _, [] => []
  | 0, r :: rest => f r :: rest
  | i + 1, r :: rest => r :: modifyAt f i rest

/-- The handle of record `i`. -/
def handleAt : Nat → List BufferRecord → Option Handle
  | _, [] => none
  | 0, r :: _ => r.handle
  | i + 1, _ :: rest => handleAt i rest

/-- The flag `mBuffers[i].inUse` (`false` past the end). -/
def inUseAt : Nat → List BufferRecord → Bool
  | _, [] => false
  | 0, r :: _ => r.inUse
  | i + 1, _ :: rest => inUseAt i rest

/-- The loop "find a place to store the new buffer": the first record whose
handle is null takes the handle and `inUse = false`; when there is none a new
record is pushed at the back. -/
def storeHandle (h : Handle) : List BufferRecord → List BufferRecord
  | [] => [BufferRecord.wrap h]
  | r :: rest =>
    if r.handle = none then { handle := some h, inUse := false } :: rest
    else r :: storeHandle h rest

/-- The loop of `increaseAvailableFrames_Locked`; the first argument is
`numToAdd - added`. -/
def increaseLoop (alloc : Nat → Option Handle) : Nat → Nat → Camera → Nat × Camera
  | 0, added, s => (added, s)
  | remaining + 1, added, s =>
    match alloc s.allocCalls with
    | none => (added, { s with allocCalls := s.allocCalls + 1 })
    | some h =>
      increaseLoop alloc remaining (added + 1)
        { s with mBuffers := storeHandle h s.mBuffers,
                 mFramesAllowed := incU s.mFramesAllowed,
                 allocCalls := s.allocCalls + 1 }

/-- `EvsCamera::increaseAvailableFrames_Locked`: the number added and the new state. -/
def increaseAvailableFrames_Locked (alloc : Nat → Option Handle) (numToAdd : Nat)
    (s : Camera) : Nat × Camera :=
  increaseLoop alloc numToAdd 0 s

/-- The state of the loop of `decreaseAvailableFrames_Locked`. -/
structure DecreaseAcc where
  bufs : List BufferRecord
  removed : Nat
  allowed : Nat
  log : List (Option Handle)
deriving DecidableEq, Repr

/-- The loop of `decreaseAvailableFrames_Locked` over the records. -/
def decreaseLoop (numToRemove : Nat) :
    List BufferRecord → Nat → Nat → List (Option Handle) → DecreaseAcc
  | [], removed, allowed, log => ⟨[], removed, allowed, log⟩
  | r :: rest, removed, allowed, log =>
    if r.inUse = false ∧ r.handle ≠ none then
      if incU removed = numToRemove then
        ⟨{ r with handle := none } :: rest, incU removed, decU allowed, log ++ [r.handle]⟩
      else
        let acc := decreaseLoop numToRemove rest (incU removed) (decU allowed) (log ++ [r.handle])
        { acc with bufs := { r with handle := none } :: acc.bufs }
    else
      let acc := decreaseLoop numToRemove rest removed allowed log
      { acc with bufs := r :: acc.bufs }

/-- `EvsCamera::decreaseAvailableFrames_Locked`: the number removed and the new state. -/
def decreaseAvailableFrames_Locked (numToRemove : Nat) (s : Camera) : Nat × Camera :=
  let acc := decreaseLoop numToRemove s.mBuffers 0 s.mFramesAllowed s.freed
  (acc.removed, { s with mBuffers := acc.bufs, mFramesAllowed := acc.allowed, freed := acc.log })

/-- `EvsCamera::setAvailableFrames_Locked`. -/
def setAvailableFrames_Locked (alloc : Nat → Option Handle) (bufferCount : Nat)
    (s : Camera) : Bool × Camera :=
  if bufferCount < kMinimumBuffersInFlight then (false, s)
  else if bufferCount > kMaxBuffersInFlight then (false, s)
  else if s.mFramesAllowed < bufferCount then
    let needed := bufferCount - s.mFramesAllowed
    let r := increaseAvailableFrames_Locked alloc needed s
    if r.1 ≠ needed then (false, (decreaseAvailableFrames_Locked r.1 r.2).2)
    else (true, r.2)
  else if s.mFramesAllowed > bufferCount then
    let framesToRelease := s.mFramesAllowed - bufferCount
    (true, (decreaseAvailableFrames_Locked framesToRelease s).2)
  else (true, s)

/-- Index of the first record with a null handle, if there is one. -/
def firstAbsent : List BufferRecord → Option Nat
  | [] => none
  | r :: rest => if r.handle = none then some 0 else (firstAbsent rest).map Nat.succ

/-- The relocation loop of `returnBufferLocked`: the first record with a null
handle takes the handle of record `bufferId`, whose handle is then set to null. -/
def relocate (bufferId : Nat) (bufs : List BufferRecord) : List BufferRecord :=
  match firstAbsent bufs with
  | none => bufs
  | some j =>
    modifyAt (fun r => { r with handle := none }) bufferId
      (modifyAt (fun r => { r with handle := handleAt bufferId bufs }) j bufs)

/-- `EvsCamera::returnBufferLocked`. -/
def returnBufferLocked (bufferId : Nat) (memHandle : Option Handle) (s : Camera) : Camera :=
  if memHandle = none then s
  else if bufferId ≥ s.mBuffers.length then s
  else if inUseAt bufferId s.mBuffers = false then s
  else
    let bufs := modifyAt (fun r => { r with inUse := false }) bufferId s.mBuffers
    if bufferId ≥ s.mFramesAllowed then
      { s with mBuffers := relocate bufferId bufs, mFramesInUse := decU s.mFramesInUse }
    else
      { s with mBuffers := bufs, mFramesInUse := decU s.mFramesInUse }

/-- What the lock scope at the top of the `generateFrames` loop decides. -/
inductive Acquire where
  | loopExit
  | skipped
  | notFound
  | acquired (idx : Nat)
deriving DecidableEq, Repr

/-- The scan `for (idx = 0; idx < mBuffers.size(); idx++)` of `generateFrames`:
the first index whose record is not in use and holds a handle, or the size. -/
def findAvailable : List BufferRecord → Nat
  | [] => 0
  | r :: rest => if r.inUse = false ∧ r.handle ≠ none then 0 else findAvailable rest + 1

/-- The lock scope at the top of the `generateFrames` loop (the acquire step). -/
def generateFrames_acquire (s : Camera) : Acquire × Camera :=
  if s.mStreamState ≠ StreamState.RUNNING then (Acquire.loopExit, s)
  else if s.mFramesInUse ≥ s.mFramesAllowed then (Acquire.skipped, s)
  else
    let idx := findAvailable s.mBuffers
    if idx ≥ s.mBuffers.length then (Acquire.notFound, s)
    else
      (Acquire.acquired idx,
        { s with mBuffers := modifyAt (fun r => { r with inUse := true }) idx s.mBuffers,
                 mFramesInUse := incU s.mFramesInUse })

/-- The lock scope of `generateFrames` after a failed delivery of frame `idx`:
`mBuffers[idx].inUse = false; mFramesInUse--;`. -/
def generateFrames_deliveryFailed (idx : Nat) (s : Camera) : Camera :=
  { s with mBuffers := modifyAt (fun r => { r with inUse := false }) idx s.mBuffers,
           mFramesInUse := decU s.mFramesInUse }

/-- The loop of `importExternalBuffers` over the import results. -/
def importLoop : List (Option Handle) → Camera → Camera
  | [], s => s
  | none :: rest, s => importLoop rest s
  | some h :: rest, s =>
    importLoop rest
      { s with mBuffers := storeHandle h s.mBuffers, mFramesAllowed := incU s.mFramesAllowed }

/-- `EvsCamera::importExternalBuffers`: the two callback arguments and the new state. -/
def importExternalBuffers (buffers : List (Option Handle)) (s : Camera) :
    (EvsResult × Nat) × Camera :=
  if buffers.length < 1 then ((EvsResult.OK, s.mFramesAllowed), s)
  else
    let room := subU kMaxBuffersInFlight s.mFramesAllowed
    let numBuffersToAdd := if buffers.length > room then buffers.length - room else buffers.length
    let s1 := importLoop (buffers.take numBuffersToAdd) s
    ((EvsResult.OK, subU s1.mFramesAllowed s.mFramesAllowed), s1)

/-- `EvsCamera::setMaxFramesInFlight`. -/
def setMaxFramesInFlight (alloc : Nat → Option Handle) (bufferCount : Nat) (s : Camera) :
    EvsResult × Camera :=
  if s.mStreamState = StreamState.DEAD then (EvsResult.OWNERSHIP_LOST, s)
  else if bufferCount < 1 then (EvsResult.INVALID_ARG, s)
  else
    let r := setAvailableFrames_Locked alloc bufferCount s
    if r.1 then (EvsResult.OK, r.2) else (EvsResult.BUFFER_NOT_AVAILABLE, r.2)

/-- `EvsCamera::startVideoStream`; `stream` is the result of
`IEvsCameraStream::castFrom(stream).withDefault(nullptr)`. -/
def startVideoStream (alloc : Nat → Option Handle) (stream : Option Nat) (s : Camera) :
    EvsResult × Camera :=
  if s.mStreamState = StreamState.DEAD then (EvsResult.OWNERSHIP_LOST, s)
  else if s.mStreamState ≠ StreamState.STOPPED then (EvsResult.STREAM_ALREADY_RUNNING, s)
  else
    let r :=
      if s.mFramesAllowed < kMinimumBuffersInFlight then
        setAvailableFrames_Locked alloc kMinimumBuffersInFlight s
      else (true, s)
    if r.1 = false then (EvsResult.BUFFER_NOT_AVAILABLE, r.2)
    else if stream = none then (EvsResult.INVALID_ARG, { r.2 with mStream := none })
    else (EvsResult.OK, { r.2 with mStream := stream, mStreamState := StreamState.RUNNING })

/-- `EvsCamera::doneWithFrame`. -/
def doneWithFrame (bufferId : Nat) (memHandle : Option Handle) (s : Camera) : Camera :=
  returnBufferLocked bufferId memHandle s

/-- `EvsCamera::doneWithFrame_1_1`; a buffer is its `bufferId` and native handle. -/
def doneWithFrame_1_1 (buffers : List (Nat × Option Handle)) (s : Camera) :
    EvsResult × Camera :=
  (EvsResult.OK, buffers.foldl (fun acc b => returnBufferLocked b.1 b.2 acc) s)

/-- The first lock scope of `stopVideoStream`, up to `lock.unlock()`. -/
def stopVideoStream_request (s : Camera) : Camera :=
  if s.mStreamState ≠ StreamState.RUNNING then s
  else { s with mStreamState := StreamState.STOPPING }

/-- The second lock scope of `stopVideoStream`, after the join. -/
def stopVideoStream_finish (s : Camera) : Camera :=
  { s with mStreamState := StreamState.STOPPED, mStream := none }

/-- `EvsCamera::stopVideoStream`; `join` is what the capture thread and the
other callers do to the camera while this caller is blocked in
`mCaptureThread.join()` without the lock. -/
def stopVideoStream (join : Camera → Camera) (s : Camera) : Camera :=
  if s.mStreamState ≠ StreamState.RUNNING then s
  else stopVideoStream_finish (join (stopVideoStream_request s))

/-- The lock scope of `forceShutdown`, after its call of `stopVideoStream`. -/
def forceShutdown_locked (s : Camera) : Camera :=
  { s with mBuffers := [],
           freed := s.freed ++ s.mBuffers.map (fun r => r.handle),
           mStreamState := StreamState.DEAD }

/-- `EvsCamera::forceShutdown`. -/
def forceShutdown (join : Camera → Camera) (s : Camera) : Camera :=
  forceShutdown_locked (stopVideoStream join s)

/-! ## The data-model invariant and the operations as steps -/

/-- Number of records with `inUse = true`. -/
def inUseCount (bufs : List BufferRecord) : Nat := bufs.countP (fun r => r.inUse)

/-- Number of records whose handle is present. -/
def presentCount (bufs : List BufferRecord) : Nat := bufs.countP (fun r => r.handle.isSome)

/-- Number of free records: handle present and not in use. -/
def freeCount (bufs : List BufferRecord) : Nat :=
  bufs.countP (fun r => !r.inUse && r.handle.isSome)

/-- Part (a) of the invariant: a record with an absent handle is not in use. -/
def AbsentFree (bufs : List BufferRecord) : Prop :=
  ∀ r ∈ bufs, r.handle = none → r.inUse = false

instance (bufs : List BufferRecord) : Decidable (AbsentFree bufs) := by
  unfold AbsentFree; infer_instance

/-- The data-model invariant, parts (a) to (d). -/
def PoolInv (s : Camera) : Prop :=
  AbsentFree s.mBuffers ∧
  inUseCount s.mBuffers = s.mFramesInUse ∧
  presentCount s.mBuffers = s.mFramesAllowed ∧
  (s.mFramesInUse ≤ s.mFramesAllowed ∧ s.mFramesAllowed ≤ s.mBuffers.length)

instance (s : Camera) : Decidable (PoolInv s) := by
  unfold PoolInv; infer_instance

/-- The two facts of the reachable-state property: `frames_in_use ≤ frames_allowed`
and the number of in-use records equals `frames_in_use`. -/
def CountersAgree (s : Camera) : Prop :=
  s.mFramesInUse ≤ s.mFramesAllowed ∧ inUseCount s.mBuffers = s.mFramesInUse

instance (s : Camera) : Decidable (CountersAgree s) := by
  unfold CountersAgree; infer_instance

/-- The lock scopes of the control surface and of the capture thread.  A call of
`stopVideoStream` is `stopRequest`, then (once the capture thread has ended)
`stopFinish`; a call of `forceShutdown` is a call of `stopVideoStream` followed
by `shutdownLocked`. -/
inductive Op where
  | setMaxFramesInFlight (alloc : Nat → Option Handle) (bufferCount : Nat)
  | startVideoStream (alloc : Nat → Option Handle) (stream : Option Nat)
  | stopRequest
  | stopFinish
  | doneWithFrame (bufferId : Nat) (memHandle : Option Handle)
  | doneWithFrame_1_1 (buffers : List (Nat × Option Handle))
  | importExternalBuffers (buffers : List (Option Handle))
  | shutdownLocked
  | acquire
  | deliveryFailed (idx : Nat)

/-- The effect of one lock scope on the camera. -/
def Op.apply : Op → Camera → Camera
  | Op.setMaxFramesInFlight alloc n, s => (EvsCamera.setMaxFramesInFlight alloc n s).2
  | Op.startVideoStream alloc stream, s => (EvsCamera.startVideoStream alloc stream s).2
  | Op.stopRequest, s => stopVideoStream_request s
  | Op.stopFinish, s => stopVideoStream_finish s
  | Op.doneWithFrame i h, s => EvsCamera.doneWithFrame i h s
  | Op.doneWithFrame_1_1 bs, s => (EvsCamera.doneWithFrame_1_1 bs s).2
  | Op.importExternalBuffers bs, s => (EvsCamera.importExternalBuffers bs s).2
  | Op.shutdownLocked, s => forceShutdown_locked s
  | Op.acquire, s => (generateFrames_acquire s).2
  | Op.deliveryFailed idx, s => generateFrames_deliveryFailed idx s

/-- Run a sequence of lock scopes, first to last. -/
def run : List Op → Camera → Camera
  | [], s => s
  | op :: rest, s => run rest (op.apply s)

/-- The steps of a run that stays clear of `forceShutdown` and in which a failed
delivery releases a record that is still marked in use. -/
def Op.live : Op → Camera → Bool
  | Op.shutdownLocked, _ => false
  | Op.deliveryFailed idx, s => inUseAt idx s.mBuffers
  | _, _ => true

/-- Every step of the run is `live` in the state it is taken in. -/
def liveRun : List Op → Camera → Bool
  | [], _ => true
  | op :: rest, s => op.live s && liveRun rest (op.apply s)

/-- The operations on the pool that run under `mAccessLock`. -/
inductive PoolOp where
  | setAvailableFrames (alloc : Nat → Option Handle) (bufferCount : Nat)
  | acquire
  | returnBuffer (bufferId : Nat) (memHandle : Option Handle)
  | deliveryFailed (idx : Nat)
  | importExternalBuffers (buffers : List (Option Handle))

/-- The effect of one pool operation. -/
def PoolOp.apply : PoolOp → Camera → Camera
  | PoolOp.setAvailableFrames alloc n, s => (EvsCamera.setAvailableFrames_Locked alloc n s).2
  | PoolOp.acquire, s => (generateFrames_acquire s).2
  | PoolOp.returnBuffer i h, s => returnBufferLocked i h s
  | PoolOp.deliveryFailed idx, s => generateFrames_deliveryFailed idx s
  | PoolOp.importExternalBuffers bs, s => (EvsCamera.importExternalBuffers bs s).2

/-- Run a sequence of pool operations, first to last. -/
def runPool : List PoolOp → Camera → Camera
  | [], s => s
  | op :: rest, s => runPool rest (op.apply s)

/-- The operation releases index `i`: a `returnBufferLocked(i, handle)` with a
non-null handle, or the delivery-failure path for `i`. -/
def PoolOp.releases (i : Nat) : PoolOp → Bool
  | PoolOp.returnBuffer j h => decide (j = i) && h.isSome
  | PoolOp.deliveryFailed j => decide (j = i)
  | _ => false

/-- The calls of the control surface that are guarded by the stream state or
return a buffer, as made after a shutdown. -/
inductive Call where
  | setMaxFramesInFlight (alloc : Nat → Option Handle) (bufferCount : Nat)
  | startVideoStream (alloc : Nat → Option Handle) (stream : Option Nat)
  | stopVideoStream (join : Camera → Camera)
  | doneWithFrame (bufferId : Nat) (memHandle : Option Handle)
  | doneWithFrame_1_1 (buffers : List (Nat × Option Handle))

/-- The result code of a call (`none` for the calls that return `void`) and the
state after it. -/
def Call.apply : Call → Camera → Option EvsResult × Camera
  | Call.setMaxFramesInFlight alloc n, s =>
    (some (EvsCamera.setMaxFramesInFlight alloc n s).1, (EvsCamera.setMaxFramesInFlight alloc n s).2)
  | Call.startVideoStream alloc stream, s =>
    (some (EvsCamera.startVideoStream alloc stream s).1, (EvsCamera.startVideoStream alloc stream s).2)
  | Call.stopVideoStream join, s => (none, EvsCamera.stopVideoStream join s)
  | Call.doneWithFrame i h, s => (none, EvsCamera.doneWithFrame i h s)
  | Call.doneWithFrame_1_1 bs, s =>
    (some (EvsCamera.doneWithFrame_1_1 bs s).1, (EvsCamera.doneWithFrame_1_1 bs s).2)

/-- The result code the source gives to a call made in the `DEAD` state. -/
def Call.deadResult : Call → Option EvsResult
  | Call.setMaxFramesInFlight _ _ => some EvsResult.OWNERSHIP_LOST
  | Call.startVideoStream _ _ => some EvsResult.OWNERSHIP_LOST
  | Call.stopVideoStream _ => none
  | Call.doneWithFrame _ _ => none
  | Call.doneWithFrame_1_1 _ => some EvsResult.OK

/-- Run a sequence of calls, collecting the result codes. -/
def runCalls : List Call → Camera → List (Option EvsResult) × Camera
  | [], s => ([], s)
  | c :: rest, s =>
    let r := runCalls rest (c.apply s).2
    ((c.apply s).1 :: r.1, r.2)

/-! ## Growth, shrink and acquire in the words of the specification -/

/-- Record `i` is free: it holds a handle and is not in use. -/
def FreeAt (i : Nat) (bufs : List BufferRecord) : Prop :=
  inUseAt i bufs = false ∧ handleAt i bufs ≠ none

instance (i : Nat) (bufs : List BufferRecord) : Decidable (FreeAt i bufs) := by
  unfold FreeAt; infer_instance

/-- A new handle goes into the lowest-indexed absent slot if there is one, and
is appended as a new free record otherwise. -/
def placeHandle (h : Handle) (bufs : List BufferRecord) : List BufferRecord :=
  match firstAbsent bufs with
  | some j => modifyAt (fun _ => { handle := some h, inUse := false }) j bufs
  | none => bufs ++ [{ handle := some h, inUse := false }]

/-- Place the handles of `n` successive allocations, the first being call
number `start` of the allocator. -/
def placeAll (alloc : Nat → Option Handle) : Nat → Nat → List BufferRecord → List BufferRecord
  | _, 0, bufs => bufs
  | start, n + 1, bufs => placeAll alloc (start + 1) n (placeHandle ((alloc start).getD 0) bufs)

/-- Clear the handle of the first `k` free records, lowest index first (of all
free records when there are fewer than `k`). -/
def releaseFirst : Nat → List BufferRecord → List BufferRecord
  | 0, bufs => bufs
  | _, [] => []
  | k + 1, r :: rest =>
    if r.inUse = false ∧ r.handle ≠ none then { r with handle := none } :: releaseFirst k rest
    else r :: releaseFirst (k + 1) rest

/-- The handles of the first `k` free records, lowest index first. -/
def releasedHandles : Nat → List BufferRecord → List (Option Handle)
  | 0, _ => []
  | _, [] => []
  | k + 1, r :: rest =>
    if r.inUse = false ∧ r.handle ≠ none then r.handle :: releasedHandles k rest
    else releasedHandles (k + 1) rest

/-! ## Extended information -/

/-- The camera together with `mExtInfo`, a map from a key to a blob of bytes,
kept as a list of key-value pairs with one pair per key. -/
structure CameraObject where
  cam : Camera
  mExtInfo : List (Nat × List Nat)
deriving DecidableEq, Repr

/-- The lookup `mExtInfo.find(key)`; `none` is `mExtInfo.end()`. -/
def extFind (key : Nat) : List (Nat × List Nat) → Option (List Nat)
  | [] => none
  | kv :: rest => if kv.1 = key then some kv.2 else extFind key rest

/-- The update `mExtInfo.insert_or_assign(key, value)`. -/
def extInsertOrAssign (key : Nat) (value : List Nat) :
    List (Nat × List Nat) → List (Nat × List Nat)
  | [] => [(key, value)]
  | kv :: rest =>
    if kv.1 = key then (key, value) :: rest else kv :: extInsertOrAssign key value rest

/-- `EvsCamera::setExtendedInfo`. The mapped type of `mExtInfo` is declared in
`EvsCamera.h`, which is not among the sources: `blobOf` is the conversion of the
`int32_t` argument to that type. -/
def setExtendedInfo (blobOf : Int → List Nat) (opaqueIdentifier : Nat) (opaqueValue : Int)
    (t : CameraObject) : EvsResult × CameraObject :=
  if t.cam.mStreamState = StreamState.DEAD then (EvsResult.OWNERSHIP_LOST, t)
  else
    (EvsResult.OK,
      { t with mExtInfo := extInsertOrAssign opaqueIdentifier (blobOf opaqueValue) t.mExtInfo })

/-- `EvsCamera::getExtendedInfo`: the value returned, or `none` when
`it->second[0]` reads past the end of the stored blob. -/
def getExtendedInfo (opaqueIdentifier : Nat) (t : CameraObject) : Option Int :=
  match extFind opaqueIdentifier t.mExtInfo with
  | none => some 0
  | some blob =>
    match blob with
    | [] => none
    | b :: _ => some (Int.ofNat b)

/-- `EvsCamera::setExtendedInfo_1_1`. -/
def setExtendedInfo_1_1 (opaqueIdentifier : Nat) (opaqueValue : List Nat)
    (t : CameraObject) : EvsResult × CameraObject :=
  (EvsResult.OK, { t with mExtInfo := extInsertOrAssign opaqueIdentifier opaqueValue t.mExtInfo })

/-- `EvsCamera::getExtendedInfo_1_1`: the two callback arguments. -/
def getExtendedInfo_1_1 (opaqueIdentifier : Nat) (t : CameraObject) : EvsResult × List Nat :=
  match extFind opaqueIdentifier t.mExtInfo with
  | none => (EvsResult.INVALID_ARG, [])
  | some blob => (EvsResult.OK, blob)

/-- The same camera object with another stream state. -/
def CameraObject.inState (t : CameraObject) (st : StreamState) : CameraObject :=
  { t with cam := { t.cam with mStreamState := st } }

/-! ## The capture thread -/

/-- A call of the transport: `deliverFrame_1_1` for a buffer, or the
`STREAM_STOPPED` notification; `ok` is `result.isOk()`. -/
inductive TransportEvent where
  | deliverFrame (bufferId : Nat) (ok : Bool)
  | streamStopped (ok : Bool)
deriving DecidableEq, Repr

/-- What surrounds a run of `generateFrames`: what the other callers do to the
camera before the lock scope of iteration `k` (`before k`) and while the frame
of iteration `k` is being delivered (`during k`), whether that delivery
succeeds, and whether the final notification does. -/
structure CaptureEnv where
  before : Nat → Camera → Camera
  during : Nat → Camera → Camera
  deliverOk : Nat → Bool
  notifyOk : Bool

/-- `EvsCamera::generateFrames`, from iteration `iter` on: the camera and the
transport calls at the end of the thread, or `none` when the loop is still
running after `fuel` iterations. -/
def generateFrames (env : CaptureEnv) :
    Nat → Nat → Camera → List TransportEvent → Option (Camera × List TransportEvent)
  | 0, _, _, _ => none
  | fuel + 1, iter, s, events =>
    match generateFrames_acquire (env.before iter s) with
    | (Acquire.loopExit, s1) =>
      some (s1, events ++ [TransportEvent.streamStopped env.notifyOk])
    | (Acquire.skipped, s1) => generateFrames env fuel (iter + 1) s1 events
    | (Acquire.notFound, s1) => generateFrames env fuel (iter + 1) s1 events
    | (Acquire.acquired idx, s1) =>
      if env.deliverOk iter then
        generateFrames env fuel (iter + 1) (env.during iter s1)
          (events ++ [TransportEvent.deliverFrame idx true])
      else
        some (generateFrames_deliveryFailed idx (env.during iter s1),
          events ++ [TransportEvent.deliverFrame idx false,
                     TransportEvent.streamStopped env.notifyOk])

/-- The event is a frame delivery. -/
def TransportEvent.isDelivery : TransportEvent → Bool
  | TransportEvent.deliverFrame _ _ => true
  | TransportEvent.streamStopped _ => false

/-- An environment in which nobody else touches the camera. -/
def quietEnv (deliverOk : Nat → Bool) (notifyOk : Bool) : CaptureEnv :=
  { before := fun _ s => s, during := fun _ s => s, deliverOk := deliverOk, notifyOk := notifyOk }

/-! ## The test pattern -/

/-- Colors for the colorbar test pattern in ABGR format. -/
def kColors : List Nat :=
  [0xFFFFFFFF, 0xFF00FFFF, 0xFFFFFF00, 0xFF00FF00, 0xFFFF00FF, 0xFF0000FF, 0xFFFF0000, 0xFF000000]

/-- The number of entries of `kColors`. -/
def kNumColors : Nat := 8

/-- The index `col * kNumColors / pDesc->width`, in `uint32_t` arithmetic. -/
def colorIndex (col width : Nat) : Nat := (col * kNumColors % 4294967296) / width

/-- The inner loop of `fillTestFrame` for columns `0 .. n - 1` of the row that
starts at offset `base`: `pixels[col] = kColors[index]`. -/
def fillCols (width base : Nat) : Nat → (Nat → Nat) → (Nat → Nat)
  | 0, mem => mem
  | n + 1, mem =>
    fun off =>
      if off = base + n then kColors.getD (colorIndex n width) 0
      else fillCols width base n mem off

/-- The outer loop of `fillTestFrame` for rows `0 .. n - 1`; row `r` starts at
offset `r * stride` (`pixels = pixels + pDesc->stride`). -/
def fillRows (width stride : Nat) : Nat → (Nat → Nat) → (Nat → Nat)
  | 0, mem => mem
  | n + 1, mem => fillCols width (n * stride) width (fillRows width stride n mem)

/-- `EvsCamera::fillTestFrame`. `pixels` is what `mapper.lock` yields: the pixel
memory by offset, or `none` when the lock fails. -/
def fillTestFrame (width height stride : Nat) (pixels : Option (Nat → Nat)) :
    Option (Nat → Nat) :=
  match pixels with
  | none => none
  | some mem => some (fillRows width stride height mem)

/-! ## VMS messages (`VmsUtils.cpp`) -/

/-- The values of the enumerators of `types.hal` that `VmsUtils.cpp` uses; the
declarations are not among the sources. -/
structure VmsTypes where
  VEHICLE_MAP_SERVICE : Int
  SUBSCRIBE : Int
  PUBLISHER_ID_RESPONSE : Int
  SUBSCRIPTIONS_CHANGE : Int
  DATA : Int
deriving DecidableEq, Repr

structure VmsLayer where
  type : Int
  subtype : Int
  version : Int
deriving DecidableEq, Repr

/-- The fields of a `VehiclePropValue` that the VMS helpers read and write. -/
structure VehiclePropValue where
  prop : Int
  int32Values : List Int
  bytes : List Nat
deriving DecidableEq, Repr

/-- A `VmsOffers`: the publisher and the layer of each offering. -/
structure VmsOffers where
  publisher_id : Int
  offerings : List VmsLayer
deriving DecidableEq, Repr

/-- Modelled from the spec: the enumerator
`VmsBaseMessageIntegerValuesIndex::MESSAGE_TYPE` is declared in `types.hal`, not
among the sources; a message starts with its type. -/
def kMessageIndex : Nat := 0

/-- Modelled from the spec: the enumerators of
`VmsSubscriptionsStateIntegerValuesIndex` are declared in `types.hal`, not among
the sources; a subscriptions message is laid out as `[type, sequence, nLayers,
nAssociated, layers ..., associated layers ...]`. -/
def kSubscriptionStateSequenceNumberIndex : Nat := 1

/-- Modelled from the spec: index of the number of layers, see
`kSubscriptionStateSequenceNumberIndex`. -/
def NUMBER_OF_LAYERS : Nat := 2

/-- Modelled from the spec: index of the number of associated layers, see
`kSubscriptionStateSequenceNumberIndex`. -/
def NUMBER_OF_ASSOCIATED_LAYERS : Nat := 3

/-- Modelled from the spec: index of the first layer, see
`kSubscriptionStateSequenceNumberIndex`. -/
def SUBSCRIPTIONS_START : Nat := 4

def kLayerSize : Nat := 3

/-- `createDataMessage`. -/
def createDataMessage (c : VmsTypes) (bytes : List Nat) : VehiclePropValue :=
  { prop := c.VEHICLE_MAP_SERVICE, int32Values := [c.DATA], bytes := bytes }

def isValidVmsProperty (c : VmsTypes) (value : VehiclePropValue) : Bool :=
  decide (value.prop = c.VEHICLE_MAP_SERVICE)

/-- `isValidVmsMessageType`, with `kFirstMessageType = SUBSCRIBE` and
`kLastMessageType = PUBLISHER_ID_RESPONSE`. -/
def isValidVmsMessageType (c : VmsTypes) (value : VehiclePropValue) : Bool :=
  decide (value.int32Values.length > 0) &&
  (decide (value.int32Values.getD kMessageIndex 0 ≥ c.SUBSCRIBE) &&
   decide (value.int32Values.getD kMessageIndex 0 ≤ c.PUBLISHER_ID_RESPONSE))

def isValidVmsMessage (c : VmsTypes) (value : VehiclePropValue) : Bool :=
  isValidVmsProperty c value && isValidVmsMessageType c value

/-- `parseMessageType`; it is only called after `isValidVmsMessage`, which has
checked that the type is there. -/
def parseMessageType (value : VehiclePropValue) : Int :=
  value.int32Values.getD kMessageIndex 0

/-- `parseData`. -/
def parseData (c : VmsTypes) (value : VehiclePropValue) : List Nat :=
  if isValidVmsMessage c value && decide (parseMessageType value = c.DATA) &&
      decide (value.bytes.length > 0) then value.bytes
  else []

/-- The read `int32Values[i]`; `none` when `i` is past the end. -/
def readInt (vals : List Int) (i : Nat) : Option Int := vals.get? i

/-- The three reads that build a `VmsLayer` at `current_index`. -/
def readLayer (vals : List Int) (i : Nat) : Option VmsLayer :=
  match readInt vals i, readInt vals (i + 1), readInt vals (i + 2) with
  | some t, some s, some v => some { type := t, subtype := s, version := v }
  | _, _, _ => none

/-- The first loop of `getSubscribedLayers`, with `n` iterations left: the
final `current_index` and the layers collected, or `none` on a read past the
end. -/
def layersLoop (vals : List Int) (offered : List VmsLayer) :
    Nat → Nat → List VmsLayer → Option (Nat × List VmsLayer)
  | 0, idx, acc => some (idx, acc)
  | n + 1, idx, acc =>
    match readLayer vals idx with
    | none => none
    | some layer =>
      layersLoop vals offered n (idx + kLayerSize)
        (if layer ∈ offered then acc ++ [layer] else acc)

/-- The innermost loop of `getSubscribedLayers` over the publisher ids of one
associated layer. -/
def publishersLoop (vals : List Int) (publisher_id : Int) (layer : VmsLayer) :
    Nat → Nat → List VmsLayer → Option (Nat × List VmsLayer)
  | 0, idx, acc => some (idx, acc)
  | n + 1, idx, acc =>
    match readInt vals idx with
    | none => none
    | some id =>
      publishersLoop vals publisher_id layer n (idx + 1)
        (if id = publisher_id then acc ++ [layer] else acc)

/-- The second loop of `getSubscribedLayers`, over the associated layers. -/
def associatedLoop (vals : List Int) (offers : VmsOffers) :
    Nat → Nat → List VmsLayer → Option (Nat × List VmsLayer)
  | 0, idx, acc => some (idx, acc)
  | n + 1, idx, acc =>
    match readLayer vals idx with
    | none => none
    | some layer =>
      if layer ∈ offers.offerings then
        match readInt vals (idx + kLayerSize) with
        | none => none
        | some num =>
          match publishersLoop vals offers.publisher_id layer num.toNat
              (idx + kLayerSize + 1) acc with
          | none => none
          | some r => associatedLoop vals offers n r.1 r.2
      else associatedLoop vals offers n (idx + kLayerSize) acc

/-- `getSubscribedLayers`: the layers returned, or `none` when the function
reads `int32Values` past its end. -/
def getSubscribedLayers (c : VmsTypes) (subscription_change : VehiclePropValue)
    (offers : VmsOffers) : Option (List VmsLayer) :=
  if isValidVmsMessage c subscription_change &&
      decide (parseMessageType subscription_change = c.SUBSCRIPTIONS_CHANGE) &&
      decide (subscription_change.int32Values.length > kSubscriptionStateSequenceNumberIndex)
  then
    match readInt subscription_change.int32Values NUMBER_OF_LAYERS,
          readInt subscription_change.int32Values NUMBER_OF_ASSOCIATED_LAYERS with
    | some num_of_layers, some num_of_associated_layers =>
      match layersLoop subscription_change.int32Values offers.offerings
          num_of_layers.toNat SUBSCRIPTIONS_START [] with
      | none => none
      | some r =>
        match associatedLoop subscription_change.int32Values offers
            num_of_associated_layers.toNat r.1 r.2 with
        | none => none
        | some r2 => some r2.2
    | _, _ => none
  else some []

/-- The enumerator values used in the evaluations: the message types numbered
from `SUBSCRIBE = 1` in their order of declaration. -/
def sampleVmsTypes : VmsTypes :=
  { VEHICLE_MAP_SERVICE := 299895808, SUBSCRIBE := 1, PUBLISHER_ID_RESPONSE := 14,
    SUBSCRIPTIONS_CHANGE := 11, DATA := 12 }

/-! ## The subscribed layers in the words of the specification -/

/-- The well-formed layout of a `SUBSCRIPTIONS_CHANGE` message: type, sequence
number, the two counts, the plain layers (three integers each), then the
associated layers (three integers, the number of publisher ids, the ids). -/
def encodeSubscriptionsChange (c : VmsTypes) (sequence : Int) (layers : List VmsLayer)
    (associated : List (VmsLayer × List Int)) : VehiclePropValue :=
  { prop := c.VEHICLE_MAP_SERVICE,
    int32Values :=
      [c.SUBSCRIPTIONS_CHANGE, sequence, Int.ofNat layers.length, Int.ofNat associated.length]
        ++ (layers.map (fun l => [l.type, l.subtype, l.version])).flatten
        ++ (associated.map (fun a =>
              [a.1.type, a.1.subtype, a.1.version, Int.ofNat a.2.length] ++ a.2)).flatten,
    bytes := [] }

/-- The result the specification describes: every plain layer that is offered,
then every associated layer that is offered, once per listed publisher id equal
to `offers.publisher_id`. -/
def expectedSubscribedLayers (layers : List VmsLayer) (associated : List (VmsLayer × List Int))
    (offers : VmsOffers) : List VmsLayer :=
  layers.filter (fun l => decide (l ∈ offers.offerings))
    ++ (associated.map (fun a =>
          if a.1 ∈ offers.offerings then
            (a.2.filter (fun id => decide (id = offers.publisher_id))).map (fun _ => a.1)
          else [])).flatten

/-! ## Concrete states used in the evaluations below -/

/-- A stopped camera holding one free buffer: capacity 1, nothing checked out. -/
def oneFree : Camera :=
  { fresh with mBuffers := [{ handle := some 7, inUse := false }], mFramesAllowed := 1 }

/-- A running camera whose single buffer is checked out. -/
def oneBusy : Camera :=
  { fresh with mBuffers := [{ handle := some 10, inUse := true }], mFramesAllowed := 1,
               mFramesInUse := 1, mStreamState := StreamState.RUNNING, mStream := some 1 }

/-- A running camera holding one free buffer. -/
def oneFreeRunning : Camera :=
  { oneFree with mStreamState := StreamState.RUNNING, mStream := some 1 }

/-- A running camera of capacity 5 with three buffers checked out. -/
def fiveThreeBusy : Camera :=
  { fresh with
      mBuffers := [{ handle := some 10, inUse := true }, { handle := some 11, inUse := true },
                   { handle := some 12, inUse := true }, { handle := some 13, inUse := false },
                   { handle := some 14, inUse := false }],
      mFramesAllowed := 5, mFramesInUse := 3,
      mStreamState := StreamState.RUNNING, mStream := some 1 }

/-- A stopped camera after a growth to two buffers and a shrink to one: the
second record is left with an absent handle. -/
def oneFreeOneAbsent : Camera :=
  { fresh with mBuffers := [{ handle := none, inUse := false }, { handle := some 11, inUse := false }],
               mFramesAllowed := 1, allocCalls := 2, freed := [some 10] }

/-- A conversion of the `int32_t` value of `setExtendedInfo` to a blob: its low
byte. -/
def oneByteBlob : Int → List Nat := fun v => [v.toNat % 256]

/-- An allocator whose first call succeeds with handle 10 and whose later calls
fail. -/
def allocOnce : Nat → Option Handle := fun k => if k = 0 then some 10 else none

/-- An environment in which another caller runs the first lock scope of
`stopVideoStream` just before iteration `n` and nothing else happens. -/
def stopAtEnv (n : Nat) (deliverOk : Nat → Bool) (notifyOk : Bool) : CaptureEnv :=
  { before := fun k s => if k = n then stopVideoStream_request s else s,
    during := fun _ s => s, deliverOk := deliverOk, notifyOk := notifyOk }

/-- The camera `fiveThreeBusy` after two more frames were handed out and a stop
was requested. -/
def twoDelivered : Camera :=
  { fiveThreeBusy with
      mBuffers := [{ handle := some 10, inUse := true }, { handle := some 11, inUse := true },
                   { handle := some 12, inUse := true }, { handle := some 13, inUse := true },
                   { handle := some 14, inUse := true }],
      mFramesInUse := 5, mStreamState := StreamState.STOPPING }

/-- A camera of two buffers whose capacity was shrunk to 1 while buffer 1 was
checked out: buffer 0 was freed, buffer 1 is still in use. -/
def shrunkWhileOut : Camera :=
  { fresh with mBuffers := [{ handle := none, inUse := false }, { handle := some 11, inUse := true }],
               mFramesAllowed := 1, mFramesInUse := 1,
               mStreamState := StreamState.RUNNING, mStream := some 1,
               allocCalls := 2, freed := [some 10] }

/-- An allocator that fails on every call. -/
def allocNever : Nat → Option Handle := fun _ => none

/-- An allocator that succeeds on every call, with handle `k + 10` on call `k`. -/
def allocAlways : Nat → Option Handle := fun k => some (k + 10)

end EvsCamera

/-! ## Theorems -/

namespace EvsCamera

/-! ### Reading and writing single records -/

theorem length_modifyAt (f : BufferRecord → BufferRecord) (i : Nat) (l : List BufferRecord) :
    (modifyAt f i l).length = l.length := by
  induction l generalizing i with
  | nil => cases i <;> rfl
  | cons r rest ih =>
    cases i with
    | zero => rfl
    | succ k => simp [modifyAt, ih]

theorem inUseAt_modifyAt_keep (f : BufferRecord → BufferRecord)
    (hf : ∀ r, (f r).inUse = r.inUse) (i j : Nat) (l : List BufferRecord) :
    inUseAt i (modifyAt f j l) = inUseAt i l := by
  induction l generalizing i j with
  | nil => cases j <;> rfl
  | cons r rest ih =>
    cases j with
    | zero => cases i <;> simp [modifyAt, inUseAt, hf]
    | succ k => cases i <;> simp [modifyAt, inUseAt, ih]

theorem inUseAt_modifyAt_ne (f : BufferRecord → BufferRecord) (i j : Nat) (hij : i ≠ j)
    (l : List BufferRecord) : inUseAt i (modifyAt f j l) = inUseAt i l := by
  induction l generalizing i j with
  | nil => cases j <;> rfl
  | cons r rest ih =>
    cases j with
    | zero =>
      cases i with
      | zero => exact absurd rfl hij
      | succ k => simp [modifyAt, inUseAt]
    | succ k =>
      cases i with
      | zero => simp [modifyAt, inUseAt]
      | succ m => simpa [modifyAt, inUseAt] using ih m k (fun h => hij (by rw [h]))

theorem inUseAt_modifyAt_self (f : BufferRecord → BufferRecord) (b : Bool)
    (hf : ∀ r, (f r).inUse = b) (i : Nat) (l : List BufferRecord) (hi : i < l.length) :
    inUseAt i (modifyAt f i l) = b := by
  induction l generalizing i with
  | nil => simp at hi
  | cons r rest ih =>
    cases i with
    | zero => simp [modifyAt, inUseAt, hf]
    | succ k => simpa [modifyAt, inUseAt] using ih k (by simpa using hi)

theorem inUseAt_of_ge (i : Nat) (l : List BufferRecord) (hi : l.length ≤ i) :
    inUseAt i l = false := by
  induction l generalizing i with
  | nil => cases i <;> rfl
  | cons r rest ih =>
    cases i with
    | zero => simp at hi
    | succ k => simpa [inUseAt] using ih k (by simpa using hi)

theorem length_relocate (i : Nat) (l : List BufferRecord) :
    (relocate i l).length = l.length := by
  unfold relocate
  split
  · rfl
  · simp [length_modifyAt]

theorem inUseAt_relocate (i k : Nat) (l : List BufferRecord) :
    inUseAt i (relocate k l) = inUseAt i l := by
  unfold relocate
  split
  · rfl
  · rw [inUseAt_modifyAt_keep (fun r => { r with handle := none }) (fun _ => rfl),
      inUseAt_modifyAt_keep (fun r => { r with handle := handleAt k l }) (fun _ => rfl)]

/-! ### Records with an absent handle stay free -/

theorem absentFree_cons (r : BufferRecord) (l : List BufferRecord) :
    AbsentFree (r :: l) ↔ (r.handle = none → r.inUse = false) ∧ AbsentFree l := by
  simp [AbsentFree]

theorem absentFree_at (l : List BufferRecord) (ha : AbsentFree l) (i : Nat)
    (hi : handleAt i l = none) : inUseAt i l = false := by
  induction l generalizing i with
  | nil => cases i <;> rfl
  | cons r rest ih =>
    rw [absentFree_cons] at ha
    cases i with
    | zero => exact ha.1 hi
    | succ k => exact ih ha.2 k hi

theorem absentFree_of_at (l : List BufferRecord)
    (h : ∀ i, handleAt i l = none → inUseAt i l = false) : AbsentFree l := by
  induction l with
  | nil => intro r hr; cases hr
  | cons r rest ih =>
    rw [absentFree_cons]
    exact ⟨h 0, ih (fun i hi => h (i + 1) hi)⟩

theorem handleAt_of_ge (i : Nat) (l : List BufferRecord) (hi : l.length ≤ i) :
    handleAt i l = none := by
  induction l generalizing i with
  | nil => cases i <;> rfl
  | cons r rest ih =>
    cases i with
    | zero => simp at hi
    | succ k => simpa [handleAt] using ih k (by simpa using hi)

theorem handleAt_modifyAt_keep (f : BufferRecord → BufferRecord)
    (hf : ∀ r, (f r).handle = r.handle) (i j : Nat) (l : List BufferRecord) :
    handleAt i (modifyAt f j l) = handleAt i l := by
  induction l generalizing i j with
  | nil => cases j <;> rfl
  | cons r rest ih =>
    cases j with
    | zero => cases i <;> simp [modifyAt, handleAt, hf]
    | succ k => cases i <;> simp [modifyAt, handleAt, ih]

theorem handleAt_modifyAt_ne (f : BufferRecord → BufferRecord) (i j : Nat) (hij : i ≠ j)
    (l : List BufferRecord) : handleAt i (modifyAt f j l) = handleAt i l := by
  induction l generalizing i j with
  | nil => cases j <;> rfl
  | cons r rest ih =>
    cases j with
    | zero =>
      cases i with
      | zero => exact absurd rfl hij
      | succ k => simp [modifyAt, handleAt]
    | succ k =>
      cases i with
      | zero => simp [modifyAt, handleAt]
      | succ m => simpa [modifyAt, handleAt] using ih m k (fun h => hij (by rw [h]))

theorem handleAt_modifyAt_self (f : BufferRecord → BufferRecord) (c : Option Handle)
    (hf : ∀ r, (f r).handle = c) (i : Nat) (l : List BufferRecord) (hi : i < l.length) :
    handleAt i (modifyAt f i l) = c := by
  induction l generalizing i with
  | nil => simp at hi
  | cons r rest ih =>
    cases i with
    | zero => simp [modifyAt, handleAt, hf]
    | succ k => simpa [modifyAt, handleAt] using ih k (by simpa using hi)

theorem firstAbsent_spec (l : List BufferRecord) (j : Nat) (h : firstAbsent l = some j) :
    j < l.length ∧ handleAt j l = none := by
  induction l generalizing j with
  | nil => simp [firstAbsent] at h
  | cons r rest ih =>
    unfold firstAbsent at h
    by_cases hr : r.handle = none
    · simp [hr] at h
      subst h
      exact ⟨by simp, hr⟩
    · simp only [hr, if_false, Option.map_eq_some'] at h
      obtain ⟨k, hk, hkj⟩ := h
      subst hkj
      obtain ⟨h1, h2⟩ := ih k hk
      exact ⟨by simpa using h1, by simpa [handleAt] using h2⟩

theorem findAvailable_spec (l : List BufferRecord) (h : findAvailable l < l.length) :
    inUseAt (findAvailable l) l = false ∧ handleAt (findAvailable l) l ≠ none := by
  induction l with
  | nil => simp at h
  | cons r rest ih =>
    unfold findAvailable at h ⊢
    by_cases hr : r.inUse = false ∧ r.handle ≠ none
    · rw [if_pos hr]
      exact ⟨hr.1, hr.2⟩
    · rw [if_neg hr] at h ⊢
      exact ih (by simpa using h)

theorem absentFree_modifyAt_release (i : Nat) (l : List BufferRecord) (ha : AbsentFree l) :
    AbsentFree (modifyAt (fun r => { r with inUse := false }) i l) := by
  apply absentFree_of_at
  intro m hm
  by_cases hmi : m = i
  · subst hmi
    by_cases hlt : m < l.length
    · exact inUseAt_modifyAt_self _ false (fun _ => rfl) m l hlt
    · exact inUseAt_of_ge m _ (by rw [length_modifyAt]; exact Nat.not_lt.mp hlt)
  · rw [inUseAt_modifyAt_ne _ m i hmi]
    rw [handleAt_modifyAt_keep (fun r => { r with inUse := false }) (fun _ => rfl)] at hm
    exact absentFree_at l ha m hm

theorem absentFree_modifyAt_acquire (i : Nat) (l : List BufferRecord) (ha : AbsentFree l)
    (hi : handleAt i l ≠ none) :
    AbsentFree (modifyAt (fun r => { r with inUse := true }) i l) := by
  apply absentFree_of_at
  intro m hm
  rw [handleAt_modifyAt_keep (fun r => { r with inUse := true }) (fun _ => rfl)] at hm
  by_cases hmi : m = i
  · subst hmi
    exact absurd hm hi
  · rw [inUseAt_modifyAt_ne _ m i hmi]
    exact absentFree_at l ha m hm

theorem absentFree_relocate (k : Nat) (l : List BufferRecord) (ha : AbsentFree l)
    (hk : inUseAt k l = false) : AbsentFree (relocate k l) := by
  unfold relocate
  split
  · exact ha
  · rename_i j hj
    obtain ⟨_, hjabs⟩ := firstAbsent_spec l j hj
    apply absentFree_of_at
    intro m hm
    rw [inUseAt_modifyAt_keep (fun r => { r with handle := none }) (fun _ => rfl),
      inUseAt_modifyAt_keep (fun r => { r with handle := handleAt k l }) (fun _ => rfl)]
    by_cases hmk : m = k
    · subst hmk
      exact hk
    · rw [handleAt_modifyAt_ne _ m k hmk] at hm
      by_cases hmj : m = j
      · subst hmj
        exact absentFree_at l ha m hjabs
      · rw [handleAt_modifyAt_ne _ m j hmj] at hm
        exact absentFree_at l ha m hm

theorem absentFree_storeHandle (h : Handle) (l : List BufferRecord) (ha : AbsentFree l) :
    AbsentFree (storeHandle h l) := by
  induction l with
  | nil => simp [storeHandle, AbsentFree, BufferRecord.wrap]
  | cons r rest ih =>
    rw [absentFree_cons] at ha
    unfold storeHandle
    by_cases hr : r.handle = none
    · simp only [hr, if_true]
      rw [absentFree_cons]
      exact ⟨fun _ => rfl, ha.2⟩
    · simp only [hr, if_false]
      rw [absentFree_cons]
      exact ⟨ha.1, ih ha.2⟩

theorem storeHandle_at (h : Handle) (l : List BufferRecord) (i : Nat)
    (hi : handleAt i l ≠ none) :
    handleAt i (storeHandle h l) = handleAt i l ∧
    inUseAt i (storeHandle h l) = inUseAt i l := by
  induction l generalizing i with
  | nil => cases i <;> simp [handleAt] at hi
  | cons r rest ih =>
    unfold storeHandle
    by_cases hr : r.handle = none
    · simp only [hr, if_true]
      cases i with
      | zero => exact absurd hr hi
      | succ k => exact ⟨rfl, rfl⟩
    · simp only [hr, if_false]
      cases i with
      | zero => exact ⟨rfl, rfl⟩
      | succ k => exact ih k hi

theorem length_storeHandle (h : Handle) (l : List BufferRecord) :
    l.length ≤ (storeHandle h l).length := by
  induction l with
  | nil => simp [storeHandle]
  | cons r rest ih =>
    unfold storeHandle
    split
    · simp
    · simpa using ih

theorem length_decreaseLoop (n : Nat) (l : List BufferRecord) (removed allowed : Nat)
    (log : List (Option Handle)) :
    (decreaseLoop n l removed allowed log).bufs.length = l.length := by
  induction l generalizing removed allowed log with
  | nil => rfl
  | cons r rest ih =>
    unfold decreaseLoop
    split
    · split
      · rfl
      · simp [ih]
    · simp [ih]

theorem absentFree_decreaseLoop (n : Nat) (l : List BufferRecord) (removed allowed : Nat)
    (log : List (Option Handle)) (ha : AbsentFree l) :
    AbsentFree (decreaseLoop n l removed allowed log).bufs := by
  induction l generalizing removed allowed log with
  | nil => exact ha
  | cons r rest ih =>
    rw [absentFree_cons] at ha
    unfold decreaseLoop
    split
    · rename_i hr
      split
      · rw [absentFree_cons]
        exact ⟨fun _ => hr.1, ha.2⟩
      · simp only
        rw [absentFree_cons]
        exact ⟨fun _ => hr.1, ih _ _ _ ha.2⟩
    · simp only
      rw [absentFree_cons]
      exact ⟨ha.1, ih _ _ _ ha.2⟩

theorem inUseAt_decreaseLoop (n : Nat) (l : List BufferRecord) (removed allowed : Nat)
    (log : List (Option Handle)) (i : Nat) :
    inUseAt i (decreaseLoop n l removed allowed log).bufs = inUseAt i l := by
  induction l generalizing removed allowed log i with
  | nil => rfl
  | cons r rest ih =>
    unfold decreaseLoop
    split
    · split
      · cases i <;> rfl
      · cases i with
        | zero => rfl
        | succ k => simpa [inUseAt] using ih _ _ _ k
    · cases i with
      | zero => rfl
      | succ k => simpa [inUseAt] using ih _ _ _ k

/-! ### The return guard and the range check -/

theorem returnBufferLocked_rejected (i : Nat) (h : Option Handle) (s : Camera)
    (hrej : h = none ∨ s.mBuffers.length ≤ i ∨ inUseAt i s.mBuffers = false) :
    returnBufferLocked i h s = s := by
  unfold returnBufferLocked
  by_cases h1 : h = none
  · simp [h1]
  · by_cases h2 : s.mBuffers.length ≤ i
    · simp [h1, h2]
    · by_cases h3 : inUseAt i s.mBuffers = false
      · simp [h1, h2, h3]
      · rcases hrej with h | h | h <;> contradiction

theorem returnBufferLocked_accepted (i : Nat) (h : Option Handle) (s : Camera)
    (h1 : h ≠ none) (h2 : i < s.mBuffers.length) (h3 : inUseAt i s.mBuffers = true) :
    inUseAt i (returnBufferLocked i h s).mBuffers = false ∧
    (returnBufferLocked i h s).mBuffers.length = s.mBuffers.length ∧
    (returnBufferLocked i h s).mFramesInUse = decU s.mFramesInUse ∧
    (returnBufferLocked i h s).mFramesAllowed = s.mFramesAllowed ∧
    (∀ j, j ≠ i → inUseAt j (returnBufferLocked i h s).mBuffers = inUseAt j s.mBuffers) := by
  have hlt : ¬ s.mBuffers.length ≤ i := Nat.not_le.mpr h2
  unfold returnBufferLocked
  simp only [h1, if_false, ge_iff_le, hlt, h3, Bool.true_eq_false]
  by_cases hrel : s.mFramesAllowed ≤ i
  · simp only [hrel, if_true]
    refine ⟨?_, ?_, trivial, trivial, ?_⟩
    · rw [inUseAt_relocate]
      exact inUseAt_modifyAt_self _ false (fun _ => rfl) i _ h2
    · rw [length_relocate, length_modifyAt]
    · intro j hj
      rw [inUseAt_relocate]
      exact inUseAt_modifyAt_ne _ j i hj _
  · simp only [hrel, if_false]
    refine ⟨?_, ?_, trivial, trivial, ?_⟩
    · exact inUseAt_modifyAt_self _ false (fun _ => rfl) i _ h2
    · rw [length_modifyAt]
    · intro j hj
      exact inUseAt_modifyAt_ne _ j i hj _

/-- C8. Return guard: for every pool state, every index `i` and non-null handle
arguments, the second of two `returnBufferLocked(i)` calls in a row is rejected
(it leaves the whole state as the first call left it), so `frames_in_use` after
the two calls is its initial value or that value decremented once; the first
call may have relocated the handle out of slot `i`. -/
theorem returnBufferLocked_twice (i : Nat) (h1 h2 : Handle) (s : Camera) :
    returnBufferLocked i (some h2) (returnBufferLocked i (some h1) s) =
      returnBufferLocked i (some h1) s ∧
    ((returnBufferLocked i (some h2) (returnBufferLocked i (some h1) s)).mFramesInUse =
        s.mFramesInUse ∨
     (returnBufferLocked i (some h2) (returnBufferLocked i (some h1) s)).mFramesInUse =
        decU s.mFramesInUse) := by
  by_cases hacc : i < s.mBuffers.length ∧ inUseAt i s.mBuffers = true
  · obtain ⟨hlt, huse⟩ := hacc
    have hfirst := returnBufferLocked_accepted i (some h1) s (by simp) hlt huse
    have hsecond : returnBufferLocked i (some h2) (returnBufferLocked i (some h1) s) =
        returnBufferLocked i (some h1) s :=
      returnBufferLocked_rejected i (some h2) _ (Or.inr (Or.inr hfirst.1))
    rw [hsecond]
    exact ⟨rfl, Or.inr hfirst.2.2.1⟩
  · have hrej : returnBufferLocked i (some h1) s = s := by
      apply returnBufferLocked_rejected
      by_cases hlt : i < s.mBuffers.length
      · right; right
        cases hu : inUseAt i s.mBuffers with
        | false => rfl
        | true => exact absurd ⟨hlt, hu⟩ hacc
      · right; left; exact Nat.not_lt.mp hlt
    have hrej2 : returnBufferLocked i (some h2) s = s := by
      apply returnBufferLocked_rejected
      by_cases hlt : i < s.mBuffers.length
      · right; right
        cases hu : inUseAt i s.mBuffers with
        | false => rfl
        | true => exact absurd ⟨hlt, hu⟩ hacc
      · right; left; exact Nat.not_lt.mp hlt
    rw [hrej, hrej2]
    exact ⟨rfl, Or.inl rfl⟩

/-- C9, as stated, fails: with the single record of `oneBusy` in range, holding
a handle and in use, `returnBufferLocked(0, nullptr)` is rejected all the same. -/
theorem returnBufferLocked_null_handle_rejected :
    ¬ (oneBusy.mBuffers.length ≤ 0 ∨ handleAt 0 oneBusy.mBuffers = none ∨
        inUseAt 0 oneBusy.mBuffers = false) ∧
    returnBufferLocked 0 none oneBusy = oneBusy := by
  decide

/-- C9, amended. `returnBufferLocked(index, handle)` is rejected, leaving the
whole state unchanged, exactly when the handle argument is null, the index is
out of range, or the record is not in use; in every other case it sets that
record's `inUse` to false, decrements `frames_in_use` by one (as an `unsigned`)
and leaves `frames_allowed`, the length of the sequence and every other
record's flag alone.  `doneWithFrame_1_1` returns `OK` for every list. -/
theorem returnBufferLocked_contract (i : Nat) (h : Option Handle) (s : Camera)
    (bs : List (Nat × Option Handle)) :
    (returnBufferLocked i h s = s ↔
      (h = none ∨ s.mBuffers.length ≤ i ∨ inUseAt i s.mBuffers = false)) ∧
    (¬ (h = none ∨ s.mBuffers.length ≤ i ∨ inUseAt i s.mBuffers = false) →
      inUseAt i (returnBufferLocked i h s).mBuffers = false ∧
      (returnBufferLocked i h s).mBuffers.length = s.mBuffers.length ∧
      (returnBufferLocked i h s).mFramesInUse = decU s.mFramesInUse ∧
      (returnBufferLocked i h s).mFramesAllowed = s.mFramesAllowed ∧
      (∀ j, j ≠ i → inUseAt j (returnBufferLocked i h s).mBuffers = inUseAt j s.mBuffers)) ∧
    (doneWithFrame_1_1 bs s).1 = EvsResult.OK := by
  have hacc : ¬ (h = none ∨ s.mBuffers.length ≤ i ∨ inUseAt i s.mBuffers = false) →
      h ≠ none ∧ i < s.mBuffers.length ∧ inUseAt i s.mBuffers = true := by
    intro hn
    refine ⟨fun h0 => hn (Or.inl h0), ?_, ?_⟩
    · exact Nat.not_le.mp (fun h0 => hn (Or.inr (Or.inl h0)))
    · cases hu : inUseAt i s.mBuffers with
      | false => exact absurd (Or.inr (Or.inr hu)) hn
      | true => rfl
  refine ⟨⟨?_, returnBufferLocked_rejected i h s⟩, ?_, rfl⟩
  · intro heq
    by_contra hn
    obtain ⟨a, b, c⟩ := hacc hn
    have hres := (returnBufferLocked_accepted i h s a b c).1
    rw [heq, c] at hres
    exact Bool.noConfusion hres
  · intro hn
    obtain ⟨a, b, c⟩ := hacc hn
    exact returnBufferLocked_accepted i h s a b c

/-- The hypothesis of the accepted case of `returnBufferLocked_contract` holds
for the checked-out record of `oneBusy`, which is then released. -/
theorem returnBufferLocked_contract_witness :
    (returnBufferLocked 0 (some 10) oneBusy = oneBusy ↔
      (some 10 = none ∨ oneBusy.mBuffers.length ≤ 0 ∨ inUseAt 0 oneBusy.mBuffers = false)) ∧
    inUseAt 0 (returnBufferLocked 0 (some 10) oneBusy).mBuffers = false ∧
    (returnBufferLocked 0 (some 10) oneBusy).mFramesInUse = 0 := by
  have h := returnBufferLocked_contract 0 (some 10) oneBusy []
  have h2 := h.2.1 (by decide)
  exact ⟨h.1, h2.1, by rw [h2.2.2.1]; decide⟩

/-- C10. Range rejection: for every state and every target below 1 or above
100, `setAvailableFrames_Locked(target)` returns false and the state after it
is the state before it: same records, `frames_allowed` and `frames_in_use`, and
the allocator logs show no call of `allocate` or `free`. -/
theorem setAvailableFrames_range_rejection (alloc : Nat → Option Handle) (target : Nat)
    (s : Camera) (h : target < 1 ∨ target > 100) :
    setAvailableFrames_Locked alloc target s = (false, s) := by
  unfold setAvailableFrames_Locked kMinimumBuffersInFlight kMaxBuffersInFlight
  rcases h with h | h
  · simp [h]
  · have h1 : ¬ target < 1 := by omega
    simp [h1, h]

/-- The range rejection at target 101 against a working allocator. -/
theorem setAvailableFrames_range_rejection_witness :
    (101 < 1 ∨ 101 > 100) ∧ setAvailableFrames_Locked allocAlways 101 oneFree = (false, oneFree) :=
  ⟨by decide, setAvailableFrames_range_rejection allocAlways 101 oneFree (by decide)⟩

/-! ### Properties of the record sequence carried through the loops -/

theorem increaseLoop_bufs (P : List BufferRecord → Prop)
    (hS : ∀ h l, P l → P (storeHandle h l)) (alloc : Nat → Option Handle)
    (n added : Nat) (s : Camera) (hp : P s.mBuffers) :
    P (increaseLoop alloc n added s).2.mBuffers := by
  induction n generalizing added s with
  | zero => exact hp
  | succ k ih =>
    unfold increaseLoop
    cases alloc s.allocCalls with
    | none => exact hp
    | some h => exact ih _ _ (hS h _ hp)

theorem importLoop_bufs (P : List BufferRecord → Prop)
    (hS : ∀ h l, P l → P (storeHandle h l)) (bs : List (Option Handle))
    (s : Camera) (hp : P s.mBuffers) : P (importLoop bs s).mBuffers := by
  induction bs generalizing s with
  | nil => exact hp
  | cons b rest ih =>
    cases b with
    | none => exact ih s hp
    | some h => exact ih _ (hS h _ hp)

theorem setAvailableFrames_bufs (P : List BufferRecord → Prop)
    (hS : ∀ h l, P l → P (storeHandle h l))
    (hD : ∀ n l removed allowed log, P l → P (decreaseLoop n l removed allowed log).bufs)
    (alloc : Nat → Option Handle) (n : Nat) (s : Camera) (hp : P s.mBuffers) :
    P (setAvailableFrames_Locked alloc n s).2.mBuffers := by
  unfold setAvailableFrames_Locked
  split
  · exact hp
  · split
    · exact hp
    · split
      · simp only
        split
        · exact hD _ _ _ _ _ (increaseLoop_bufs P hS alloc _ _ s hp)
        · exact increaseLoop_bufs P hS alloc _ _ s hp
      · split
        · exact hD _ _ _ _ _ hp
        · exact hp

theorem importExternalBuffers_bufs (P : List BufferRecord → Prop)
    (hS : ∀ h l, P l → P (storeHandle h l)) (bs : List (Option Handle))
    (s : Camera) (hp : P s.mBuffers) : P (importExternalBuffers bs s).2.mBuffers := by
  unfold importExternalBuffers
  split
  · exact hp
  · exact importLoop_bufs P hS _ s hp

theorem absentFree_returnBufferLocked (i : Nat) (h : Option Handle) (s : Camera)
    (ha : AbsentFree s.mBuffers) : AbsentFree (returnBufferLocked i h s).mBuffers := by
  unfold returnBufferLocked
  split
  · exact ha
  · split
    · exact ha
    · split
      · exact ha
      · rename_i hlen _
        have hlt : i < s.mBuffers.length := Nat.not_le.mp hlen
        have hrel := absentFree_modifyAt_release i s.mBuffers ha
        simp only
        split
        · exact absentFree_relocate i _ hrel
            (inUseAt_modifyAt_self _ false (fun _ => rfl) i _ hlt)
        · exact hrel

theorem acquire_spec (s : Camera) (i : Nat)
    (h : (generateFrames_acquire s).1 = Acquire.acquired i) :
    i < s.mBuffers.length ∧ inUseAt i s.mBuffers = false ∧ handleAt i s.mBuffers ≠ none ∧
    i = findAvailable s.mBuffers ∧
    s.mStreamState = StreamState.RUNNING ∧ s.mFramesInUse < s.mFramesAllowed ∧
    (generateFrames_acquire s).2 =
      { s with mBuffers := modifyAt (fun r => { r with inUse := true }) i s.mBuffers,
               mFramesInUse := incU s.mFramesInUse } := by
  unfold generateFrames_acquire at h ⊢
  by_cases h1 : s.mStreamState ≠ StreamState.RUNNING
  · rw [if_pos h1] at h; cases h
  · rw [if_neg h1] at h ⊢
    by_cases h2 : s.mFramesInUse ≥ s.mFramesAllowed
    · rw [if_pos h2] at h; cases h
    · rw [if_neg h2] at h ⊢
      simp only at h ⊢
      by_cases h3 : findAvailable s.mBuffers ≥ s.mBuffers.length
      · rw [if_pos h3] at h; cases h
      · rw [if_neg h3] at h ⊢
        have hi : findAvailable s.mBuffers = i := by
          simpa using h
        have hlt : findAvailable s.mBuffers < s.mBuffers.length := Nat.not_le.mp h3
        obtain ⟨hu, hh⟩ := findAvailable_spec s.mBuffers hlt
        subst hi
        exact ⟨hlt, hu, hh, rfl, not_not.mp h1, Nat.not_le.mp h2, rfl⟩

theorem acquire_not_acquired (s : Camera)
    (h : ∀ i, (generateFrames_acquire s).1 ≠ Acquire.acquired i) :
    (generateFrames_acquire s).2 = s := by
  unfold generateFrames_acquire at h ⊢
  split
  · rfl
  · split
    · rfl
    · simp only
      split
      · rfl
      · rename_i h1 h2 h3
        exfalso
        apply h (findAvailable s.mBuffers)
        simp [h1, h2, h3]

theorem absentFree_acquire (s : Camera) (ha : AbsentFree s.mBuffers) :
    AbsentFree (generateFrames_acquire s).2.mBuffers := by
  by_cases h : ∃ i, (generateFrames_acquire s).1 = Acquire.acquired i
  · obtain ⟨i, hi⟩ := h
    obtain ⟨_, _, hh, _, _, _, heq⟩ := acquire_spec s i hi
    rw [heq]
    exact absentFree_modifyAt_acquire i _ ha hh
  · rw [acquire_not_acquired s (fun i hi => h ⟨i, hi⟩)]
    exact ha

theorem inUseAt_acquire_held (s : Camera) (i : Nat) (hi : inUseAt i s.mBuffers = true) :
    inUseAt i (generateFrames_acquire s).2.mBuffers = true := by
  by_cases h : ∃ j, (generateFrames_acquire s).1 = Acquire.acquired j
  · obtain ⟨j, hj⟩ := h
    obtain ⟨_, hu, _, _, _, _, heq⟩ := acquire_spec s j hj
    rw [heq]
    have hij : i ≠ j := by
      intro hij
      subst hij
      rw [hi] at hu
      exact Bool.noConfusion hu
    simpa [inUseAt_modifyAt_ne _ i j hij] using hi
  · rw [acquire_not_acquired s (fun i hi => h ⟨i, hi⟩)]
    exact hi

theorem absentFree_poolOp (op : PoolOp) (s : Camera) (ha : AbsentFree s.mBuffers) :
    AbsentFree (op.apply s).mBuffers := by
  cases op with
  | setAvailableFrames alloc n =>
    exact setAvailableFrames_bufs AbsentFree absentFree_storeHandle
      (fun n l r a g hl => absentFree_decreaseLoop n l r a g hl) alloc n s ha
  | acquire => exact absentFree_acquire s ha
  | returnBuffer i h => exact absentFree_returnBufferLocked i h s ha
  | deliveryFailed idx => exact absentFree_modifyAt_release idx _ ha
  | importExternalBuffers bs =>
    exact importExternalBuffers_bufs AbsentFree absentFree_storeHandle bs s ha

theorem absentFree_runPool (ops : List PoolOp) (s : Camera) (ha : AbsentFree s.mBuffers) :
    AbsentFree (runPool ops s).mBuffers := by
  induction ops generalizing s with
  | nil => exact ha
  | cons op rest ih => exact ih _ (absentFree_poolOp op s ha)

theorem held_storeHandle (i : Nat) (h : Handle) (l : List BufferRecord)
    (hp : AbsentFree l ∧ inUseAt i l = true) :
    AbsentFree (storeHandle h l) ∧ inUseAt i (storeHandle h l) = true := by
  refine ⟨absentFree_storeHandle h l hp.1, ?_⟩
  have hh : handleAt i l ≠ none := by
    intro h0
    have := absentFree_at l hp.1 i h0
    rw [hp.2] at this
    exact Bool.noConfusion this
  rw [(storeHandle_at h l i hh).2]
  exact hp.2

theorem held_decreaseLoop (i n : Nat) (l : List BufferRecord) (removed allowed : Nat)
    (log : List (Option Handle)) (hp : AbsentFree l ∧ inUseAt i l = true) :
    AbsentFree (decreaseLoop n l removed allowed log).bufs ∧
    inUseAt i (decreaseLoop n l removed allowed log).bufs = true :=
  ⟨absentFree_decreaseLoop n l removed allowed log hp.1,
    by rw [inUseAt_decreaseLoop]; exact hp.2⟩

theorem held_poolOp (i : Nat) (op : PoolOp) (s : Camera) (hop : op.releases i = false)
    (hp : AbsentFree s.mBuffers ∧ inUseAt i s.mBuffers = true) :
    AbsentFree (op.apply s).mBuffers ∧ inUseAt i (op.apply s).mBuffers = true := by
  refine ⟨absentFree_poolOp op s hp.1, ?_⟩
  cases op with
  | setAvailableFrames alloc n =>
    exact (setAvailableFrames_bufs (fun l => AbsentFree l ∧ inUseAt i l = true)
      (held_storeHandle i) (fun n l r a g hl => held_decreaseLoop i n l r a g hl)
      alloc n s hp).2
  | acquire => exact inUseAt_acquire_held s i hp.2
  | returnBuffer j h =>
    show inUseAt i (returnBufferLocked j h s).mBuffers = true
    by_cases hrej : h = none ∨ s.mBuffers.length ≤ j ∨ inUseAt j s.mBuffers = false
    · rw [returnBufferLocked_rejected j h s hrej]
      exact hp.2
    · have h1 : h ≠ none := fun h0 => hrej (Or.inl h0)
      have h2 : j < s.mBuffers.length := Nat.not_le.mp (fun h0 => hrej (Or.inr (Or.inl h0)))
      have h3 : inUseAt j s.mBuffers = true := by
        cases hu : inUseAt j s.mBuffers with
        | false => exact absurd (Or.inr (Or.inr hu)) hrej
        | true => rfl
      have hij : i ≠ j := by
        intro hij
        subst hij
        cases h with
        | none => exact h1 rfl
        | some v => simp [PoolOp.releases] at hop
      rw [(returnBufferLocked_accepted j h s h1 h2 h3).2.2.2.2 i hij]
      exact hp.2
  | deliveryFailed j =>
    have hij : i ≠ j := by
      intro hij
      subst hij
      simp [PoolOp.releases] at hop
    show inUseAt i (modifyAt (fun r => { r with inUse := false }) j s.mBuffers) = true
    rw [inUseAt_modifyAt_ne _ i j hij]
    exact hp.2
  | importExternalBuffers bs =>
    exact (importExternalBuffers_bufs (fun l => AbsentFree l ∧ inUseAt i l = true)
      (held_storeHandle i) bs s hp).2

theorem held_runPool (i : Nat) (ops : List PoolOp) (s : Camera)
    (hops : ∀ op ∈ ops, op.releases i = false)
    (hp : AbsentFree s.mBuffers ∧ inUseAt i s.mBuffers = true) :
    AbsentFree (runPool ops s).mBuffers ∧ inUseAt i (runPool ops s).mBuffers = true := by
  induction ops generalizing s with
  | nil => exact hp
  | cons op rest ih =>
    exact ih _ (fun o ho => hops o (List.mem_cons_of_mem _ ho))
      (held_poolOp i op s (hops op (List.mem_cons_self _ _)) hp)

/-! ### No double acquire -/

/-- C7. No double-acquire: start from a state satisfying the invariant and run
any sequence of pool operations (`setAvailableFrames_Locked`, acquire steps,
`returnBufferLocked`, delivery-failure releases, `importExternalBuffers`), each
under the lock. If an acquire step then returns index `i`, and the operations
that follow contain no release of `i` (no `returnBufferLocked(i, handle)` with a
non-null handle and no delivery-failure release of `i`), the next acquire step
does not return `i`. The operations in between may themselves be acquire
steps, so no later acquire returns `i` before a release of `i`. -/
theorem no_double_acquire (s0 : Camera) (hinv : PoolInv s0) (pre mid : List PoolOp) (i : Nat)
    (hacq : (generateFrames_acquire (runPool pre s0)).1 = Acquire.acquired i)
    (hmid : ∀ op ∈ mid, op.releases i = false) :
    (generateFrames_acquire
      (runPool mid (generateFrames_acquire (runPool pre s0)).2)).1 ≠ Acquire.acquired i := by
  have ha : AbsentFree (runPool pre s0).mBuffers := absentFree_runPool pre s0 hinv.1
  obtain ⟨hlt, _, hh, _, _, _, heq⟩ := acquire_spec (runPool pre s0) i hacq
  have hheld : AbsentFree (generateFrames_acquire (runPool pre s0)).2.mBuffers ∧
      inUseAt i (generateFrames_acquire (runPool pre s0)).2.mBuffers = true := by
    refine ⟨absentFree_acquire _ ha, ?_⟩
    rw [heq]
    exact inUseAt_modifyAt_self _ true (fun _ => rfl) i _ hlt
  have hend := held_runPool i mid _ hmid hheld
  intro hagain
  have hfree := (acquire_spec _ i hagain).2.1
  rw [hend.2] at hfree
  exact Bool.noConfusion hfree

/-- The running camera `oneFreeRunning` hands out index 0; after a further
acquire step and a growth to two buffers the next acquire step returns index 1. -/
theorem no_double_acquire_witness :
    PoolInv oneFreeRunning ∧
    (generateFrames_acquire (runPool [] oneFreeRunning)).1 = Acquire.acquired 0 ∧
    (generateFrames_acquire
      (runPool [PoolOp.acquire, PoolOp.setAvailableFrames allocAlways 2]
        (generateFrames_acquire (runPool [] oneFreeRunning)).2)).1 ≠ Acquire.acquired 0 ∧
    (generateFrames_acquire
      (runPool [PoolOp.acquire, PoolOp.setAvailableFrames allocAlways 2]
        (generateFrames_acquire (runPool [] oneFreeRunning)).2)).1 = Acquire.acquired 1 :=
  ⟨by decide, by decide,
    no_double_acquire oneFreeRunning (by decide) []
      [PoolOp.acquire, PoolOp.setAvailableFrames allocAlways 2] 0 (by decide)
      (by intro op hop; simp at hop; rcases hop with h | h <;> subst h <;> rfl),
    by decide⟩

/-! ### Counting records -/

theorem inUseCount_cons (r : BufferRecord) (l : List BufferRecord) :
    inUseCount (r :: l) = inUseCount l + (if r.inUse = true then 1 else 0) := by
  simp [inUseCount, List.countP_cons]

theorem presentCount_cons (r : BufferRecord) (l : List BufferRecord) :
    presentCount (r :: l) = presentCount l + (if r.handle.isSome = true then 1 else 0) := by
  simp [presentCount, List.countP_cons]

theorem presentCount_le_length (l : List BufferRecord) : presentCount l ≤ l.length := by
  unfold presentCount
  exact List.countP_le_length _

theorem inUseCount_le_presentCount (l : List BufferRecord) (ha : AbsentFree l) :
    inUseCount l ≤ presentCount l := by
  induction l with
  | nil => simp [inUseCount, presentCount]
  | cons r rest ih =>
    rw [absentFree_cons] at ha
    rw [inUseCount_cons, presentCount_cons]
    have := ih ha.2
    cases hh : r.handle with
    | none =>
      have hu := ha.1 hh
      simp [hu]
      exact this
    | some v =>
      simp
      split <;> omega

theorem poolInv_of_abc (s : Camera) (ha : AbsentFree s.mBuffers)
    (hb : inUseCount s.mBuffers = s.mFramesInUse)
    (hc : presentCount s.mBuffers = s.mFramesAllowed) : PoolInv s := by
  refine ⟨ha, hb, hc, ?_, ?_⟩
  · rw [← hb, ← hc]
    exact inUseCount_le_presentCount _ ha
  · rw [← hc]
    exact presentCount_le_length _

theorem presentCount_storeHandle (h : Handle) (l : List BufferRecord) :
    presentCount (storeHandle h l) = presentCount l + 1 := by
  induction l with
  | nil => simp [storeHandle, presentCount, BufferRecord.wrap]
  | cons r rest ih =>
    unfold storeHandle
    by_cases hr : r.handle = none
    · simp only [hr, if_true]
      rw [presentCount_cons, presentCount_cons]
      simp [hr]
    · simp only [hr, if_false]
      rw [presentCount_cons, presentCount_cons, ih]
      omega

theorem inUseCount_storeHandle (h : Handle) (l : List BufferRecord) (ha : AbsentFree l) :
    inUseCount (storeHandle h l) = inUseCount l := by
  induction l with
  | nil => simp [storeHandle, inUseCount, BufferRecord.wrap]
  | cons r rest ih =>
    rw [absentFree_cons] at ha
    unfold storeHandle
    by_cases hr : r.handle = none
    · simp only [hr, if_true]
      rw [inUseCount_cons, inUseCount_cons]
      simp [ha.1 hr]
    · simp only [hr, if_false]
      rw [inUseCount_cons, inUseCount_cons, ih ha.2]

theorem inUseCount_modifyAt_keep (f : BufferRecord → BufferRecord)
    (hf : ∀ r, (f r).inUse = r.inUse) (i : Nat) (l : List BufferRecord) :
    inUseCount (modifyAt f i l) = inUseCount l := by
  induction l generalizing i with
  | nil => cases i <;> rfl
  | cons r rest ih =>
    cases i with
    | zero => simp [modifyAt, inUseCount_cons, hf]
    | succ k => simp [modifyAt, inUseCount_cons, ih]

theorem presentCount_modifyAt_keep (f : BufferRecord → BufferRecord)
    (hf : ∀ r, (f r).handle = r.handle) (i : Nat) (l : List BufferRecord) :
    presentCount (modifyAt f i l) = presentCount l := by
  induction l generalizing i with
  | nil => cases i <;> rfl
  | cons r rest ih =>
    cases i with
    | zero => simp [modifyAt, presentCount_cons, hf]
    | succ k => simp [modifyAt, presentCount_cons, ih]

theorem inUseCount_modifyAt_release (i : Nat) (l : List BufferRecord)
    (hi : inUseAt i l = true) :
    inUseCount (modifyAt (fun r => { r with inUse := false }) i l) + 1 = inUseCount l := by
  induction l generalizing i with
  | nil => cases i <;> simp [inUseAt] at hi
  | cons r rest ih =>
    cases i with
    | zero =>
      have hr : r.inUse = true := hi
      simp [modifyAt, inUseCount_cons, hr]
    | succ k =>
      have := ih k hi
      simp only [modifyAt, inUseCount_cons]
      omega

theorem inUseCount_modifyAt_acquire (i : Nat) (l : List BufferRecord)
    (hlt : i < l.length) (hi : inUseAt i l = false) :
    inUseCount (modifyAt (fun r => { r with inUse := true }) i l) = inUseCount l + 1 := by
  induction l generalizing i with
  | nil => simp at hlt
  | cons r rest ih =>
    cases i with
    | zero =>
      have hr : r.inUse = false := hi
      simp [modifyAt, inUseCount_cons, hr]
    | succ k =>
      have := ih k (by simpa using hlt) hi
      simp only [modifyAt, inUseCount_cons]
      omega

theorem presentCount_modifyAt_handle (c : Option Handle) (m : Nat) (l : List BufferRecord) :
    presentCount (modifyAt (fun r => { r with handle := c }) m l) +
        (if (handleAt m l).isSome = true then 1 else 0) =
      presentCount l + (if m < l.length ∧ c.isSome = true then 1 else 0) := by
  induction l generalizing m with
  | nil => cases m <;> simp [modifyAt, handleAt, presentCount]
  | cons r rest ih =>
    cases m with
    | zero =>
      simp only [modifyAt, handleAt, presentCount_cons, List.length_cons, Nat.zero_lt_succ,
        true_and]
      omega
    | succ k =>
      have := ih k
      simp only [modifyAt, handleAt, presentCount_cons, List.length_cons,
        Nat.succ_lt_succ_iff] at this ⊢
      omega

theorem presentCount_relocate (k : Nat) (l : List BufferRecord) :
    presentCount (relocate k l) = presentCount l := by
  unfold relocate
  split
  · rfl
  · rename_i j hj
    obtain ⟨hjlt, hjabs⟩ := firstAbsent_spec l j hj
    have h1 := presentCount_modifyAt_handle (handleAt k l) j l
    have h2 := presentCount_modifyAt_handle none k
      (modifyAt (fun r => { r with handle := handleAt k l }) j l)
    have hk : handleAt k (modifyAt (fun r => { r with handle := handleAt k l }) j l)
        = handleAt k l := by
      by_cases hkj : k = j
      · subst hkj
        exact handleAt_modifyAt_self (fun r => { r with handle := handleAt k l }) (handleAt k l)
          (fun _ => rfl) k l hjlt
      · exact handleAt_modifyAt_ne _ k j hkj l
    rw [hk] at h2
    rw [hjabs] at h1
    simp only [Option.isSome_none, Bool.false_eq_true, if_false, and_false, hjlt,
      true_and, Nat.add_zero] at h1 h2
    omega

theorem inUseCount_relocate (k : Nat) (l : List BufferRecord) :
    inUseCount (relocate k l) = inUseCount l := by
  unfold relocate
  split
  · rfl
  · rw [inUseCount_modifyAt_keep (fun r => { r with handle := none }) (fun _ => rfl),
      inUseCount_modifyAt_keep (fun r => { r with handle := handleAt k l }) (fun _ => rfl)]

theorem inUseCount_decreaseLoop (n : Nat) (l : List BufferRecord) (removed allowed : Nat)
    (log : List (Option Handle)) :
    inUseCount (decreaseLoop n l removed allowed log).bufs = inUseCount l := by
  induction l generalizing removed allowed log with
  | nil => rfl
  | cons r rest ih =>
    unfold decreaseLoop
    split
    · split
      · simp [inUseCount_cons]
      · simp [inUseCount_cons, ih]
    · simp [inUseCount_cons, ih]

theorem decU_succ (x : Nat) (hx : x + 1 < 4294967296) : decU (x + 1) = x := by
  unfold decU
  omega

theorem incU_lt (x : Nat) (hx : x + 1 < 4294967296) : incU x = x + 1 := by
  unfold incU
  omega

theorem allowed_decreaseLoop (n : Nat) (l : List BufferRecord) (removed allowed : Nat)
    (log : List (Option Handle)) (extra : Nat)
    (hal : allowed = presentCount l + extra) (hlt : allowed < 4294967296) :
    (decreaseLoop n l removed allowed log).allowed =
      presentCount (decreaseLoop n l removed allowed log).bufs + extra := by
  induction l generalizing removed allowed log extra with
  | nil => simpa [decreaseLoop, presentCount] using hal
  | cons r rest ih =>
    rw [presentCount_cons] at hal
    unfold decreaseLoop
    split
    · rename_i hr
      have hsome : r.handle.isSome = true := by
        cases hh : r.handle with
        | none => exact absurd hh hr.2
        | some v => rfl
      rw [hsome] at hal
      simp only [if_true] at hal
      have hdec : decU allowed = presentCount rest + extra := by
        rw [hal]
        have : presentCount rest + 1 + extra = (presentCount rest + extra) + 1 := by omega
        rw [this]
        exact decU_succ _ (by omega)
      split
      · simp only [presentCount_cons, Option.isSome_none, Bool.false_eq_true, if_false]
        omega
      · simp only [presentCount_cons, Option.isSome_none, Bool.false_eq_true, if_false]
        rw [ih _ _ _ extra hdec (by omega)]
        omega
    · simp only [presentCount_cons]
      rw [ih removed allowed log ((if r.handle.isSome = true then 1 else 0) + extra)
        (by omega) hlt]
      omega

/-! ### The operations keep the invariant -/

theorem poolInv_congr (s t : Camera) (hb : t.mBuffers = s.mBuffers)
    (ha : t.mFramesAllowed = s.mFramesAllowed) (hu : t.mFramesInUse = s.mFramesInUse)
    (hinv : PoolInv s) : PoolInv t := by
  unfold PoolInv at hinv ⊢
  rw [hb, ha, hu]
  exact hinv

theorem length_increaseLoop (alloc : Nat → Option Handle) (n added : Nat) (s : Camera) :
    s.mBuffers.length ≤ (increaseLoop alloc n added s).2.mBuffers.length :=
  increaseLoop_bufs (fun l => s.mBuffers.length ≤ l.length)
    (fun h l hl => Nat.le_trans hl (length_storeHandle h l)) alloc n added s (Nat.le_refl _)

theorem length_importLoop (bs : List (Option Handle)) (s : Camera) :
    s.mBuffers.length ≤ (importLoop bs s).mBuffers.length :=
  importLoop_bufs (fun l => s.mBuffers.length ≤ l.length)
    (fun h l hl => Nat.le_trans hl (length_storeHandle h l)) bs s (Nat.le_refl _)

theorem poolInv_store (h : Handle) (s t : Camera) (hinv : PoolInv s)
    (hb : t.mBuffers = storeHandle h s.mBuffers)
    (ha : t.mFramesAllowed = incU s.mFramesAllowed)
    (hu : t.mFramesInUse = s.mFramesInUse)
    (hlen : t.mBuffers.length < 4294967296) : PoolInv t := by
  obtain ⟨h1, h2, h3, _, _⟩ := hinv
  have hp : presentCount t.mBuffers = s.mFramesAllowed + 1 := by
    rw [hb, presentCount_storeHandle, h3]
  have hle := presentCount_le_length t.mBuffers
  apply poolInv_of_abc
  · rw [hb]; exact absentFree_storeHandle h _ h1
  · rw [hb, hu, inUseCount_storeHandle h _ h1, h2]
  · rw [ha, incU_lt _ (by omega), hp]

theorem poolInv_increaseLoop (alloc : Nat → Option Handle) (n added : Nat) (s : Camera)
    (hinv : PoolInv s)
    (hlen : (increaseLoop alloc n added s).2.mBuffers.length < 4294967296) :
    PoolInv (increaseLoop alloc n added s).2 := by
  induction n generalizing added s with
  | zero => exact hinv
  | succ k ih =>
    cases hall : alloc s.allocCalls with
    | none =>
      simp only [increaseLoop, hall]
      exact poolInv_congr s _ rfl rfl rfl hinv
    | some h =>
      simp only [increaseLoop, hall] at hlen ⊢
      apply ih _ _ _ hlen
      exact poolInv_store h s _ hinv rfl rfl rfl
        (Nat.lt_of_le_of_lt (length_increaseLoop alloc k (added + 1) _) hlen)

theorem poolInv_importLoop (bs : List (Option Handle)) (s : Camera) (hinv : PoolInv s)
    (hlen : (importLoop bs s).mBuffers.length < 4294967296) :
    PoolInv (importLoop bs s) := by
  induction bs generalizing s with
  | nil => exact hinv
  | cons b rest ih =>
    cases b with
    | none => exact ih s hinv hlen
    | some h =>
      simp only [importLoop] at hlen ⊢
      apply ih _ _ hlen
      exact poolInv_store h s _ hinv rfl rfl rfl
        (Nat.lt_of_le_of_lt (length_importLoop rest _) hlen)

theorem length_decrease (n : Nat) (s : Camera) :
    (decreaseAvailableFrames_Locked n s).2.mBuffers.length = s.mBuffers.length := by
  simp [decreaseAvailableFrames_Locked, length_decreaseLoop]

theorem poolInv_decrease (n : Nat) (s : Camera) (hinv : PoolInv s)
    (hlen : s.mBuffers.length < 4294967296) :
    PoolInv (decreaseAvailableFrames_Locked n s).2 := by
  obtain ⟨h1, h2, h3, _, h5⟩ := hinv
  apply poolInv_of_abc
  · exact absentFree_decreaseLoop _ _ _ _ _ h1
  · simp only [decreaseAvailableFrames_Locked]
    rw [inUseCount_decreaseLoop, h2]
  · simp only [decreaseAvailableFrames_Locked]
    rw [allowed_decreaseLoop n s.mBuffers 0 s.mFramesAllowed s.freed 0 (by omega) (by omega)]
    rfl

theorem poolInv_setAvailableFrames (alloc : Nat → Option Handle) (n : Nat) (s : Camera)
    (hinv : PoolInv s)
    (hlen : (setAvailableFrames_Locked alloc n s).2.mBuffers.length < 4294967296) :
    PoolInv (setAvailableFrames_Locked alloc n s).2 := by
  unfold setAvailableFrames_Locked at hlen ⊢
  split at hlen
  · rename_i h1; rw [if_pos h1]; exact hinv
  · rename_i h1
    rw [if_neg h1]
    split at hlen
    · rename_i h2; rw [if_pos h2]; exact hinv
    · rename_i h2
      rw [if_neg h2]
      split at hlen
      · rename_i h3
        rw [if_pos h3]
        simp only at hlen ⊢
        split at hlen
        · rename_i h4
          rw [if_pos h4]
          rw [length_decrease] at hlen
          exact poolInv_decrease _ _ (poolInv_increaseLoop alloc _ _ s hinv hlen) hlen
        · rename_i h4
          rw [if_neg h4]
          exact poolInv_increaseLoop alloc _ _ s hinv hlen
      · rename_i h3
        rw [if_neg h3]
        split at hlen
        · rename_i h4
          rw [if_pos h4]
          rw [length_decrease] at hlen
          exact poolInv_decrease _ _ hinv hlen
        · rename_i h4
          rw [if_neg h4]
          exact hinv

theorem length_returnBufferLocked (i : Nat) (h : Option Handle) (s : Camera) :
    (returnBufferLocked i h s).mBuffers.length = s.mBuffers.length := by
  by_cases hrej : h = none ∨ s.mBuffers.length ≤ i ∨ inUseAt i s.mBuffers = false
  · rw [returnBufferLocked_rejected i h s hrej]
  · have h1 : h ≠ none := fun h0 => hrej (Or.inl h0)
    have h2 : i < s.mBuffers.length := Nat.not_le.mp (fun h0 => hrej (Or.inr (Or.inl h0)))
    have h3 : inUseAt i s.mBuffers = true := by
      cases hu : inUseAt i s.mBuffers with
      | false => exact absurd (Or.inr (Or.inr hu)) hrej
      | true => rfl
    exact (returnBufferLocked_accepted i h s h1 h2 h3).2.1

theorem poolInv_returnBufferLocked (i : Nat) (h : Option Handle) (s : Camera)
    (hinv : PoolInv s) (hlen : s.mBuffers.length < 4294967296) :
    PoolInv (returnBufferLocked i h s) := by
  by_cases hrej : h = none ∨ s.mBuffers.length ≤ i ∨ inUseAt i s.mBuffers = false
  · rw [returnBufferLocked_rejected i h s hrej]
    exact hinv
  · have h1 : h ≠ none := fun h0 => hrej (Or.inl h0)
    have h2 : ¬ s.mBuffers.length ≤ i := fun h0 => hrej (Or.inr (Or.inl h0))
    have h3 : inUseAt i s.mBuffers = true := by
      cases hu : inUseAt i s.mBuffers with
      | false => exact absurd (Or.inr (Or.inr hu)) hrej
      | true => rfl
    have ha := absentFree_returnBufferLocked i h s hinv.1
    obtain ⟨_, hb, hc, _, hd⟩ := hinv
    have hcount := inUseCount_modifyAt_release i s.mBuffers h3
    have hle := inUseCount_le_presentCount _ ‹AbsentFree s.mBuffers›
    have hpl := presentCount_le_length s.mBuffers
    have hdec : decU s.mFramesInUse =
        inUseCount (modifyAt (fun r => { r with inUse := false }) i s.mBuffers) := by
      rw [← hb, ← hcount]
      exact decU_succ _ (by omega)
    apply poolInv_of_abc _ ha
    · unfold returnBufferLocked
      simp only [h1, if_false, ge_iff_le, h2, h3, Bool.true_eq_false]
      split
      · simp only [inUseCount_relocate]
        exact hdec.symm
      · exact hdec.symm
    · unfold returnBufferLocked
      simp only [h1, if_false, ge_iff_le, h2, h3, Bool.true_eq_false]
      split
      · simp only [presentCount_relocate]
        rw [presentCount_modifyAt_keep (fun r => { r with inUse := false }) (fun _ => rfl)]
        exact hc
      · simp only
        rw [presentCount_modifyAt_keep (fun r => { r with inUse := false }) (fun _ => rfl)]
        exact hc

theorem length_doneWithFrame_1_1 (bs : List (Nat × Option Handle)) (s : Camera) :
    (doneWithFrame_1_1 bs s).2.mBuffers.length = s.mBuffers.length := by
  unfold doneWithFrame_1_1
  simp only
  induction bs generalizing s with
  | nil => rfl
  | cons b rest ih =>
    simp only [List.foldl]
    rw [ih, length_returnBufferLocked]

theorem poolInv_doneWithFrame_1_1 (bs : List (Nat × Option Handle)) (s : Camera)
    (hinv : PoolInv s) (hlen : s.mBuffers.length < 4294967296) :
    PoolInv (doneWithFrame_1_1 bs s).2 := by
  unfold doneWithFrame_1_1
  simp only
  induction bs generalizing s with
  | nil => exact hinv
  | cons b rest ih =>
    simp only [List.foldl]
    exact ih _ (poolInv_returnBufferLocked b.1 b.2 s hinv hlen)
      (by rw [length_returnBufferLocked]; exact hlen)

theorem length_acquire (s : Camera) :
    (generateFrames_acquire s).2.mBuffers.length = s.mBuffers.length := by
  by_cases h : ∃ i, (generateFrames_acquire s).1 = Acquire.acquired i
  · obtain ⟨i, hi⟩ := h
    rw [(acquire_spec s i hi).2.2.2.2.2.2]
    exact length_modifyAt _ _ _
  · rw [acquire_not_acquired s (fun i hi => h ⟨i, hi⟩)]

theorem poolInv_acquire (s : Camera) (hinv : PoolInv s)
    (hlen : s.mBuffers.length < 4294967296) : PoolInv (generateFrames_acquire s).2 := by
  by_cases h : ∃ i, (generateFrames_acquire s).1 = Acquire.acquired i
  · obtain ⟨i, hi⟩ := h
    obtain ⟨hlt, hu, hh, _, _, hroom, heq⟩ := acquire_spec s i hi
    obtain ⟨ha, hb, hc, _, hd⟩ := hinv
    rw [heq]
    apply poolInv_of_abc
    · exact absentFree_modifyAt_acquire i _ ha hh
    · show inUseCount (modifyAt (fun r => { r with inUse := true }) i s.mBuffers)
        = incU s.mFramesInUse
      rw [inUseCount_modifyAt_acquire i _ hlt hu, hb, incU_lt _ (by omega)]
    · show presentCount (modifyAt (fun r => { r with inUse := true }) i s.mBuffers)
        = s.mFramesAllowed
      rw [presentCount_modifyAt_keep (fun r => { r with inUse := true }) (fun _ => rfl), hc]
  · rw [acquire_not_acquired s (fun i hi => h ⟨i, hi⟩)]
    exact hinv

theorem poolInv_deliveryFailed (idx : Nat) (s : Camera) (hinv : PoolInv s)
    (hlen : s.mBuffers.length < 4294967296) (hheld : inUseAt idx s.mBuffers = true) :
    PoolInv (generateFrames_deliveryFailed idx s) := by
  obtain ⟨ha, hb, hc, _, hd⟩ := hinv
  have hcount := inUseCount_modifyAt_release idx s.mBuffers hheld
  have hle := inUseCount_le_presentCount _ ha
  have hpl := presentCount_le_length s.mBuffers
  apply poolInv_of_abc
  · exact absentFree_modifyAt_release idx _ ha
  · show inUseCount (modifyAt (fun r => { r with inUse := false }) idx s.mBuffers)
      = decU s.mFramesInUse
    rw [← hb, ← hcount]
    exact (decU_succ _ (by omega)).symm
  · show presentCount (modifyAt (fun r => { r with inUse := false }) idx s.mBuffers)
      = s.mFramesAllowed
    rw [presentCount_modifyAt_keep (fun r => { r with inUse := false }) (fun _ => rfl), hc]

theorem length_importExternalBuffers (bs : List (Option Handle)) (s : Camera) :
    s.mBuffers.length ≤ (importExternalBuffers bs s).2.mBuffers.length :=
  importExternalBuffers_bufs (fun l => s.mBuffers.length ≤ l.length)
    (fun h l hl => Nat.le_trans hl (length_storeHandle h l)) bs s (Nat.le_refl _)

theorem poolInv_importExternalBuffers (bs : List (Option Handle)) (s : Camera)
    (hinv : PoolInv s)
    (hlen : (importExternalBuffers bs s).2.mBuffers.length < 4294967296) :
    PoolInv (importExternalBuffers bs s).2 := by
  unfold importExternalBuffers at hlen ⊢
  split at hlen
  · rename_i h1; rw [if_pos h1]; exact hinv
  · rename_i h1
    rw [if_neg h1]
    exact poolInv_importLoop _ s hinv hlen

theorem length_setAvailableFrames (alloc : Nat → Option Handle) (n : Nat) (s : Camera) :
    s.mBuffers.length ≤ (setAvailableFrames_Locked alloc n s).2.mBuffers.length :=
  setAvailableFrames_bufs (fun l => s.mBuffers.length ≤ l.length)
    (fun h l hl => Nat.le_trans hl (length_storeHandle h l))
    (fun n l r a g hl => by simpa [length_decreaseLoop] using hl) alloc n s (Nat.le_refl _)

/-! ### Runs of lock scopes -/

theorem setMaxFramesInFlight_pool (alloc : Nat → Option Handle) (n : Nat) (s : Camera) :
    (setMaxFramesInFlight alloc n s).2 = s ∨
    (setMaxFramesInFlight alloc n s).2 = (setAvailableFrames_Locked alloc n s).2 := by
  unfold setMaxFramesInFlight
  split
  · exact Or.inl rfl
  · split
    · exact Or.inl rfl
    · simp only
      split <;> exact Or.inr rfl

theorem startVideoStream_pool (alloc : Nat → Option Handle) (stream : Option Nat) (s : Camera) :
    ∃ t, (t = s ∨ t = (setAvailableFrames_Locked alloc kMinimumBuffersInFlight s).2) ∧
      (startVideoStream alloc stream s).2.mBuffers = t.mBuffers ∧
      (startVideoStream alloc stream s).2.mFramesAllowed = t.mFramesAllowed ∧
      (startVideoStream alloc stream s).2.mFramesInUse = t.mFramesInUse := by
  unfold startVideoStream
  split
  · exact ⟨s, Or.inl rfl, rfl, rfl, rfl⟩
  · split
    · exact ⟨s, Or.inl rfl, rfl, rfl, rfl⟩
    · by_cases hlow : s.mFramesAllowed < kMinimumBuffersInFlight
      · refine ⟨(setAvailableFrames_Locked alloc kMinimumBuffersInFlight s).2, Or.inr rfl, ?_⟩
        simp only [hlow, if_true]
        split
        · exact ⟨rfl, rfl, rfl⟩
        · split <;> exact ⟨rfl, rfl, rfl⟩
      · refine ⟨s, Or.inl rfl, ?_⟩
        simp only [hlow, if_false]
        split
        · exact ⟨rfl, rfl, rfl⟩
        · split <;> exact ⟨rfl, rfl, rfl⟩

theorem length_le_apply (op : Op) (s : Camera) (hlive : op.live s = true) :
    s.mBuffers.length ≤ (op.apply s).mBuffers.length := by
  cases op with
  | setMaxFramesInFlight alloc n =>
    show s.mBuffers.length ≤ (setMaxFramesInFlight alloc n s).2.mBuffers.length
    rcases setMaxFramesInFlight_pool alloc n s with h | h
    · rw [h]
    · rw [h]; exact length_setAvailableFrames alloc n s
  | startVideoStream alloc stream =>
    show s.mBuffers.length ≤ (startVideoStream alloc stream s).2.mBuffers.length
    obtain ⟨t, ht, hb, _, _⟩ := startVideoStream_pool alloc stream s
    rw [hb]
    rcases ht with h | h
    · rw [h]
    · rw [h]; exact length_setAvailableFrames alloc _ s
  | stopRequest =>
    show s.mBuffers.length ≤ (stopVideoStream_request s).mBuffers.length
    unfold stopVideoStream_request
    split <;> exact Nat.le_refl _
  | stopFinish => exact Nat.le_refl _
  | doneWithFrame i h =>
    show s.mBuffers.length ≤ (returnBufferLocked i h s).mBuffers.length
    rw [length_returnBufferLocked]
  | doneWithFrame_1_1 bs =>
    show s.mBuffers.length ≤ (doneWithFrame_1_1 bs s).2.mBuffers.length
    rw [length_doneWithFrame_1_1]
  | importExternalBuffers bs => exact length_importExternalBuffers bs s
  | shutdownLocked => simp [Op.live] at hlive
  | acquire =>
    show s.mBuffers.length ≤ (generateFrames_acquire s).2.mBuffers.length
    rw [length_acquire]
  | deliveryFailed idx =>
    show s.mBuffers.length ≤ (generateFrames_deliveryFailed idx s).mBuffers.length
    simp [generateFrames_deliveryFailed, length_modifyAt]

theorem poolInv_apply (op : Op) (s : Camera) (hlive : op.live s = true) (hinv : PoolInv s)
    (hlen : (op.apply s).mBuffers.length < 4294967296) : PoolInv (op.apply s) := by
  have hpre : s.mBuffers.length < 4294967296 :=
    Nat.lt_of_le_of_lt (length_le_apply op s hlive) hlen
  cases op with
  | setMaxFramesInFlight alloc n =>
    show PoolInv (setMaxFramesInFlight alloc n s).2
    have hlen2 : (setMaxFramesInFlight alloc n s).2.mBuffers.length < 4294967296 := hlen
    rcases setMaxFramesInFlight_pool alloc n s with h | h
    · rw [h]; exact hinv
    · rw [h] at hlen2 ⊢
      exact poolInv_setAvailableFrames alloc n s hinv hlen2
  | startVideoStream alloc stream =>
    show PoolInv (startVideoStream alloc stream s).2
    have hlen2 : (startVideoStream alloc stream s).2.mBuffers.length < 4294967296 := hlen
    obtain ⟨t, ht, hb, ha, hu⟩ := startVideoStream_pool alloc stream s
    apply poolInv_congr t _ hb ha hu
    rw [hb] at hlen2
    rcases ht with h | h
    · rw [h]; exact hinv
    · rw [h] at hlen2 ⊢
      exact poolInv_setAvailableFrames alloc _ s hinv hlen2
  | stopRequest =>
    show PoolInv (stopVideoStream_request s)
    unfold stopVideoStream_request
    split
    · exact hinv
    · exact poolInv_congr s _ rfl rfl rfl hinv
  | stopFinish => exact poolInv_congr s _ rfl rfl rfl hinv
  | doneWithFrame i h => exact poolInv_returnBufferLocked i h s hinv hpre
  | doneWithFrame_1_1 bs => exact poolInv_doneWithFrame_1_1 bs s hinv hpre
  | importExternalBuffers bs => exact poolInv_importExternalBuffers bs s hinv hlen
  | shutdownLocked => simp [Op.live] at hlive
  | acquire => exact poolInv_acquire s hinv hpre
  | deliveryFailed idx => exact poolInv_deliveryFailed idx s hinv hpre hlive

theorem length_le_run (ops : List Op) (s : Camera) (hlive : liveRun ops s = true) :
    s.mBuffers.length ≤ (run ops s).mBuffers.length := by
  induction ops generalizing s with
  | nil => exact Nat.le_refl _
  | cons op rest ih =>
    simp only [liveRun, Bool.and_eq_true] at hlive
    exact Nat.le_trans (length_le_apply op s hlive.1) (ih _ hlive.2)

theorem poolInv_run (ops : List Op) (s : Camera) (hlive : liveRun ops s = true)
    (hinv : PoolInv s) (hlen : (run ops s).mBuffers.length < 4294967296) :
    PoolInv (run ops s) := by
  induction ops generalizing s with
  | nil => exact hinv
  | cons op rest ih =>
    simp only [liveRun, Bool.and_eq_true] at hlive
    have hmid : (op.apply s).mBuffers.length < 4294967296 :=
      Nat.lt_of_le_of_lt (length_le_run rest _ hlive.2) hlen
    exact ih _ hlive.2 (poolInv_apply op s hlive.1 hinv hmid) hlen

/-! ### The reachable-state invariant -/

/-- C2, as stated, fails on two runs from the fresh camera. First: start the
stream, let the capture thread check out buffer 0, then `forceShutdown` (its
`stopVideoStream`, then its own lock scope): the records are gone but
`frames_in_use` is still 1. Second: start, check out buffer 0, the client
returns buffer 0 while the delivery is pending, the delivery fails:
`frames_in_use` wraps to `2 ^ 32 - 1`, above `frames_allowed = 1`. -/
theorem reachable_counters_disagree :
    run [Op.startVideoStream allocAlways (some 1), Op.acquire, Op.stopRequest, Op.stopFinish,
         Op.shutdownLocked] fresh =
      forceShutdown id (generateFrames_acquire (startVideoStream allocAlways (some 1) fresh).2).2 ∧
    inUseCount (run [Op.startVideoStream allocAlways (some 1), Op.acquire, Op.stopRequest,
      Op.stopFinish, Op.shutdownLocked] fresh).mBuffers = 0 ∧
    (run [Op.startVideoStream allocAlways (some 1), Op.acquire, Op.stopRequest,
      Op.stopFinish, Op.shutdownLocked] fresh).mFramesInUse = 1 ∧
    ¬ CountersAgree (run [Op.startVideoStream allocAlways (some 1), Op.acquire, Op.stopRequest,
      Op.stopFinish, Op.shutdownLocked] fresh) ∧
    ¬ CountersAgree (run [Op.startVideoStream allocAlways (some 1), Op.acquire,
      Op.doneWithFrame 0 (some 10), Op.deliveryFailed 0] fresh) := by
  decide

/-- C2, amended. In every state reachable from a freshly constructed camera by
a sequence of lock scopes of `setMaxFramesInFlight`, `startVideoStream`,
`stopVideoStream`, `doneWithFrame`, `doneWithFrame_1_1`, `importExternalBuffers`
and the capture thread, in which `forceShutdown` has not run, every
delivery-failure release met its record still in use, and the record sequence
is shorter than `2 ^ 32`, `frames_in_use ≤ frames_allowed` and the number of
in-use records equals `frames_in_use`; the whole data-model invariant holds. -/
theorem reachable_counters_agree (ops : List Op) (hlive : liveRun ops fresh = true)
    (hlen : (run ops fresh).mBuffers.length < 4294967296) :
    CountersAgree (run ops fresh) ∧ PoolInv (run ops fresh) := by
  have hinv : PoolInv (run ops fresh) := poolInv_run ops fresh hlive (by decide) hlen
  exact ⟨⟨hinv.2.2.2.1, hinv.2.1⟩, hinv⟩

/-- A run with growth, a frame returned, a failed delivery, a shrink request,
an import and a stop: the counters agree at its end. -/
theorem reachable_counters_agree_witness :
    liveRun [Op.setMaxFramesInFlight allocAlways 3, Op.startVideoStream allocAlways (some 1),
      Op.acquire, Op.doneWithFrame 0 (some 10), Op.acquire, Op.acquire, Op.deliveryFailed 1,
      Op.setMaxFramesInFlight allocAlways 1, Op.importExternalBuffers [some 50, none],
      Op.stopRequest, Op.stopFinish] fresh = true ∧
    CountersAgree (run [Op.setMaxFramesInFlight allocAlways 3,
      Op.startVideoStream allocAlways (some 1),
      Op.acquire, Op.doneWithFrame 0 (some 10), Op.acquire, Op.acquire, Op.deliveryFailed 1,
      Op.setMaxFramesInFlight allocAlways 1, Op.importExternalBuffers [some 50, none],
      Op.stopRequest, Op.stopFinish] fresh) :=
  ⟨by decide,
    (reachable_counters_agree [Op.setMaxFramesInFlight allocAlways 3,
      Op.startVideoStream allocAlways (some 1),
      Op.acquire, Op.doneWithFrame 0 (some 10), Op.acquire, Op.acquire, Op.deliveryFailed 1,
      Op.setMaxFramesInFlight allocAlways 1, Op.importExternalBuffers [some 50, none],
      Op.stopRequest, Op.stopFinish] (by decide) (by decide)).1⟩

/-! ### The rollback after at least one successful allocation -/

theorem freeCount_cons (r : BufferRecord) (l : List BufferRecord) :
    freeCount (r :: l) =
      freeCount l + (if r.inUse = false ∧ r.handle ≠ none then 1 else 0) := by
  unfold freeCount
  rw [List.countP_cons]
  cases hh : r.handle <;> cases hu : r.inUse <;> simp

theorem freeCount_storeHandle (h : Handle) (l : List BufferRecord) :
    freeCount (storeHandle h l) = freeCount l + 1 := by
  induction l with
  | nil => simp [storeHandle, freeCount, BufferRecord.wrap]
  | cons r rest ih =>
    unfold storeHandle
    by_cases hr : r.handle = none
    · simp only [hr, if_true]
      rw [freeCount_cons, freeCount_cons]
      simp [hr]
    · simp only [hr, if_false]
      rw [freeCount_cons, freeCount_cons, ih]
      omega

theorem decreaseLoop_exact (n : Nat) (l : List BufferRecord) (removed allowed : Nat)
    (log : List (Option Handle)) (hrem : removed < n) (hn : n < 4294967296)
    (hfree : n - removed ≤ freeCount l) :
    presentCount (decreaseLoop n l removed allowed log).bufs + (n - removed) = presentCount l ∧
    (decreaseLoop n l removed allowed log).removed = n := by
  induction l generalizing removed allowed log with
  | nil =>
    simp [freeCount] at hfree
    omega
  | cons r rest ih =>
    rw [freeCount_cons] at hfree
    rw [presentCount_cons]
    unfold decreaseLoop
    by_cases hr : r.inUse = false ∧ r.handle ≠ none
    · rw [if_pos hr] at hfree ⊢
      have hsome : r.handle.isSome = true := by
        cases hh : r.handle with
        | none => exact absurd hh hr.2
        | some v => rfl
      have hinc : incU removed = removed + 1 := incU_lt _ (by omega)
      rw [hsome, hinc]
      simp only [if_true]
      by_cases hlast : removed + 1 = n
      · rw [if_pos hlast]
        simp only [presentCount_cons, Option.isSome_none, Bool.false_eq_true, if_false]
        omega
      · rw [if_neg hlast]
        obtain ⟨h1, h2⟩ := ih (removed + 1) (decU allowed) (log ++ [r.handle])
          (by omega) (by omega)
        simp only [presentCount_cons, Option.isSome_none, Bool.false_eq_true, if_false]
        exact ⟨by omega, h2⟩
    · rw [if_neg hr] at hfree ⊢
      obtain ⟨h1, h2⟩ := ih removed allowed log hrem (by omega)
      simp only [presentCount_cons]
      exact ⟨by omega, h2⟩

theorem increaseLoop_exact (alloc : Nat → Option Handle) (M n added : Nat) (s : Camera)
    (hMn : M < n) (hsucc : ∀ k, k < M → alloc (s.allocCalls + k) ≠ none)
    (hfail : alloc (s.allocCalls + M) = none)
    (hroom : s.mFramesAllowed + M < 4294967296) :
    (increaseLoop alloc n added s).1 = added + M ∧
    (increaseLoop alloc n added s).2.mFramesAllowed = s.mFramesAllowed + M ∧
    presentCount (increaseLoop alloc n added s).2.mBuffers = presentCount s.mBuffers + M ∧
    freeCount (increaseLoop alloc n added s).2.mBuffers = freeCount s.mBuffers + M ∧
    (increaseLoop alloc n added s).2.mFramesInUse = s.mFramesInUse := by
  induction M generalizing n added s with
  | zero =>
    cases n with
    | zero => omega
    | succ k =>
      have hnone : alloc s.allocCalls = none := by simpa using hfail
      simp [increaseLoop, hnone]
  | succ m ih =>
    cases n with
    | zero => omega
    | succ k =>
      have hfirst := hsucc 0 (by omega)
      cases hall : alloc s.allocCalls with
      | none => simp [hall] at hfirst
      | some h =>
        simp only [increaseLoop, hall]
        have hinc : incU s.mFramesAllowed = s.mFramesAllowed + 1 := incU_lt _ (by omega)
        obtain ⟨h1, h2, h3, h4, h5⟩ := ih k (added + 1)
          { s with mBuffers := storeHandle h s.mBuffers,
                   mFramesAllowed := incU s.mFramesAllowed,
                   allocCalls := s.allocCalls + 1 }
          (by omega)
          (fun j hj => by
            have := hsucc (j + 1) (by omega)
            simpa [Nat.add_assoc, Nat.add_comm 1 j] using this)
          (by simpa [Nat.add_assoc, Nat.add_comm 1 m] using hfail)
          (by simp only [hinc]; omega)
        refine ⟨by omega, ?_, ?_, ?_, h5⟩
        · rw [h2]; simp only [hinc]; omega
        · rw [h3, presentCount_storeHandle]; omega
        · rw [h4, freeCount_storeHandle]; omega

theorem growth_rollback_restores_count (alloc : Nat → Option Handle) (target M : Nat)
    (s : Camera) (hinv : PoolInv s) (hlt : s.mFramesAllowed < target) (hle : target ≤ 100)
    (hM1 : 1 ≤ M) (hM : M < target - s.mFramesAllowed)
    (hsucc : ∀ k, k < M → alloc (s.allocCalls + k) ≠ none)
    (hfail : alloc (s.allocCalls + M) = none) :
    (setAvailableFrames_Locked alloc target s).1 = false ∧
    (setAvailableFrames_Locked alloc target s).2.mFramesAllowed = s.mFramesAllowed ∧
    (setAvailableFrames_Locked alloc target s).2.mFramesInUse = s.mFramesInUse := by
  obtain ⟨h1, h2, h3, h4, h5⟩ := increaseLoop_exact alloc M (target - s.mFramesAllowed) 0 s
    hM hsucc hfail (by omega)
  have hc : presentCount s.mBuffers = s.mFramesAllowed := hinv.2.2.1
  have hne : (increaseAvailableFrames_Locked alloc (target - s.mFramesAllowed) s).1
      ≠ target - s.mFramesAllowed := by
    unfold increaseAvailableFrames_Locked
    omega
  have hmin : ¬ target < kMinimumBuffersInFlight := by
    unfold kMinimumBuffersInFlight; omega
  have hmax : ¬ target > kMaxBuffersInFlight := by
    unfold kMaxBuffersInFlight; omega
  unfold setAvailableFrames_Locked
  simp only [hmin, hmax, if_false, hlt, if_true, hne, ne_eq, not_false_eq_true]
  unfold increaseAvailableFrames_Locked decreaseAvailableFrames_Locked
  simp only [h1, Nat.zero_add]
  have hex := decreaseLoop_exact M (increaseLoop alloc (target - s.mFramesAllowed) 0 s).2.mBuffers
    0 (increaseLoop alloc (target - s.mFramesAllowed) 0 s).2.mFramesAllowed
    (increaseLoop alloc (target - s.mFramesAllowed) 0 s).2.freed (by omega) (by omega)
    (by rw [h4]; omega)
  have hal := allowed_decreaseLoop M
    (increaseLoop alloc (target - s.mFramesAllowed) 0 s).2.mBuffers
    0 (increaseLoop alloc (target - s.mFramesAllowed) 0 s).2.mFramesAllowed
    (increaseLoop alloc (target - s.mFramesAllowed) 0 s).2.freed 0
    (by rw [h2, h3]; omega) (by rw [h2]; omega)
  refine ⟨trivial, ?_, h5⟩
  rw [hal]
  omega

/-! ### Growth rollback and the import cap, evaluated -/

/-- C1 fails on the code at `M = 0`. `oneFree` satisfies the invariant with
`frames_allowed = 1`; growing it to 2 with an allocator that fails at once
returns false, but the rollback `decreaseAvailableFrames_Locked(0)` frees the
buffer the pool already held: `frames_allowed` is 0 afterwards, not 1. -/
theorem growth_rollback_frees_existing_buffer :
    PoolInv oneFree ∧ oneFree.mFramesAllowed = 1 ∧
    (increaseAvailableFrames_Locked allocNever 1 oneFree).1 = 0 ∧
    (setAvailableFrames_Locked allocNever 2 oneFree).1 = false ∧
    (setAvailableFrames_Locked allocNever 2 oneFree).2.mFramesAllowed = 0 ∧
    (setAvailableFrames_Locked allocNever 2 oneFree).2.mBuffers =
      [{ handle := none, inUse := false }] ∧
    (setAvailableFrames_Locked allocNever 2 oneFree).2.freed = [some 7] := by
  decide

set_option maxRecDepth 20000 in
/-- C4 fails on the code. From the fresh camera (`frames_allowed = 0`), a
list of 201 external buffers that all import is cut to `201 - 100 = 101`
buffers, and `frames_allowed` is 101 afterwards, above `kMaxBuffersInFlight`. -/
theorem import_exceeds_cap :
    fresh.mFramesAllowed ≤ 100 ∧
    (importExternalBuffers (List.replicate 201 (some 7)) fresh).2.mFramesAllowed = 101 ∧
    ¬ (importExternalBuffers (List.replicate 201 (some 7)) fresh).2.mFramesAllowed
        ≤ kMaxBuffersInFlight := by
  decide

/-! ### The `DEAD` state -/

theorem forceShutdown_dead (join : Camera → Camera) (s : Camera) :
    (forceShutdown join s).mStreamState = StreamState.DEAD ∧
    (forceShutdown join s).mBuffers = [] := by
  simp [forceShutdown, forceShutdown_locked]

theorem doneWithFrame_1_1_empty_pool (bs : List (Nat × Option Handle)) (d : Camera)
    (hb : d.mBuffers = []) : doneWithFrame_1_1 bs d = (EvsResult.OK, d) := by
  unfold doneWithFrame_1_1
  congr 1
  induction bs with
  | nil => rfl
  | cons b rest ih =>
    have hstep : returnBufferLocked b.1 b.2 d = d :=
      returnBufferLocked_rejected b.1 b.2 d (Or.inr (Or.inl (by simp [hb])))
    simpa [List.foldl, hstep] using ih

theorem call_in_dead_state (c : Call) (d : Camera)
    (hd : d.mStreamState = StreamState.DEAD) (hb : d.mBuffers = []) :
    c.apply d = (c.deadResult, d) := by
  cases c with
  | setMaxFramesInFlight alloc n =>
    simp [Call.apply, Call.deadResult, setMaxFramesInFlight, hd]
  | startVideoStream alloc stream =>
    simp [Call.apply, Call.deadResult, startVideoStream, hd]
  | stopVideoStream join =>
    simp [Call.apply, Call.deadResult, stopVideoStream, hd]
  | doneWithFrame i h =>
    have hstep : returnBufferLocked i h d = d :=
      returnBufferLocked_rejected i h d (Or.inr (Or.inl (by simp [hb])))
    simp [Call.apply, Call.deadResult, doneWithFrame, hstep]
  | doneWithFrame_1_1 bs =>
    simp [Call.apply, Call.deadResult, doneWithFrame_1_1_empty_pool bs d hb]

theorem runCalls_in_dead_state (calls : List Call) (d : Camera)
    (hd : d.mStreamState = StreamState.DEAD) (hb : d.mBuffers = []) :
    runCalls calls d = (calls.map Call.deadResult, d) := by
  induction calls with
  | nil => rfl
  | cons c rest ih =>
    simp [runCalls, call_in_dead_state c d hd hb, ih]

/-- C5, as stated, fails: after `forceShutdown`, `doneWithFrame_1_1` returns
`OK`, not `OWNERSHIP_LOST`, and `importExternalBuffers` returns `OK` and stores
the imported handle, so that a pool record holds a handle again. -/
theorem dead_calls_not_all_ownership_lost :
    (forceShutdown id oneBusy).mStreamState = StreamState.DEAD ∧
    (doneWithFrame_1_1 [(0, some 10)] (forceShutdown id oneBusy)).1 ≠ EvsResult.OWNERSHIP_LOST ∧
    (importExternalBuffers [some 7] (forceShutdown id oneBusy)).1.1 ≠ EvsResult.OWNERSHIP_LOST ∧
    (importExternalBuffers [some 7] (forceShutdown id oneBusy)).2.mBuffers =
      [{ handle := some 7, inUse := false }] := by
  decide

/-- C5, amended. After `forceShutdown` (whatever happened during the join) the
state is `DEAD` and the pool holds no record, hence no handle; from then on, in
every sequence of calls of `setMaxFramesInFlight`, `startVideoStream`,
`stopVideoStream`, `doneWithFrame` and `doneWithFrame_1_1`, each call leaves
the whole state unchanged, `setMaxFramesInFlight` and `startVideoStream`
return `OWNERSHIP_LOST`, `doneWithFrame_1_1` returns `OK`, and the other two
return nothing. -/
theorem dead_is_inert (join : Camera → Camera) (s : Camera) (calls : List Call) :
    (forceShutdown join s).mStreamState = StreamState.DEAD ∧
    (forceShutdown join s).mBuffers = [] ∧
    (∀ r ∈ (forceShutdown join s).mBuffers, r.handle = none) ∧
    runCalls calls (forceShutdown join s) =
      (calls.map Call.deadResult, forceShutdown join s) := by
  obtain ⟨hd, hb⟩ := forceShutdown_dead join s
  refine ⟨hd, hb, ?_, runCalls_in_dead_state calls _ hd hb⟩
  rw [hb]
  intro r hr
  cases hr

/-! ### Lock scopes that keep the `DEAD` state -/

theorem streamState_returnBufferLocked (i : Nat) (h : Option Handle) (s : Camera) :
    (returnBufferLocked i h s).mStreamState = s.mStreamState := by
  unfold returnBufferLocked
  split
  · rfl
  · split
    · rfl
    · split
      · rfl
      · simp only
        split <;> rfl

theorem streamState_doneWithFrame_1_1 (bs : List (Nat × Option Handle)) (s : Camera) :
    (doneWithFrame_1_1 bs s).2.mStreamState = s.mStreamState := by
  unfold doneWithFrame_1_1
  simp only
  induction bs generalizing s with
  | nil => rfl
  | cons b rest ih =>
    simp only [List.foldl]
    rw [ih, streamState_returnBufferLocked]

theorem streamState_importLoop (bs : List (Option Handle)) (s : Camera) :
    (importLoop bs s).mStreamState = s.mStreamState := by
  induction bs generalizing s with
  | nil => rfl
  | cons b rest ih =>
    cases b with
    | none => exact ih s
    | some h => simp only [importLoop]; rw [ih]

theorem dead_kept_by_lock_scope (op : Op) (s : Camera)
    (hd : s.mStreamState = StreamState.DEAD) :
    (op.apply s).mStreamState = StreamState.DEAD ∨
    (∃ t, op.apply s = stopVideoStream_finish t) := by
  cases op with
  | setMaxFramesInFlight alloc n =>
    left
    simp [Op.apply, setMaxFramesInFlight, hd]
  | startVideoStream alloc stream =>
    left
    simp [Op.apply, startVideoStream, hd]
  | stopRequest =>
    left
    simp [Op.apply, stopVideoStream_request, hd]
  | stopFinish => exact Or.inr ⟨s, rfl⟩
  | doneWithFrame i h =>
    left
    show (returnBufferLocked i h s).mStreamState = StreamState.DEAD
    rw [streamState_returnBufferLocked, hd]
  | doneWithFrame_1_1 bs =>
    left
    show (doneWithFrame_1_1 bs s).2.mStreamState = StreamState.DEAD
    rw [streamState_doneWithFrame_1_1, hd]
  | importExternalBuffers bs =>
    left
    show (importExternalBuffers bs s).2.mStreamState = StreamState.DEAD
    unfold importExternalBuffers
    split
    · exact hd
    · simp only
      rw [streamState_importLoop, hd]
  | shutdownLocked => exact Or.inl rfl
  | acquire =>
    left
    simp [Op.apply, generateFrames_acquire, hd]
  | deliveryFailed idx =>
    left
    exact hd

/-- C6 fails on the code in the second lock scope of `stopVideoStream`. A
caller stops the running camera `oneBusy` and blocks in the join; meanwhile
another caller runs `forceShutdown`, which leaves the state `DEAD`; the first
caller then sets the state to `STOPPED`. -/
theorem stop_finish_leaves_dead :
    (forceShutdown id (stopVideoStream_request oneBusy)).mStreamState = StreamState.DEAD ∧
    (stopVideoStream_finish (forceShutdown id (stopVideoStream_request oneBusy))).mStreamState
      = StreamState.STOPPED ∧
    (stopVideoStream (forceShutdown id) oneBusy).mStreamState = StreamState.STOPPED := by
  decide

/-! ### The delivery-failure release, evaluated -/

/-- C3 fails on the code in the delivery-failure release. The camera is
started, the capture thread checks out buffer 0, the client returns buffer 0
while the delivery is pending: the state satisfies the invariant, with buffer
0 free and `frames_in_use = 0`. The delivery then fails, and the release
decrements `frames_in_use` to `2 ^ 32 - 1` without looking at the record. -/
theorem deliveryFailed_breaks_invariant :
    (generateFrames_acquire (startVideoStream allocAlways (some 1) fresh).2).1
      = Acquire.acquired 0 ∧
    PoolInv (doneWithFrame 0 (some 10)
      (generateFrames_acquire (startVideoStream allocAlways (some 1) fresh).2).2) ∧
    (generateFrames_deliveryFailed 0 (doneWithFrame 0 (some 10)
      (generateFrames_acquire (startVideoStream allocAlways (some 1) fresh).2).2)).mFramesInUse
      = 4294967295 ∧
    ¬ PoolInv (generateFrames_deliveryFailed 0 (doneWithFrame 0 (some 10)
      (generateFrames_acquire (startVideoStream allocAlways (some 1) fresh).2).2)) := by
  decide

/-! ### Fields the resize leaves alone -/

theorem increaseLoop_frame (alloc : Nat → Option Handle) (n added : Nat) (s : Camera) :
    (increaseLoop alloc n added s).2.mStreamState = s.mStreamState ∧
    (increaseLoop alloc n added s).2.mStream = s.mStream ∧
    (increaseLoop alloc n added s).2.mFramesInUse = s.mFramesInUse ∧
    (increaseLoop alloc n added s).2.freed = s.freed := by
  induction n generalizing added s with
  | zero => exact ⟨rfl, rfl, rfl, rfl⟩
  | succ k ih =>
    unfold increaseLoop
    cases alloc s.allocCalls with
    | none => exact ⟨rfl, rfl, rfl, rfl⟩
    | some h => exact ih _ _

theorem decrease_frame (n : Nat) (s : Camera) :
    (decreaseAvailableFrames_Locked n s).2.mStreamState = s.mStreamState ∧
    (decreaseAvailableFrames_Locked n s).2.mStream = s.mStream ∧
    (decreaseAvailableFrames_Locked n s).2.mFramesInUse = s.mFramesInUse ∧
    (decreaseAvailableFrames_Locked n s).2.allocCalls = s.allocCalls :=
  ⟨rfl, rfl, rfl, rfl⟩

theorem setAvailableFrames_frame (alloc : Nat → Option Handle) (n : Nat) (s : Camera) :
    (setAvailableFrames_Locked alloc n s).2.mStreamState = s.mStreamState ∧
    (setAvailableFrames_Locked alloc n s).2.mStream = s.mStream ∧
    (setAvailableFrames_Locked alloc n s).2.mFramesInUse = s.mFramesInUse := by
  have hi := increaseLoop_frame alloc (n - s.mFramesAllowed) 0 s
  unfold setAvailableFrames_Locked
  split
  · exact ⟨rfl, rfl, rfl⟩
  · split
    · exact ⟨rfl, rfl, rfl⟩
    · split
      · simp only
        split
        · have hd := decrease_frame
            (increaseAvailableFrames_Locked alloc (n - s.mFramesAllowed) s).1
            (increaseAvailableFrames_Locked alloc (n - s.mFramesAllowed) s).2
          unfold increaseAvailableFrames_Locked at hd ⊢
          exact ⟨hd.1.trans hi.1, hd.2.1.trans hi.2.1, hd.2.2.1.trans hi.2.2.1⟩
        · unfold increaseAvailableFrames_Locked
          exact ⟨hi.1, hi.2.1, hi.2.2.1⟩
      · split
        · exact ⟨rfl, rfl, rfl⟩
        · exact ⟨rfl, rfl, rfl⟩

theorem setAvailableFrames_one_ok (alloc : Nat → Option Handle) (s : Camera) (h : Handle)
    (h0 : s.mFramesAllowed = 0) (ha : alloc s.allocCalls = some h) :
    setAvailableFrames_Locked alloc 1 s =
      (true, { s with mBuffers := storeHandle h s.mBuffers, mFramesAllowed := 1,
                      allocCalls := s.allocCalls + 1 }) := by
  simp [setAvailableFrames_Locked, kMinimumBuffersInFlight, kMaxBuffersInFlight, h0,
    increaseAvailableFrames_Locked, increaseLoop, ha, incU]

theorem setAvailableFrames_one_fail (alloc : Nat → Option Handle) (s : Camera)
    (h0 : s.mFramesAllowed = 0) (ha : alloc s.allocCalls = none) :
    (setAvailableFrames_Locked alloc 1 s).1 = false := by
  simp [setAvailableFrames_Locked, kMinimumBuffersInFlight, kMaxBuffersInFlight, h0,
    increaseAvailableFrames_Locked, increaseLoop, ha]

/-! ### Result codes of the control surface -/

/-- C14. Configure result codes: `setMaxFramesInFlight(count)` returns
`OWNERSHIP_LOST` whenever the state is `DEAD`, whatever the count; otherwise it
returns `INVALID_ARG` if and only if `count < 1`; otherwise `OK` if
`setAvailableFrames_Locked(count)` accepts and `BUFFER_NOT_AVAILABLE` if it
rejects, with the state `setAvailableFrames_Locked` left. The `OWNERSHIP_LOST`
and `INVALID_ARG` outcomes leave the whole state unchanged. -/
theorem setMaxFramesInFlight_result_codes (alloc : Nat → Option Handle) (count : Nat)
    (s : Camera) :
    (s.mStreamState = StreamState.DEAD →
      setMaxFramesInFlight alloc count s = (EvsResult.OWNERSHIP_LOST, s)) ∧
    (s.mStreamState ≠ StreamState.DEAD →
      ((setMaxFramesInFlight alloc count s).1 = EvsResult.INVALID_ARG ↔ count < 1)) ∧
    (s.mStreamState ≠ StreamState.DEAD → 1 ≤ count →
      (setAvailableFrames_Locked alloc count s).1 = true →
      setMaxFramesInFlight alloc count s =
        (EvsResult.OK, (setAvailableFrames_Locked alloc count s).2)) ∧
    (s.mStreamState ≠ StreamState.DEAD → 1 ≤ count →
      (setAvailableFrames_Locked alloc count s).1 = false →
      setMaxFramesInFlight alloc count s =
        (EvsResult.BUFFER_NOT_AVAILABLE, (setAvailableFrames_Locked alloc count s).2)) ∧
    ((setMaxFramesInFlight alloc count s).1 = EvsResult.OWNERSHIP_LOST ∨
      (setMaxFramesInFlight alloc count s).1 = EvsResult.INVALID_ARG →
      (setMaxFramesInFlight alloc count s).2 = s) := by
  unfold setMaxFramesInFlight
  by_cases hd : s.mStreamState = StreamState.DEAD
  · simp [hd]
  · by_cases hc : count < 1
    · simp [hd, hc]
    · have hc1 : 1 ≤ count := Nat.not_lt.mp hc
      cases hr : (setAvailableFrames_Locked alloc count s).1 <;> simp [hd, hc, hc1, hr]

/-- The result codes of `setMaxFramesInFlight` on a dead camera, for count 0
on a live one, and for an accepted and a rejected resize. -/
theorem setMaxFramesInFlight_result_codes_witness :
    setMaxFramesInFlight allocAlways 3 (forceShutdown id oneBusy)
      = (EvsResult.OWNERSHIP_LOST, forceShutdown id oneBusy) ∧
    ((setMaxFramesInFlight allocAlways 0 oneFree).1 = EvsResult.INVALID_ARG ↔ 0 < 1) ∧
    setMaxFramesInFlight allocAlways 3 oneFree
      = (EvsResult.OK, (setAvailableFrames_Locked allocAlways 3 oneFree).2) ∧
    setMaxFramesInFlight allocNever 3 oneFree
      = (EvsResult.BUFFER_NOT_AVAILABLE, (setAvailableFrames_Locked allocNever 3 oneFree).2) ∧
    (setMaxFramesInFlight allocAlways 0 oneFree).2 = oneFree :=
  ⟨(setMaxFramesInFlight_result_codes allocAlways 3 (forceShutdown id oneBusy)).1 (by decide),
   (setMaxFramesInFlight_result_codes allocAlways 0 oneFree).2.1 (by decide),
   (setMaxFramesInFlight_result_codes allocAlways 3 oneFree).2.2.1 (by decide) (by decide)
     (by decide),
   (setMaxFramesInFlight_result_codes allocNever 3 oneFree).2.2.2.1 (by decide) (by decide)
     (by decide),
   (setMaxFramesInFlight_result_codes allocAlways 0 oneFree).2.2.2.2 (Or.inr (by decide))⟩

/-- C15. Start transition: `startVideoStream` returns `OWNERSHIP_LOST` in `DEAD`
and `STREAM_ALREADY_RUNNING` in `RUNNING` or `STOPPING`, changing nothing. In
`STOPPED` with `frames_allowed < 1` it first runs `setAvailableFrames_Locked(1)`
and, if that fails, returns `BUFFER_NOT_AVAILABLE` with the stream state still
`STOPPED`. In `STOPPED` with a usable stream callback and capacity at least 1
(from the start or after that growth) it returns `OK` with state `RUNNING` and
the callback recorded. A start from capacity 0 with a working allocator and a
usable callback returns `OK` and ends with `frames_allowed = 1`. -/
theorem startVideoStream_transition (alloc : Nat → Option Handle) (stream : Option Nat)
    (s : Camera) :
    (s.mStreamState = StreamState.DEAD →
      startVideoStream alloc stream s = (EvsResult.OWNERSHIP_LOST, s)) ∧
    (s.mStreamState = StreamState.RUNNING ∨ s.mStreamState = StreamState.STOPPING →
      startVideoStream alloc stream s = (EvsResult.STREAM_ALREADY_RUNNING, s)) ∧
    (s.mStreamState = StreamState.STOPPED → s.mFramesAllowed < 1 →
      (setAvailableFrames_Locked alloc 1 s).1 = false →
      (startVideoStream alloc stream s).1 = EvsResult.BUFFER_NOT_AVAILABLE ∧
      (startVideoStream alloc stream s).2 = (setAvailableFrames_Locked alloc 1 s).2 ∧
      (startVideoStream alloc stream s).2.mStreamState = StreamState.STOPPED) ∧
    (s.mStreamState = StreamState.STOPPED → stream ≠ none → 1 ≤ s.mFramesAllowed →
      startVideoStream alloc stream s =
        (EvsResult.OK, { s with mStream := stream, mStreamState := StreamState.RUNNING })) ∧
    (s.mStreamState = StreamState.STOPPED → stream ≠ none → s.mFramesAllowed < 1 →
      (setAvailableFrames_Locked alloc 1 s).1 = true →
      startVideoStream alloc stream s =
        (EvsResult.OK, { (setAvailableFrames_Locked alloc 1 s).2 with
                           mStream := stream, mStreamState := StreamState.RUNNING })) ∧
    (s.mStreamState = StreamState.STOPPED → stream ≠ none → s.mFramesAllowed = 0 →
      alloc s.allocCalls ≠ none →
      (startVideoStream alloc stream s).1 = EvsResult.OK ∧
      (startVideoStream alloc stream s).2.mStreamState = StreamState.RUNNING ∧
      (startVideoStream alloc stream s).2.mFramesAllowed = 1) := by
  refine ⟨?_, ?_, ?_, ?_, ?_, ?_⟩
  · intro hd
    simp [startVideoStream, hd]
  · intro hr
    rcases hr with hr | hr <;> simp [startVideoStream, hr]
  · intro hs hlow hfail
    have hst := (setAvailableFrames_frame alloc 1 s).1
    simp [startVideoStream, hs, kMinimumBuffersInFlight, hlow, hfail, hst]
  · intro hs hcb hcap
    have hlow : ¬ s.mFramesAllowed < 1 := by omega
    simp [startVideoStream, hs, kMinimumBuffersInFlight, hlow, hcb]
  · intro hs hcb hlow hok
    simp [startVideoStream, hs, kMinimumBuffersInFlight, hlow, hcb, hok]
  · intro hs hcb h0 hal
    cases ha : alloc s.allocCalls with
    | none => exact absurd ha hal
    | some h =>
      have hset := setAvailableFrames_one_ok alloc s h h0 ha
      simp [startVideoStream, hs, kMinimumBuffersInFlight, h0, hcb, hset]

/-- A start of the fresh camera (capacity 0) with a working allocator returns
`OK`, runs and has capacity 1; with a failing allocator it returns
`BUFFER_NOT_AVAILABLE` and stays `STOPPED`; a second start is refused. -/
theorem startVideoStream_transition_witness :
    ((startVideoStream allocAlways (some 1) fresh).1 = EvsResult.OK ∧
      (startVideoStream allocAlways (some 1) fresh).2.mStreamState = StreamState.RUNNING ∧
      (startVideoStream allocAlways (some 1) fresh).2.mFramesAllowed = 1) ∧
    ((startVideoStream allocNever (some 1) fresh).1 = EvsResult.BUFFER_NOT_AVAILABLE ∧
      (startVideoStream allocNever (some 1) fresh).2 = (setAvailableFrames_Locked allocNever 1 fresh).2 ∧
      (startVideoStream allocNever (some 1) fresh).2.mStreamState = StreamState.STOPPED) ∧
    startVideoStream allocAlways (some 1) oneBusy = (EvsResult.STREAM_ALREADY_RUNNING, oneBusy) ∧
    startVideoStream allocAlways (some 1) (forceShutdown id oneBusy)
      = (EvsResult.OWNERSHIP_LOST, forceShutdown id oneBusy) ∧
    startVideoStream allocAlways (some 1) oneFree
      = (EvsResult.OK, { oneFree with mStream := some 1, mStreamState := StreamState.RUNNING }) :=
  ⟨(startVideoStream_transition allocAlways (some 1) fresh).2.2.2.2.2 (by decide) (by decide)
     (by decide) (by decide),
   (startVideoStream_transition allocNever (some 1) fresh).2.2.1 (by decide) (by decide)
     (by decide),
   (startVideoStream_transition allocAlways (some 1) oneBusy).2.1 (Or.inl (by decide)),
   (startVideoStream_transition allocAlways (some 1) (forceShutdown id oneBusy)).1 (by decide),
   (startVideoStream_transition allocAlways (some 1) oneFree).2.2.2.1 (by decide) (by decide)
     (by decide)⟩

/-- C16. Stop transition: `stopVideoStream` called in `STOPPED`, `STOPPING` or
`DEAD` changes no state. Called in `RUNNING`, its first lock scope sets
`STOPPING` and nothing else; once the capture thread is joined its second lock
scope sets `STOPPED` and clears the stream callback. Neither lock scope
modifies the pool records, `frames_allowed` or `frames_in_use`: after the call
they are what the join left. -/
theorem stopVideoStream_transition (join : Camera → Camera) (s : Camera) :
    (s.mStreamState ≠ StreamState.RUNNING → stopVideoStream join s = s) ∧
    (s.mStreamState = StreamState.RUNNING →
      stopVideoStream_request s = { s with mStreamState := StreamState.STOPPING }) ∧
    (s.mStreamState = StreamState.RUNNING →
      (stopVideoStream join s).mStreamState = StreamState.STOPPED ∧
      (stopVideoStream join s).mStream = none ∧
      (stopVideoStream join s).mBuffers = (join (stopVideoStream_request s)).mBuffers ∧
      (stopVideoStream join s).mFramesAllowed = (join (stopVideoStream_request s)).mFramesAllowed ∧
      (stopVideoStream join s).mFramesInUse = (join (stopVideoStream_request s)).mFramesInUse) ∧
    ((stopVideoStream_request s).mBuffers = s.mBuffers ∧
      (stopVideoStream_request s).mFramesAllowed = s.mFramesAllowed ∧
      (stopVideoStream_request s).mFramesInUse = s.mFramesInUse) ∧
    ((stopVideoStream_finish s).mBuffers = s.mBuffers ∧
      (stopVideoStream_finish s).mFramesAllowed = s.mFramesAllowed ∧
      (stopVideoStream_finish s).mFramesInUse = s.mFramesInUse ∧
      (stopVideoStream_finish s).mStreamState = StreamState.STOPPED ∧
      (stopVideoStream_finish s).mStream = none) := by
  refine ⟨?_, ?_, ?_, ?_, ⟨rfl, rfl, rfl, rfl, rfl⟩⟩
  · intro h
    simp [stopVideoStream, h]
  · intro h
    simp [stopVideoStream_request, h]
  · intro h
    simp [stopVideoStream, h, stopVideoStream_finish]
  · unfold stopVideoStream_request
    split <;> exact ⟨rfl, rfl, rfl⟩

/-- Stopping the running camera `oneBusy` (nothing happening during the join)
ends `STOPPED` with the callback cleared and the pool as it was; stopping the
stopped camera `oneFree` changes nothing. -/
theorem stopVideoStream_transition_witness :
    stopVideoStream id oneFree = oneFree ∧
    stopVideoStream_request oneBusy = { oneBusy with mStreamState := StreamState.STOPPING } ∧
    ((stopVideoStream id oneBusy).mStreamState = StreamState.STOPPED ∧
      (stopVideoStream id oneBusy).mStream = none ∧
      (stopVideoStream id oneBusy).mBuffers = (id (stopVideoStream_request oneBusy)).mBuffers ∧
      (stopVideoStream id oneBusy).mFramesAllowed
        = (id (stopVideoStream_request oneBusy)).mFramesAllowed ∧
      (stopVideoStream id oneBusy).mFramesInUse
        = (id (stopVideoStream_request oneBusy)).mFramesInUse) :=
  ⟨(stopVideoStream_transition id oneFree).1 (by decide),
   (stopVideoStream_transition id oneBusy).2.1 (by decide),
   (stopVideoStream_transition id oneBusy).2.2.1 (by decide)⟩

/-! ### Forced shutdown and the allocator -/

theorem forceShutdown_postcondition (join : Camera → Camera) (s : Camera) :
    (forceShutdown join s).mStreamState = StreamState.DEAD ∧
    (forceShutdown join s).mBuffers = [] ∧
    (forceShutdown join s).freed =
      (stopVideoStream join s).freed ++ (stopVideoStream join s).mBuffers.map (fun r => r.handle) :=
  ⟨rfl, rfl, rfl⟩

/-- C17 fails on the code when a record has an absent handle. Growing the
fresh camera to two buffers and shrinking it to one leaves `oneFreeOneAbsent`:
one handle present, one record absent. `forceShutdown` ends `DEAD` with no
record left, but it calls the allocator's `free` twice, once with the null
handle of the absent record and once with handle 11. -/
theorem forceShutdown_frees_null_handle :
    (setMaxFramesInFlight allocAlways 1 (setMaxFramesInFlight allocAlways 2 fresh).2).2
      = oneFreeOneAbsent ∧
    PoolInv oneFreeOneAbsent ∧
    presentCount oneFreeOneAbsent.mBuffers = 1 ∧
    (forceShutdown id oneFreeOneAbsent).mStreamState = StreamState.DEAD ∧
    (forceShutdown id oneFreeOneAbsent).mBuffers = [] ∧
    (forceShutdown id oneFreeOneAbsent).freed = oneFreeOneAbsent.freed ++ [none, some 11] := by
  decide

/-! ### Extended information and the stream state -/

/-- C18, as stated, fails for `setExtendedInfo`: on a `DEAD` camera it returns
`OWNERSHIP_LOST` and stores nothing, on the same camera in state `STOPPED` it
returns `OK` and stores the value. -/
theorem setExtendedInfo_guarded_by_dead :
    (setExtendedInfo oneByteBlob 5 1
      (CameraObject.inState { cam := oneFree, mExtInfo := [] } StreamState.DEAD)).1
      = EvsResult.OWNERSHIP_LOST ∧
    (setExtendedInfo oneByteBlob 5 1
      (CameraObject.inState { cam := oneFree, mExtInfo := [] } StreamState.DEAD)).2.mExtInfo = [] ∧
    (setExtendedInfo oneByteBlob 5 1
      (CameraObject.inState { cam := oneFree, mExtInfo := [] } StreamState.STOPPED)).1
      = EvsResult.OK ∧
    (setExtendedInfo oneByteBlob 5 1
      (CameraObject.inState { cam := oneFree, mExtInfo := [] } StreamState.STOPPED)).2.mExtInfo
      = [(5, [1])] := by
  decide

/-- C18, amended. For every key, value and camera object, `setExtendedInfo_1_1`,
`getExtendedInfo` and `getExtendedInfo_1_1` return the same result and have the
same effect on the key-value map when the stream state is `DEAD` as when it is
`STOPPED`, and none of them returns `OWNERSHIP_LOST`. `setExtendedInfo` is
guarded: in `DEAD` it returns `OWNERSHIP_LOST` and changes nothing, in `STOPPED`
it returns `OK` and assigns the value to the key. -/
theorem extendedInfo_and_stream_state (blobOf : Int → List Nat) (key : Nat) (value : Int)
    (blob : List Nat) (t : CameraObject) :
    ((setExtendedInfo_1_1 key blob (t.inState StreamState.DEAD)).1 =
        (setExtendedInfo_1_1 key blob (t.inState StreamState.STOPPED)).1 ∧
      (setExtendedInfo_1_1 key blob (t.inState StreamState.DEAD)).2.mExtInfo =
        (setExtendedInfo_1_1 key blob (t.inState StreamState.STOPPED)).2.mExtInfo ∧
      (setExtendedInfo_1_1 key blob (t.inState StreamState.DEAD)).2.mExtInfo =
        extInsertOrAssign key blob t.mExtInfo ∧
      (setExtendedInfo_1_1 key blob (t.inState StreamState.DEAD)).2.cam =
        (t.inState StreamState.DEAD).cam ∧
      (setExtendedInfo_1_1 key blob (t.inState StreamState.DEAD)).1 ≠ EvsResult.OWNERSHIP_LOST) ∧
    getExtendedInfo key (t.inState StreamState.DEAD) =
      getExtendedInfo key (t.inState StreamState.STOPPED) ∧
    (getExtendedInfo_1_1 key (t.inState StreamState.DEAD) =
        getExtendedInfo_1_1 key (t.inState StreamState.STOPPED) ∧
      (getExtendedInfo_1_1 key (t.inState StreamState.DEAD)).1 ≠ EvsResult.OWNERSHIP_LOST) ∧
    setExtendedInfo blobOf key value (t.inState StreamState.DEAD) =
      (EvsResult.OWNERSHIP_LOST, t.inState StreamState.DEAD) ∧
    setExtendedInfo blobOf key value (t.inState StreamState.STOPPED) =
      (EvsResult.OK, { t.inState StreamState.STOPPED with
                         mExtInfo := extInsertOrAssign key (blobOf value) t.mExtInfo }) := by
  refine ⟨⟨rfl, rfl, rfl, rfl, ?_⟩, rfl, ⟨rfl, ?_⟩, ?_, ?_⟩
  · simp [setExtendedInfo_1_1]
  · unfold getExtendedInfo_1_1
    cases extFind key (t.inState StreamState.DEAD).mExtInfo <;> simp
  · simp [setExtendedInfo, CameraObject.inState]
  · simp [setExtendedInfo, CameraObject.inState]

/-! ### Error results and side effects -/

/-- C19, as stated, fails for `startVideoStream`: on the fresh camera, with a
stream that is not a v1.1 stream (the cast yields null), it first grows the
pool to one buffer and then returns `INVALID_ARG`: the records and
`frames_allowed` are not what they were. -/
theorem startVideoStream_invalid_arg_after_growth :
    (startVideoStream allocAlways none fresh).1 = EvsResult.INVALID_ARG ∧
    fresh.mBuffers = [] ∧ fresh.mFramesAllowed = 0 ∧
    (startVideoStream allocAlways none fresh).2.mBuffers =
      [{ handle := some 10, inUse := false }] ∧
    (startVideoStream allocAlways none fresh).2.mFramesAllowed = 1 := by
  decide

/-- C19, amended. If `setMaxFramesInFlight` or `setExtendedInfo` returns
`INVALID_ARG` or `OWNERSHIP_LOST`, or `startVideoStream` returns
`OWNERSHIP_LOST`, the state after the call is the state before it. If
`startVideoStream` returns `INVALID_ARG`, the stream state and `frames_in_use`
are unchanged; the records and `frames_allowed` are unchanged when
`frames_allowed` was at least 1, and when it was 0 the pool has been grown by
one allocated handle to `frames_allowed = 1`. -/
theorem error_results_side_effects (alloc : Nat → Option Handle) (count : Nat)
    (stream : Option Nat) (s : Camera) (blobOf : Int → List Nat) (key : Nat) (value : Int)
    (t : CameraObject) :
    ((setMaxFramesInFlight alloc count s).1 = EvsResult.INVALID_ARG ∨
      (setMaxFramesInFlight alloc count s).1 = EvsResult.OWNERSHIP_LOST →
      (setMaxFramesInFlight alloc count s).2 = s) ∧
    ((setExtendedInfo blobOf key value t).1 = EvsResult.INVALID_ARG ∨
      (setExtendedInfo blobOf key value t).1 = EvsResult.OWNERSHIP_LOST →
      (setExtendedInfo blobOf key value t).2 = t) ∧
    ((startVideoStream alloc stream s).1 = EvsResult.OWNERSHIP_LOST →
      (startVideoStream alloc stream s).2 = s) ∧
    ((startVideoStream alloc stream s).1 = EvsResult.INVALID_ARG →
      (startVideoStream alloc stream s).2.mStreamState = s.mStreamState ∧
      (startVideoStream alloc stream s).2.mFramesInUse = s.mFramesInUse ∧
      (1 ≤ s.mFramesAllowed →
        (startVideoStream alloc stream s).2.mBuffers = s.mBuffers ∧
        (startVideoStream alloc stream s).2.mFramesAllowed = s.mFramesAllowed) ∧
      (s.mFramesAllowed = 0 →
        ∃ h, alloc s.allocCalls = some h ∧
          (startVideoStream alloc stream s).2.mBuffers = storeHandle h s.mBuffers ∧
          (startVideoStream alloc stream s).2.mFramesAllowed = 1)) := by
  refine ⟨?_, ?_, ?_, ?_⟩
  · unfold setMaxFramesInFlight
    split
    · intro _; rfl
    · split
      · intro _; rfl
      · simp only
        split <;> (intro h; rcases h with h | h <;> simp at h)
  · unfold setExtendedInfo
    split
    · intro _; rfl
    · intro h
      rcases h with h | h <;> simp at h
  · intro hres
    unfold startVideoStream at hres ⊢
    by_cases hd : s.mStreamState = StreamState.DEAD
    · simp [hd]
    · exfalso
      by_cases hs : s.mStreamState ≠ StreamState.STOPPED
      · simp [hd, hs] at hres
      · simp only [hd, hs, if_false] at hres
        by_cases hlow : s.mFramesAllowed < kMinimumBuffersInFlight
        · simp only [hlow, if_true] at hres
          by_cases hok : (setAvailableFrames_Locked alloc kMinimumBuffersInFlight s).1 = false
          · simp [hok] at hres
          · simp only [hok, if_false] at hres
            by_cases hcb : stream = none <;> simp [hcb] at hres
        · simp only [hlow, if_false] at hres
          by_cases hcb : stream = none <;> simp [hcb] at hres
  · intro hres
    have hfr := setAvailableFrames_frame alloc kMinimumBuffersInFlight s
    unfold startVideoStream at hres ⊢
    by_cases hd : s.mStreamState = StreamState.DEAD
    · simp [hd] at hres
    · by_cases hs : s.mStreamState ≠ StreamState.STOPPED
      · simp [hd, hs] at hres
      · simp only [hd, hs, if_false] at hres ⊢
        by_cases hlow : s.mFramesAllowed < kMinimumBuffersInFlight
        · simp only [hlow, if_true] at hres ⊢
          by_cases hok : (setAvailableFrames_Locked alloc kMinimumBuffersInFlight s).1 = false
          · simp [hok] at hres
          · simp only [hok, if_false] at hres ⊢
            by_cases hcb : stream = none
            · simp only [hcb, if_true] at hres ⊢
              refine ⟨hfr.1, hfr.2.2, ?_, ?_⟩
              · intro h1
                unfold kMinimumBuffersInFlight at hlow
                omega
              · intro h0
                cases ha : alloc s.allocCalls with
                | none =>
                  have := setAvailableFrames_one_fail alloc s h0 ha
                  unfold kMinimumBuffersInFlight at hok
                  exact absurd this hok
                | some h =>
                  refine ⟨h, rfl, ?_⟩
                  have hset := setAvailableFrames_one_ok alloc s h h0 ha
                  unfold kMinimumBuffersInFlight
                  rw [hset]
                  exact ⟨rfl, rfl⟩
            · simp [hcb] at hres
        · simp only [hlow, if_false] at hres ⊢
          by_cases hcb : stream = none
          · simp only [hcb, if_true] at hres ⊢
            refine ⟨rfl, rfl, fun _ => ⟨rfl, rfl⟩, ?_⟩
            intro h0
            unfold kMinimumBuffersInFlight at hlow
            omega
          · simp [hcb] at hres

/-- The error results of `setMaxFramesInFlight` (count 0) and of
`startVideoStream` (dead camera; null stream on a camera of capacity 1 and on
the fresh camera), with what they leave behind. -/
theorem error_results_side_effects_witness :
    (setMaxFramesInFlight allocAlways 0 oneFree).2 = oneFree ∧
    (setExtendedInfo oneByteBlob 5 1
      (CameraObject.inState { cam := oneFree, mExtInfo := [] } StreamState.DEAD)).2
      = CameraObject.inState { cam := oneFree, mExtInfo := [] } StreamState.DEAD ∧
    (startVideoStream allocAlways (some 1) (forceShutdown id oneBusy)).2
      = forceShutdown id oneBusy ∧
    ((startVideoStream allocAlways none oneFree).2.mBuffers = oneFree.mBuffers ∧
      (startVideoStream allocAlways none oneFree).2.mFramesAllowed = oneFree.mFramesAllowed) ∧
    (∃ h, allocAlways fresh.allocCalls = some h ∧
      (startVideoStream allocAlways none fresh).2.mBuffers = storeHandle h fresh.mBuffers ∧
      (startVideoStream allocAlways none fresh).2.mFramesAllowed = 1) :=
  ⟨(error_results_side_effects allocAlways 0 none oneFree oneByteBlob 0 0
      { cam := oneFree, mExtInfo := [] }).1 (Or.inl (by decide)),
   (error_results_side_effects allocAlways 0 none oneFree oneByteBlob 5 1
      (CameraObject.inState { cam := oneFree, mExtInfo := [] } StreamState.DEAD)).2.1
      (Or.inr (by decide)),
   (error_results_side_effects allocAlways 0 (some 1) (forceShutdown id oneBusy) oneByteBlob 0 0
      { cam := oneFree, mExtInfo := [] }).2.2.1 (by decide),
   ((error_results_side_effects allocAlways 0 none oneFree oneByteBlob 0 0
      { cam := oneFree, mExtInfo := [] }).2.2.2 (by decide)).2.2.1 (by decide),
   ((error_results_side_effects allocAlways 0 none fresh oneByteBlob 0 0
      { cam := oneFree, mExtInfo := [] }).2.2.2 (by decide)).2.2.2 (by decide)⟩

/-! ### The count reported by an import -/

theorem importLoop_allowed (bs : List (Option Handle)) (s : Camera) :
    (importLoop bs s).mFramesAllowed =
      (s.mFramesAllowed + (bs.filter (fun b => b.isSome)).length) % 4294967296 ∨
    4294967296 ≤ s.mFramesAllowed := by
  induction bs generalizing s with
  | nil =>
    by_cases h : s.mFramesAllowed < 4294967296
    · left
      simp [importLoop]
      omega
    · right; omega
  | cons b rest ih =>
    by_cases h : s.mFramesAllowed < 4294967296
    · left
      cases b with
      | none =>
        rcases ih s with h1 | h1
        · simpa [importLoop] using h1
        · omega
      | some v =>
        rcases ih { s with mBuffers := storeHandle v s.mBuffers,
                           mFramesAllowed := incU s.mFramesAllowed } with h1 | h1
        · simp only [importLoop, List.filter_cons, Option.isSome_some, if_true,
            List.length_cons]
          rw [h1]
          simp only [incU]
          omega
        · simp only [incU] at h1
          omega
    · right; omega

theorem import_count_nonempty (bs : List (Option Handle)) (s : Camera)
    (hne : 1 ≤ bs.length) (hsize : bs.length < 4294967296)
    (hty : s.mFramesAllowed < 4294967296) :
    ∃ n, n ≤ bs.length ∧
      (importExternalBuffers bs s).2 = importLoop (bs.take n) s ∧
      (importExternalBuffers bs s).1 =
        (EvsResult.OK, ((bs.take n).filter (fun b => b.isSome)).length) := by
  have hlt : ¬ bs.length < 1 := by omega
  unfold importExternalBuffers
  simp only [hlt, if_false]
  have hn : (if bs.length > subU kMaxBuffersInFlight s.mFramesAllowed
      then bs.length - subU kMaxBuffersInFlight s.mFramesAllowed else bs.length) ≤ bs.length := by
    split <;> omega
  generalize (if bs.length > subU kMaxBuffersInFlight s.mFramesAllowed
      then bs.length - subU kMaxBuffersInFlight s.mFramesAllowed else bs.length) = n at hn ⊢
  refine ⟨n, hn, rfl, ?_⟩
  have hcount := List.length_filter_le (fun b : Option Handle => b.isSome) (bs.take n)
  have htake := List.length_take_le n bs
  rcases importLoop_allowed (bs.take n) s with h | h
  · rw [h]
    congr 1
    unfold subU
    omega
  · omega

/-- C20 fails on the code for the empty list. `oneFree` has
`frames_allowed = 1`; importing an empty list stores nothing and leaves the
state as it was, but the count passed to the callback is `mFramesAllowed`,
that is 1, not 0. -/
theorem import_empty_list_reports_capacity :
    importExternalBuffers [] oneFree = ((EvsResult.OK, 1), oneFree) ∧
    (importExternalBuffers [] oneFree).2.mFramesAllowed = oneFree.mFramesAllowed ∧
    (importExternalBuffers [] oneFree).1.2 ≠ 0 := by
  decide

/-! ### Successful growth -/

theorem firstAbsent_least (l : List BufferRecord) (j : Nat) (h : firstAbsent l = some j) :
    ∀ k, k < j → handleAt k l ≠ none := by
  induction l generalizing j with
  | nil => simp [firstAbsent] at h
  | cons r rest ih =>
    unfold firstAbsent at h
    by_cases hr : r.handle = none
    · simp [hr] at h
      subst h
      intro k hk
      omega
    · simp only [hr, if_false, Option.map_eq_some'] at h
      obtain ⟨m, hm, hmj⟩ := h
      subst hmj
      intro k hk
      cases k with
      | zero => exact hr
      | succ k' => exact ih m hm k' (by omega)

theorem firstAbsent_none (l : List BufferRecord) (h : firstAbsent l = none) :
    ∀ k, k < l.length → handleAt k l ≠ none := by
  induction l with
  | nil => intro k hk; simp at hk
  | cons r rest ih =>
    unfold firstAbsent at h
    by_cases hr : r.handle = none
    · simp [hr] at h
    · simp only [hr, if_false, Option.map_eq_none'] at h
      intro k hk
      cases k with
      | zero => exact hr
      | succ k' => exact ih h k' (by simpa using hk)

theorem firstAbsent_of_least (l : List BufferRecord) (j : Nat) (hj : handleAt j l = none)
    (hlt : j < l.length) (hleast : ∀ k, k < j → handleAt k l ≠ none) :
    firstAbsent l = some j := by
  cases hf : firstAbsent l with
  | none => exact absurd hj (firstAbsent_none l hf j hlt)
  | some m =>
    obtain ⟨_, hm⟩ := firstAbsent_spec l m hf
    have h1 : ¬ m < j := fun h => hleast m h hm
    have h2 : ¬ j < m := fun h => firstAbsent_least l m hf j h hj
    have : m = j := by omega
    rw [this]

theorem firstAbsent_of_full (l : List BufferRecord)
    (hfull : ∀ k, k < l.length → handleAt k l ≠ none) : firstAbsent l = none := by
  cases hf : firstAbsent l with
  | none => rfl
  | some m =>
    obtain ⟨hlt, hm⟩ := firstAbsent_spec l m hf
    exact absurd hm (hfull m hlt)

theorem storeHandle_eq_placeHandle (h : Handle) (l : List BufferRecord) :
    storeHandle h l = placeHandle h l := by
  induction l with
  | nil => rfl
  | cons r rest ih =>
    unfold storeHandle placeHandle firstAbsent
    by_cases hr : r.handle = none
    · simp [hr, modifyAt]
    · simp only [hr, if_false]
      rw [ih]
      unfold placeHandle
      cases firstAbsent rest with
      | none => simp
      | some j => simp [modifyAt]

theorem increaseLoop_all_success (alloc : Nat → Option Handle) (n added : Nat) (s : Camera)
    (hall : ∀ k, k < n → alloc (s.allocCalls + k) ≠ none)
    (hroom : s.mFramesAllowed + n < 4294967296) :
    (increaseLoop alloc n added s).1 = added + n ∧
    (increaseLoop alloc n added s).2.mBuffers = placeAll alloc s.allocCalls n s.mBuffers ∧
    (increaseLoop alloc n added s).2.mFramesAllowed = s.mFramesAllowed + n ∧
    (increaseLoop alloc n added s).2.allocCalls = s.allocCalls + n := by
  induction n generalizing added s with
  | zero => exact ⟨rfl, rfl, rfl, rfl⟩
  | succ m ih =>
    have hfirst := hall 0 (by omega)
    cases ha : alloc s.allocCalls with
    | none => simp [ha] at hfirst
    | some h =>
      have hinc : incU s.mFramesAllowed = s.mFramesAllowed + 1 := incU_lt _ (by omega)
      obtain ⟨h1, h2, h3, h4⟩ := ih (added + 1)
        { s with mBuffers := storeHandle h s.mBuffers,
                 mFramesAllowed := incU s.mFramesAllowed,
                 allocCalls := s.allocCalls + 1 }
        (fun j hj => by
          have := hall (j + 1) (by omega)
          simpa [Nat.add_assoc, Nat.add_comm 1 j] using this)
        (by simp only [hinc]; omega)
      simp only [hinc] at h1 h2 h3 h4
      simp only [increaseLoop, ha, hinc]
      refine ⟨by omega, ?_, ?_, ?_⟩
      · rw [h2]
        simp only [placeAll, ha, Option.getD_some, storeHandle_eq_placeHandle]
      · rw [h3]; omega
      · rw [h4]; omega

/-- C11. Successful growth: for every pool state and every target with
`frames_allowed < target ≤ 100`, if each of the `target - frames_allowed`
allocations succeeds then `setAvailableFrames_Locked(target)` returns true,
`frames_allowed = target` afterwards, `frames_in_use` is unchanged, every record
that already held a handle keeps its handle and its `inUse` flag, and the
records are those obtained by placing the allocated handles one after the
other with `placeHandle`: into the lowest-indexed absent slot when there is
one, appended as a new free record only when there is none. -/
theorem successful_growth (alloc : Nat → Option Handle) (target : Nat) (s : Camera)
    (hlt : s.mFramesAllowed < target) (hle : target ≤ 100)
    (hall : ∀ k, k < target - s.mFramesAllowed → alloc (s.allocCalls + k) ≠ none) :
    (setAvailableFrames_Locked alloc target s).1 = true ∧
    (setAvailableFrames_Locked alloc target s).2.mFramesAllowed = target ∧
    (setAvailableFrames_Locked alloc target s).2.mFramesInUse = s.mFramesInUse ∧
    (∀ i, handleAt i s.mBuffers ≠ none →
      handleAt i (setAvailableFrames_Locked alloc target s).2.mBuffers = handleAt i s.mBuffers ∧
      inUseAt i (setAvailableFrames_Locked alloc target s).2.mBuffers = inUseAt i s.mBuffers) ∧
    (setAvailableFrames_Locked alloc target s).2.mBuffers =
      placeAll alloc s.allocCalls (target - s.mFramesAllowed) s.mBuffers ∧
    (∀ (h : Handle) (l : List BufferRecord) (j : Nat), j < l.length → handleAt j l = none →
      (∀ k, k < j → handleAt k l ≠ none) →
      placeHandle h l = modifyAt (fun _ => { handle := some h, inUse := false }) j l) ∧
    (∀ (h : Handle) (l : List BufferRecord), (∀ k, k < l.length → handleAt k l ≠ none) →
      placeHandle h l = l ++ [{ handle := some h, inUse := false }]) := by
  obtain ⟨h1, h2, h3, _⟩ := increaseLoop_all_success alloc (target - s.mFramesAllowed) 0 s
    hall (by omega)
  have hmin : ¬ target < kMinimumBuffersInFlight := by
    unfold kMinimumBuffersInFlight; omega
  have hmax : ¬ target > kMaxBuffersInFlight := by
    unfold kMaxBuffersInFlight; omega
  have hadded : ¬ (increaseAvailableFrames_Locked alloc (target - s.mFramesAllowed) s).1
      ≠ target - s.mFramesAllowed := by
    unfold increaseAvailableFrames_Locked
    rw [h1]
    omega
  have hres : setAvailableFrames_Locked alloc target s =
      (true, (increaseLoop alloc (target - s.mFramesAllowed) 0 s).2) := by
    unfold setAvailableFrames_Locked
    simp only [hmin, hmax, if_false, hlt, if_true, hadded]
    rfl
  rw [hres]
  refine ⟨rfl, ?_, ?_, ?_, h2, ?_, ?_⟩
  · show (increaseLoop alloc (target - s.mFramesAllowed) 0 s).2.mFramesAllowed = target
    rw [h3]; omega
  · exact (increaseLoop_frame alloc _ 0 s).2.2.1
  · exact increaseLoop_bufs
      (fun l => ∀ i, handleAt i s.mBuffers ≠ none →
        handleAt i l = handleAt i s.mBuffers ∧ inUseAt i l = inUseAt i s.mBuffers)
      (fun h l hl i hi => by
        obtain ⟨e1, e2⟩ := hl i hi
        obtain ⟨f1, f2⟩ := storeHandle_at h l i (by rw [e1]; exact hi)
        exact ⟨f1.trans e1, f2.trans e2⟩)
      alloc _ 0 s (fun i _ => ⟨rfl, rfl⟩)
  · intro h l j hjlt hj hleast
    unfold placeHandle
    rw [firstAbsent_of_least l j hj hjlt hleast]
  · intro h l hfull
    unfold placeHandle
    rw [firstAbsent_of_full l hfull]

/-- Growing `oneFreeOneAbsent` (capacity 1, slot 0 absent) to capacity 3 with a
working allocator: the first new handle takes slot 0, the second is appended. -/
theorem successful_growth_witness :
    (oneFreeOneAbsent.mFramesAllowed < 3 ∧ 3 ≤ 100) ∧
    (setAvailableFrames_Locked allocAlways 3 oneFreeOneAbsent).1 = true ∧
    (setAvailableFrames_Locked allocAlways 3 oneFreeOneAbsent).2.mFramesAllowed = 3 ∧
    (setAvailableFrames_Locked allocAlways 3 oneFreeOneAbsent).2.mBuffers =
      [{ handle := some 12, inUse := false }, { handle := some 11, inUse := false },
       { handle := some 13, inUse := false }] :=
  ⟨by decide,
   (successful_growth allocAlways 3 oneFreeOneAbsent (by decide) (by decide)
      (fun k _ => by simp [allocAlways])).1,
   (successful_growth allocAlways 3 oneFreeOneAbsent (by decide) (by decide)
      (fun k _ => by simp [allocAlways])).2.1,
   by decide⟩

/-! ### Best-effort shrink -/

theorem releaseFirst_nil (k : Nat) : releaseFirst k [] = [] := by
  cases k <;> rfl

theorem releasedHandles_nil (k : Nat) : releasedHandles k [] = [] := by
  cases k <;> rfl

theorem decreaseLoop_releaseFirst (n : Nat) (l : List BufferRecord) (removed allowed : Nat)
    (log : List (Option Handle)) (hrem : removed < n) (hn : n < 4294967296) :
    (decreaseLoop n l removed allowed log).bufs = releaseFirst (n - removed) l ∧
    (decreaseLoop n l removed allowed log).log = log ++ releasedHandles (n - removed) l := by
  induction l generalizing removed allowed log with
  | nil => simp [decreaseLoop, releaseFirst_nil, releasedHandles_nil]
  | cons r rest ih =>
    obtain ⟨k, hk⟩ : ∃ k, n - removed = k + 1 := ⟨n - removed - 1, by omega⟩
    rw [hk]
    have hinc : incU removed = removed + 1 := incU_lt _ (by omega)
    unfold decreaseLoop
    by_cases hr : r.inUse = false ∧ r.handle ≠ none
    · rw [if_pos hr, hinc]
      simp only [releaseFirst, releasedHandles, if_pos hr]
      by_cases hlast : removed + 1 = n
      · rw [if_pos hlast]
        have hk0 : k = 0 := by omega
        subst hk0
        cases rest <;> simp [releaseFirst, releasedHandles]
      · rw [if_neg hlast]
        obtain ⟨h1, h2⟩ := ih (removed + 1) (decU allowed) (log ++ [r.handle]) (by omega)
        have hk' : n - (removed + 1) = k := by omega
        rw [hk'] at h1 h2
        simp only [h1, h2, List.append_assoc, List.singleton_append, and_self]
    · rw [if_neg hr]
      simp only [releaseFirst, releasedHandles, if_neg hr]
      obtain ⟨h1, h2⟩ := ih removed allowed log hrem
      rw [hk] at h1 h2
      simp only [h1, h2, and_self]

theorem length_releasedHandles (k : Nat) (l : List BufferRecord) :
    (releasedHandles k l).length = min k (freeCount l) := by
  induction l generalizing k with
  | nil => simp [releasedHandles_nil, freeCount]
  | cons r rest ih =>
    cases k with
    | zero => simp [releasedHandles]
    | succ m =>
      rw [freeCount_cons]
      by_cases hr : r.inUse = false ∧ r.handle ≠ none
      · simp only [releasedHandles, if_pos hr, List.length_cons, ih m]
        omega
      · simp only [releasedHandles, if_neg hr, ih (m + 1)]
        omega

theorem releasedHandles_ne_none (k : Nat) (l : List BufferRecord) :
    ∀ h ∈ releasedHandles k l, h ≠ none := by
  induction l generalizing k with
  | nil => simp [releasedHandles_nil]
  | cons r rest ih =>
    cases k with
    | zero => simp [releasedHandles]
    | succ m =>
      by_cases hr : r.inUse = false ∧ r.handle ≠ none
      · simp only [releasedHandles, if_pos hr, List.mem_cons]
        intro h hh
        rcases hh with hh | hh
        · rw [hh]; exact hr.2
        · exact ih m h hh
      · simp only [releasedHandles, if_neg hr]
        exact ih (m + 1)

theorem presentCount_releaseFirst (k : Nat) (l : List BufferRecord) :
    presentCount (releaseFirst k l) + min k (freeCount l) = presentCount l := by
  induction l generalizing k with
  | nil => simp [releaseFirst_nil, freeCount, presentCount]
  | cons r rest ih =>
    cases k with
    | zero => simp [releaseFirst]
    | succ m =>
      rw [freeCount_cons]
      by_cases hr : r.inUse = false ∧ r.handle ≠ none
      · have hsome : r.handle.isSome = true := by
          cases hh : r.handle with
          | none => exact absurd hh hr.2
          | some v => rfl
        have := ih m
        simp only [releaseFirst, if_pos hr, presentCount_cons, hsome, Option.isSome_none,
          Bool.false_eq_true, if_false, if_true]
        omega
      · have := ih (m + 1)
        simp only [releaseFirst, if_neg hr, presentCount_cons]
        omega

theorem at_releaseFirst (k : Nat) (l : List BufferRecord) (i : Nat) :
    inUseAt i (releaseFirst k l) = inUseAt i l ∧
    (inUseAt i l = true → handleAt i (releaseFirst k l) = handleAt i l) := by
  induction l generalizing k i with
  | nil => simp [releaseFirst_nil]
  | cons r rest ih =>
    cases k with
    | zero => simp [releaseFirst]
    | succ m =>
      by_cases hr : r.inUse = false ∧ r.handle ≠ none
      · simp only [releaseFirst, if_pos hr]
        cases i with
        | zero =>
          refine ⟨rfl, ?_⟩
          intro hu
          have hu' : r.inUse = true := hu
          rw [hr.1] at hu'
          exact Bool.noConfusion hu'
        | succ j => exact ih m j
      · simp only [releaseFirst, if_neg hr]
        cases i with
        | zero => exact ⟨rfl, fun _ => rfl⟩
        | succ j => exact ih (m + 1) j

theorem free_add_inUse (l : List BufferRecord) (ha : AbsentFree l) :
    freeCount l + inUseCount l = presentCount l := by
  induction l with
  | nil => simp [freeCount, inUseCount, presentCount]
  | cons r rest ih =>
    rw [absentFree_cons] at ha
    have := ih ha.2
    rw [freeCount_cons, inUseCount_cons, presentCount_cons]
    cases hh : r.handle with
    | none =>
      have hu := ha.1 hh
      simp [hu]
      omega
    | some v =>
      cases hu : r.inUse <;> simp <;> omega

set_option maxRecDepth 20000 in
/-- C12, as stated, fails for a target above the cap. After an import of 202
buffers into the fresh camera the invariant holds with `frames_allowed = 102`;
`setAvailableFrames_Locked(101)`, with `1 ≤ 101 < 102`, is rejected by the
range check: it returns false and frees nothing. -/
theorem shrink_above_cap_rejected :
    PoolInv (importExternalBuffers (List.replicate 202 (some 7)) fresh).2 ∧
    (importExternalBuffers (List.replicate 202 (some 7)) fresh).2.mFramesAllowed = 102 ∧
    (setAvailableFrames_Locked allocAlways 101
      (importExternalBuffers (List.replicate 202 (some 7)) fresh).2).1 = false ∧
    (setAvailableFrames_Locked allocAlways 101
      (importExternalBuffers (List.replicate 202 (some 7)) fresh).2).2.mFramesAllowed = 102 := by
  decide

/-- C12, amended. Best-effort shrink: for every pool state satisfying the
invariant (with `frames_allowed` a 32-bit value) and every target with
`1 ≤ target < frames_allowed` and `target ≤ 100`, `setAvailableFrames_Locked`
returns true; it clears the handles of the first `frames_allowed - target` free
records in index order (of all free records when there are fewer) and passes
exactly those handles to the allocator's `free`, that is
`min (frames_allowed - target) (number of free records)` non-null handles; no
`inUse` flag changes and a checked-out record keeps its handle;
`frames_allowed` ends as `max target frames_in_use` and `frames_in_use` is
unchanged. -/
theorem best_effort_shrink (alloc : Nat → Option Handle) (target : Nat) (s : Camera)
    (hinv : PoolInv s) (h1 : 1 ≤ target) (hlt : target < s.mFramesAllowed)
    (hle : target ≤ 100) (hty : s.mFramesAllowed < 4294967296) :
    (setAvailableFrames_Locked alloc target s).1 = true ∧
    (setAvailableFrames_Locked alloc target s).2.mBuffers =
      releaseFirst (s.mFramesAllowed - target) s.mBuffers ∧
    (setAvailableFrames_Locked alloc target s).2.freed =
      s.freed ++ releasedHandles (s.mFramesAllowed - target) s.mBuffers ∧
    (releasedHandles (s.mFramesAllowed - target) s.mBuffers).length =
      min (s.mFramesAllowed - target) (freeCount s.mBuffers) ∧
    (∀ h ∈ releasedHandles (s.mFramesAllowed - target) s.mBuffers, h ≠ none) ∧
    (∀ i, inUseAt i (setAvailableFrames_Locked alloc target s).2.mBuffers =
      inUseAt i s.mBuffers) ∧
    (∀ i, inUseAt i s.mBuffers = true →
      handleAt i (setAvailableFrames_Locked alloc target s).2.mBuffers =
        handleAt i s.mBuffers) ∧
    (setAvailableFrames_Locked alloc target s).2.mFramesAllowed = max target s.mFramesInUse ∧
    (setAvailableFrames_Locked alloc target s).2.mFramesInUse = s.mFramesInUse := by
  obtain ⟨ha, hb, hc, _, _⟩ := hinv
  have hmin : ¬ target < kMinimumBuffersInFlight := by
    unfold kMinimumBuffersInFlight; omega
  have hmax : ¬ target > kMaxBuffersInFlight := by
    unfold kMaxBuffersInFlight; omega
  have hgrow : ¬ s.mFramesAllowed < target := by omega
  have hres : setAvailableFrames_Locked alloc target s =
      (true, (decreaseAvailableFrames_Locked (s.mFramesAllowed - target) s).2) := by
    unfold setAvailableFrames_Locked
    simp only [hmin, hmax, if_false, hgrow, gt_iff_lt, hlt, if_true]
  obtain ⟨hbufs, hlog⟩ := decreaseLoop_releaseFirst (s.mFramesAllowed - target) s.mBuffers 0
    s.mFramesAllowed s.freed (by omega) (by omega)
  have hal := allowed_decreaseLoop (s.mFramesAllowed - target) s.mBuffers 0
    s.mFramesAllowed s.freed 0 (by omega) hty
  have hpc := presentCount_releaseFirst (s.mFramesAllowed - target) s.mBuffers
  have hfree := free_add_inUse s.mBuffers ha
  rw [hres]
  simp only [decreaseAvailableFrames_Locked, Nat.sub_zero] at hbufs hlog hal ⊢
  refine ⟨trivial, hbufs, hlog, length_releasedHandles _ _, releasedHandles_ne_none _ _,
    ?_, ?_, ?_, trivial⟩
  · intro i
    rw [hbufs]
    exact (at_releaseFirst _ _ i).1
  · intro i hi
    rw [hbufs]
    exact (at_releaseFirst _ _ i).2 hi
  · rw [hal, hbufs]
    omega

/-- Capacity 5 with three buffers checked out, shrunk to 2: the call returns
true, frees the two free handles 13 and 14, and `frames_allowed` ends as 3,
reduced by exactly 2. -/
theorem best_effort_shrink_witness :
    (PoolInv fiveThreeBusy ∧ 1 ≤ 2 ∧ 2 < fiveThreeBusy.mFramesAllowed) ∧
    (setAvailableFrames_Locked allocAlways 2 fiveThreeBusy).1 = true ∧
    (setAvailableFrames_Locked allocAlways 2 fiveThreeBusy).2.freed = [some 13, some 14] ∧
    (setAvailableFrames_Locked allocAlways 2 fiveThreeBusy).2.mFramesAllowed = 3 ∧
    (setAvailableFrames_Locked allocAlways 2 fiveThreeBusy).2.mFramesAllowed
      = max 2 fiveThreeBusy.mFramesInUse :=
  ⟨by decide,
   (best_effort_shrink allocAlways 2 fiveThreeBusy (by decide) (by decide) (by decide)
      (by decide) (by decide)).1,
   by decide, by decide,
   (best_effort_shrink allocAlways 2 fiveThreeBusy (by decide) (by decide) (by decide)
      (by decide) (by decide)).2.2.2.2.2.2.2.1⟩

/-! ### The acquire step -/

theorem findAvailable_least (l : List BufferRecord) :
    ∀ j, j < findAvailable l → ¬ FreeAt j l := by
  induction l with
  | nil => intro j hj; simp [findAvailable] at hj
  | cons r rest ih =>
    intro j hj
    unfold findAvailable at hj
    by_cases hr : r.inUse = false ∧ r.handle ≠ none
    · rw [if_pos hr] at hj
      omega
    · rw [if_neg hr] at hj
      cases j with
      | zero => exact hr
      | succ k => exact ih k (by omega)

theorem freeAt_lt_length (i : Nat) (l : List BufferRecord) (h : FreeAt i l) : i < l.length := by
  by_contra hge
  exact h.2 (handleAt_of_ge i l (Nat.not_lt.mp hge))

theorem freeCount_pos_of_freeAt (l : List BufferRecord) (i : Nat) (h : FreeAt i l) :
    0 < freeCount l := by
  induction l generalizing i with
  | nil => exact absurd (handleAt_of_ge i [] (Nat.zero_le _)) h.2
  | cons r rest ih =>
    rw [freeCount_cons]
    cases i with
    | zero =>
      have hr : r.inUse = false ∧ r.handle ≠ none := h
      rw [if_pos hr]
      omega
    | succ k =>
      have := ih k h
      omega

theorem findAvailable_found (l : List BufferRecord) (i : Nat) (h : FreeAt i l) :
    findAvailable l < l.length := by
  by_contra hge
  have hi := freeAt_lt_length i l h
  exact findAvailable_least l i (by omega) h

/-- C13. Acquire: for every pool state satisfying the invariant (with
`frames_allowed` a 32-bit value) and stream state `RUNNING`: when the acquire
step selects index `i`, record `i` is free, no record of lower index is free,
and the new state is the old one with `inUse` of record `i` set to true and
`frames_in_use` incremented by one, every handle and every other flag staying
as it was; whenever some record is free an index is selected; and no index is
selected if and only if no record is free, in which case the state is
unchanged. -/
theorem acquire_contract (s : Camera) (hinv : PoolInv s)
    (hrun : s.mStreamState = StreamState.RUNNING) (hty : s.mFramesAllowed < 4294967296) :
    (∀ i, (generateFrames_acquire s).1 = Acquire.acquired i →
      FreeAt i s.mBuffers ∧ (∀ j, j < i → ¬ FreeAt j s.mBuffers) ∧
      (generateFrames_acquire s).2 =
        { s with mBuffers := modifyAt (fun r => { r with inUse := true }) i s.mBuffers,
                 mFramesInUse := s.mFramesInUse + 1 } ∧
      inUseAt i (generateFrames_acquire s).2.mBuffers = true ∧
      (∀ j, handleAt j (generateFrames_acquire s).2.mBuffers = handleAt j s.mBuffers) ∧
      (∀ j, j ≠ i → inUseAt j (generateFrames_acquire s).2.mBuffers = inUseAt j s.mBuffers)) ∧
    ((∃ i, FreeAt i s.mBuffers) → ∃ i, (generateFrames_acquire s).1 = Acquire.acquired i) ∧
    ((∀ i, (generateFrames_acquire s).1 ≠ Acquire.acquired i) ↔ ¬ ∃ i, FreeAt i s.mBuffers) ∧
    ((¬ ∃ i, FreeAt i s.mBuffers) → (generateFrames_acquire s).2 = s) := by
  obtain ⟨ha, hb, hc, hd, _⟩ := hinv
  have hsel : ∀ i, (generateFrames_acquire s).1 = Acquire.acquired i → FreeAt i s.mBuffers := by
    intro i hi
    obtain ⟨_, hu, hh, _⟩ := acquire_spec s i hi
    exact ⟨hu, hh⟩
  have hfound : (∃ i, FreeAt i s.mBuffers) →
      ∃ i, (generateFrames_acquire s).1 = Acquire.acquired i := by
    intro hex
    obtain ⟨i, hi⟩ := hex
    have hpos := freeCount_pos_of_freeAt s.mBuffers i hi
    have hsum := free_add_inUse s.mBuffers ha
    have hroom : ¬ s.mFramesInUse ≥ s.mFramesAllowed := by omega
    have hidx : ¬ findAvailable s.mBuffers ≥ s.mBuffers.length :=
      Nat.not_le.mpr (findAvailable_found s.mBuffers i hi)
    refine ⟨findAvailable s.mBuffers, ?_⟩
    unfold generateFrames_acquire
    simp only [hrun, ne_eq, not_true_eq_false, if_false, hroom, hidx]
  refine ⟨?_, hfound, ⟨?_, ?_⟩, ?_⟩
  · intro i hi
    obtain ⟨hlt, hu, hh, hidx, _, hroom, heq⟩ := acquire_spec s i hi
    have hinc : incU s.mFramesInUse = s.mFramesInUse + 1 := incU_lt _ (by omega)
    refine ⟨⟨hu, hh⟩, ?_, ?_, ?_, ?_, ?_⟩
    · intro j hj
      rw [hidx] at hj
      exact findAvailable_least s.mBuffers j hj
    · rw [heq, hinc]
    · rw [heq]
      exact inUseAt_modifyAt_self _ true (fun _ => rfl) i _ hlt
    · intro j
      rw [heq]
      exact handleAt_modifyAt_keep (fun r => { r with inUse := true }) (fun _ => rfl) j i _
    · intro j hj
      rw [heq]
      exact inUseAt_modifyAt_ne _ j i hj _
  · intro hnone hex
    obtain ⟨i, hi⟩ := hfound hex
    exact hnone i hi
  · intro hno i hi
    exact hno ⟨i, hsel i hi⟩
  · intro hno
    exact acquire_not_acquired s (fun i hi => hno ⟨i, hsel i hi⟩)

/-- On `fiveThreeBusy` the acquire step selects index 3, the lowest free
record; on `oneBusy`, where no record is free, it selects none and changes
nothing. -/
theorem acquire_contract_witness :
    (PoolInv fiveThreeBusy ∧ fiveThreeBusy.mStreamState = StreamState.RUNNING) ∧
    (generateFrames_acquire fiveThreeBusy).1 = Acquire.acquired 3 ∧
    (FreeAt 3 fiveThreeBusy.mBuffers ∧ (∀ j, j < 3 → ¬ FreeAt j fiveThreeBusy.mBuffers)) ∧
    (generateFrames_acquire fiveThreeBusy).2.mFramesInUse = 4 ∧
    (generateFrames_acquire oneBusy).2 = oneBusy :=
  ⟨by decide, by decide,
   ⟨((acquire_contract fiveThreeBusy (by decide) (by decide) (by decide)).1 3 (by decide)).1,
    ((acquire_contract fiveThreeBusy (by decide) (by decide) (by decide)).1 3
      (by decide)).2.1⟩,
   by decide,
   (acquire_contract oneBusy (by decide) (by decide) (by decide)).2.2.2
     (by
       intro hex
       obtain ⟨i, hi⟩ := hex
       have hlt := freeAt_lt_length i oneBusy.mBuffers hi
       have h0 : i = 0 := by
         have : oneBusy.mBuffers.length = 1 := rfl
         omega
       subst h0
       exact absurd hi (by decide))⟩

/-! ### What the rollback frees -/

theorem increaseLoop_partial (alloc : Nat → Option Handle) (M n added : Nat) (s : Camera)
    (hMn : M < n) (hsucc : ∀ k, k < M → alloc (s.allocCalls + k) ≠ none)
    (hfail : alloc (s.allocCalls + M) = none) :
    (increaseLoop alloc n added s).2.mBuffers = placeAll alloc s.allocCalls M s.mBuffers := by
  induction M generalizing n added s with
  | zero =>
    cases n with
    | zero => omega
    | succ k =>
      have hnone : alloc s.allocCalls = none := by simpa using hfail
      simp [increaseLoop, hnone, placeAll]
  | succ m ih =>
    cases n with
    | zero => omega
    | succ k =>
      have hfirst := hsucc 0 (by omega)
      cases hall : alloc s.allocCalls with
      | none => simp [hall] at hfirst
      | some h =>
        simp only [increaseLoop, hall, placeAll, Option.getD_some]
        rw [ih k (added + 1)
          { s with mBuffers := storeHandle h s.mBuffers,
                   mFramesAllowed := incU s.mFramesAllowed,
                   allocCalls := s.allocCalls + 1 }
          (by omega)
          (fun j hj => by
            have := hsucc (j + 1) (by omega)
            simpa [Nat.add_assoc, Nat.add_comm 1 j] using this)
          (by simpa [Nat.add_assoc, Nat.add_comm 1 m] using hfail)]
        simp only [storeHandle_eq_placeHandle]

/-- C21. The rollback does not restore the pool. `oneFree` holds handle 7; a
growth to 3 in which the allocator succeeds once (handle 10) and then fails
returns false, but the rollback frees the first free record, which is the old
one: the pool holds handle 10 instead of handle 7, and `free` was given handle
7, which was not allocated during this call. When the old record holds a buffer
imported by the client (handle 50), it is the client's buffer that is freed. -/
theorem rollback_frees_an_older_handle :
    (PoolInv oneFree ∧
     oneFree.mBuffers = [{ handle := some 7, inUse := false }] ∧
     (setAvailableFrames_Locked allocOnce 3 oneFree).1 = false ∧
     (setAvailableFrames_Locked allocOnce 3 oneFree).2.mBuffers =
       [{ handle := none, inUse := false }, { handle := some 10, inUse := false }] ∧
     (setAvailableFrames_Locked allocOnce 3 oneFree).2.freed = [some 7]) ∧
    (PoolInv (importExternalBuffers [some 50] fresh).2 ∧
     (importExternalBuffers [some 50] fresh).2.mBuffers =
       [{ handle := some 50, inUse := false }] ∧
     (setAvailableFrames_Locked allocOnce 3 (importExternalBuffers [some 50] fresh).2).1
       = false ∧
     (setAvailableFrames_Locked allocOnce 3 (importExternalBuffers [some 50] fresh).2).2.mBuffers
       = [{ handle := none, inUse := false }, { handle := some 10, inUse := false }] ∧
     (setAvailableFrames_Locked allocOnce 3 (importExternalBuffers [some 50] fresh).2).2.freed
       = [some 50]) := by
  decide

/-- What the rollback does. For every pool state satisfying the invariant and
every growth request (`frames_allowed < target ≤ 100`) in which the allocator
fails after `M ≥ 1` successes, `M` less than needed, `setAvailableFrames_Locked`
returns false; the records are those of the grown pool with the handles of its
first `M` free records cleared, lowest index first, and exactly those `M`
non-null handles are passed to the allocator's `free`; `frames_allowed`,
`frames_in_use` and the number of records holding a handle are what they were
before the call, no `inUse` flag of a checked-out record changes and every
checked-out record keeps its handle. -/
theorem rollback_releases_free_records (alloc : Nat → Option Handle) (target M : Nat)
    (s : Camera) (hinv : PoolInv s) (hlt : s.mFramesAllowed < target) (hle : target ≤ 100)
    (hM1 : 1 ≤ M) (hM : M < target - s.mFramesAllowed)
    (hsucc : ∀ k, k < M → alloc (s.allocCalls + k) ≠ none)
    (hfail : alloc (s.allocCalls + M) = none) :
    (setAvailableFrames_Locked alloc target s).1 = false ∧
    (setAvailableFrames_Locked alloc target s).2.mBuffers =
      releaseFirst M (placeAll alloc s.allocCalls M s.mBuffers) ∧
    (setAvailableFrames_Locked alloc target s).2.freed =
      s.freed ++ releasedHandles M (placeAll alloc s.allocCalls M s.mBuffers) ∧
    (releasedHandles M (placeAll alloc s.allocCalls M s.mBuffers)).length = M ∧
    (∀ h ∈ releasedHandles M (placeAll alloc s.allocCalls M s.mBuffers), h ≠ none) ∧
    (setAvailableFrames_Locked alloc target s).2.mFramesAllowed = s.mFramesAllowed ∧
    (setAvailableFrames_Locked alloc target s).2.mFramesInUse = s.mFramesInUse ∧
    presentCount (setAvailableFrames_Locked alloc target s).2.mBuffers =
      presentCount s.mBuffers ∧
    (∀ i, inUseAt i s.mBuffers = true →
      handleAt i (setAvailableFrames_Locked alloc target s).2.mBuffers = handleAt i s.mBuffers ∧
      inUseAt i (setAvailableFrames_Locked alloc target s).2.mBuffers = true) := by
  obtain ⟨e1, _, e3, e4, _⟩ := increaseLoop_exact alloc M (target - s.mFramesAllowed) 0 s
    hM hsucc hfail (by omega)
  have hbufs := increaseLoop_partial alloc M (target - s.mFramesAllowed) 0 s hM hsucc hfail
  have hfreed := (increaseLoop_frame alloc (target - s.mFramesAllowed) 0 s).2.2.2
  obtain ⟨hr1, hr2, hr3⟩ := growth_rollback_restores_count alloc target M s hinv hlt hle hM1 hM
    hsucc hfail
  have hne : (increaseAvailableFrames_Locked alloc (target - s.mFramesAllowed) s).1
      ≠ target - s.mFramesAllowed := by
    unfold increaseAvailableFrames_Locked
    omega
  have hmin : ¬ target < kMinimumBuffersInFlight := by
    unfold kMinimumBuffersInFlight; omega
  have hmax : ¬ target > kMaxBuffersInFlight := by
    unfold kMaxBuffersInFlight; omega
  have hres : (setAvailableFrames_Locked alloc target s).2 =
      (decreaseAvailableFrames_Locked M (increaseLoop alloc (target - s.mFramesAllowed) 0 s).2).2 := by
    unfold setAvailableFrames_Locked
    simp only [hmin, hmax, if_false, hlt, if_true, hne, ne_eq, not_false_eq_true]
    unfold increaseAvailableFrames_Locked
    simp only [e1, Nat.zero_add]
  obtain ⟨hd1, hd2⟩ := decreaseLoop_releaseFirst M
    (increaseLoop alloc (target - s.mFramesAllowed) 0 s).2.mBuffers 0
    (increaseLoop alloc (target - s.mFramesAllowed) 0 s).2.mFramesAllowed
    (increaseLoop alloc (target - s.mFramesAllowed) 0 s).2.freed (by omega) (by omega)
  have g1 : (decreaseAvailableFrames_Locked M
      (increaseLoop alloc (target - s.mFramesAllowed) 0 s).2).2.mBuffers =
      releaseFirst (M - 0) (increaseLoop alloc (target - s.mFramesAllowed) 0 s).2.mBuffers := hd1
  have g2 : (decreaseAvailableFrames_Locked M
      (increaseLoop alloc (target - s.mFramesAllowed) 0 s).2).2.freed =
      (increaseLoop alloc (target - s.mFramesAllowed) 0 s).2.freed ++
        releasedHandles (M - 0) (increaseLoop alloc (target - s.mFramesAllowed) 0 s).2.mBuffers :=
    hd2
  rw [hbufs, hfreed] at g2
  rw [hbufs] at g1 e3 e4
  simp only [Nat.sub_zero] at g1 g2
  have hbufs' : (setAvailableFrames_Locked alloc target s).2.mBuffers =
      releaseFirst M (placeAll alloc s.allocCalls M s.mBuffers) := by
    rw [hres]; exact g1
  have hlen := length_releasedHandles M (placeAll alloc s.allocCalls M s.mBuffers)
  have hpc := presentCount_releaseFirst M (placeAll alloc s.allocCalls M s.mBuffers)
  have hkeep : ∀ i, inUseAt i s.mBuffers = true →
      handleAt i (placeAll alloc s.allocCalls M s.mBuffers) = handleAt i s.mBuffers ∧
      inUseAt i (placeAll alloc s.allocCalls M s.mBuffers) = inUseAt i s.mBuffers := by
    intro i hi
    have hh : handleAt i s.mBuffers ≠ none := by
      intro h0
      have := absentFree_at s.mBuffers hinv.1 i h0
      rw [hi] at this
      exact Bool.noConfusion this
    rw [← hbufs]
    exact increaseLoop_bufs
      (fun l => handleAt i l = handleAt i s.mBuffers ∧ inUseAt i l = inUseAt i s.mBuffers)
      (fun h l hl => by
        obtain ⟨f1, f2⟩ := storeHandle_at h l i (by rw [hl.1]; exact hh)
        exact ⟨f1.trans hl.1, f2.trans hl.2⟩)
      alloc _ 0 s ⟨rfl, rfl⟩
  refine ⟨hr1, hbufs', ?_, ?_, releasedHandles_ne_none _ _, hr2, hr3, ?_, ?_⟩
  · rw [hres]; exact g2
  · rw [hlen]; omega
  · rw [hbufs']; omega
  · intro i hi
    obtain ⟨k1, k2⟩ := hkeep i hi
    obtain ⟨a1, a2⟩ := at_releaseFirst M (placeAll alloc s.allocCalls M s.mBuffers) i
    rw [hbufs']
    refine ⟨?_, ?_⟩
    · rw [a2 (by rw [k2]; exact hi), k1]
    · rw [a1, k2]; exact hi

/-- The rollback on `oneBusy` (one checked-out buffer) after one successful
allocation out of two: the new handle 10 is freed again and the pool is back to
its single checked-out record followed by an absent one. -/
theorem rollback_releases_free_records_witness :
    (PoolInv oneBusy ∧ oneBusy.mFramesAllowed < 3 ∧ 1 < 3 - oneBusy.mFramesAllowed) ∧
    (setAvailableFrames_Locked allocOnce 3 oneBusy).1 = false ∧
    (setAvailableFrames_Locked allocOnce 3 oneBusy).2.freed = [some 10] ∧
    (setAvailableFrames_Locked allocOnce 3 oneBusy).2.mFramesAllowed = oneBusy.mFramesAllowed ∧
    (setAvailableFrames_Locked allocOnce 3 oneBusy).2.mBuffers =
      [{ handle := some 10, inUse := true }, { handle := none, inUse := false }] :=
  ⟨by decide,
   (rollback_releases_free_records allocOnce 3 1 oneBusy (by decide) (by decide) (by decide)
      (by decide) (by decide) (fun k hk => by
        have : k = 0 := by omega
        subst this
        decide) (by decide)).1,
   by decide,
   (rollback_releases_free_records allocOnce 3 1 oneBusy (by decide) (by decide) (by decide)
      (by decide) (by decide) (fun k hk => by
        have : k = 0 := by omega
        subst this
        decide) (by decide)).2.2.2.2.2.1,
   by decide⟩

/-! ### The capture thread -/

theorem modifyAt_acquire_release (i : Nat) (l : List BufferRecord)
    (hi : inUseAt i l = false) :
    modifyAt (fun r => { r with inUse := false }) i
      (modifyAt (fun r => { r with inUse := true }) i l) = l := by
  induction l generalizing i with
  | nil => cases i <;> rfl
  | cons r rest ih =>
    cases i with
    | zero =>
      have hr : r.inUse = false := hi
      cases r with
      | mk h u =>
        simp only at hr
        subst hr
        rfl
    | succ k =>
      simp only [modifyAt]
      rw [ih k hi]

theorem acquire_then_deliveryFailed (s : Camera) (i : Nat)
    (hsel : (generateFrames_acquire s).1 = Acquire.acquired i)
    (hty : s.mFramesAllowed < 4294967296) :
    generateFrames_deliveryFailed i (generateFrames_acquire s).2 = s := by
  obtain ⟨_, hu, _, _, _, hroom, heq⟩ := acquire_spec s i hsel
  rw [heq]
  have hinc : incU s.mFramesInUse = s.mFramesInUse + 1 := incU_lt _ (by omega)
  have hdec : decU (incU s.mFramesInUse) = s.mFramesInUse := by
    rw [hinc]; exact decU_succ _ (by omega)
  unfold generateFrames_deliveryFailed
  simp only [modifyAt_acquire_release i s.mBuffers hu, hdec]

theorem generateFrames_exit_step (env : CaptureEnv) (fuel iter : Nat) (s : Camera)
    (events : List TransportEvent)
    (hstate : (env.before iter s).mStreamState ≠ StreamState.RUNNING) :
    generateFrames env (fuel + 1) iter s events =
      some (env.before iter s, events ++ [TransportEvent.streamStopped env.notifyOk]) := by
  have h : generateFrames_acquire (env.before iter s) = (Acquire.loopExit, env.before iter s) := by
    unfold generateFrames_acquire
    rw [if_pos hstate]
  simp only [generateFrames, h]

theorem generateFrames_failed_step (env : CaptureEnv) (fuel iter : Nat) (s : Camera)
    (events : List TransportEvent) (idx : Nat)
    (hsel : (generateFrames_acquire (env.before iter s)).1 = Acquire.acquired idx)
    (hfail : env.deliverOk iter = false) :
    generateFrames env (fuel + 1) iter s events =
      some (generateFrames_deliveryFailed idx
              (env.during iter (generateFrames_acquire (env.before iter s)).2),
            events ++ [TransportEvent.deliverFrame idx false,
                       TransportEvent.streamStopped env.notifyOk]) := by
  cases h : generateFrames_acquire (env.before iter s) with
  | mk a s1 =>
    rw [h] at hsel
    simp only at hsel
    subst hsel
    simp [generateFrames, h, hfail]

theorem generateFrames_events (env : CaptureEnv) (fuel iter : Nat) (s : Camera)
    (events : List TransportEvent) (r : Camera × List TransportEvent)
    (hrun : generateFrames env fuel iter s events = some r) :
    ∃ pre, (∀ e ∈ pre, e.isDelivery = true) ∧
      r.2 = events ++ pre ++ [TransportEvent.streamStopped env.notifyOk] ∧
      ∀ b, generateFrames { env with notifyOk := b } fuel iter s events =
        some (r.1, events ++ pre ++ [TransportEvent.streamStopped b]) := by
  induction fuel generalizing iter s events with
  | zero => simp [generateFrames] at hrun
  | succ n ih =>
    cases h : generateFrames_acquire (env.before iter s) with
    | mk a s1 =>
      cases a with
      | loopExit =>
        simp only [generateFrames, h, Option.some.injEq] at hrun
        subst hrun
        refine ⟨[], ?_, by simp, ?_⟩
        · intro e he; cases he
        · intro b
          simp [generateFrames, h]
      | skipped =>
        simp only [generateFrames, h] at hrun
        obtain ⟨pre, hp, he, hb⟩ := ih (iter + 1) s1 events hrun
        refine ⟨pre, hp, he, ?_⟩
        intro b
        simp only [generateFrames, h]
        exact hb b
      | notFound =>
        simp only [generateFrames, h] at hrun
        obtain ⟨pre, hp, he, hb⟩ := ih (iter + 1) s1 events hrun
        refine ⟨pre, hp, he, ?_⟩
        intro b
        simp only [generateFrames, h]
        exact hb b
      | acquired idx =>
        by_cases hok : env.deliverOk iter = true
        · simp only [generateFrames, h, hok, if_true] at hrun
          obtain ⟨pre, hp, he, hb⟩ := ih (iter + 1) (env.during iter s1)
            (events ++ [TransportEvent.deliverFrame idx true]) hrun
          refine ⟨TransportEvent.deliverFrame idx true :: pre, ?_, ?_, ?_⟩
          · intro e he'
            rcases List.mem_cons.mp he' with h1 | h1
            · rw [h1]; rfl
            · exact hp e h1
          · rw [he]; simp
          · intro b
            simp only [generateFrames, h, hok, if_true]
            rw [hb b]
            simp
        · simp only [generateFrames, h, hok, if_false, Bool.false_eq_true,
            Option.some.injEq] at hrun
          subst hrun
          refine ⟨[TransportEvent.deliverFrame idx false], ?_, by simp, ?_⟩
          · intro e he'
            rcases List.mem_cons.mp he' with h1 | h1
            · rw [h1]; rfl
            · cases h1
          · intro b
            simp [generateFrames, h, hok]

theorem generateFrames_fuel_succ (env : CaptureEnv) (fuel iter : Nat) (s : Camera)
    (events : List TransportEvent) (r : Camera × List TransportEvent)
    (hrun : generateFrames env fuel iter s events = some r) :
    generateFrames env (fuel + 1) iter s events = some r := by
  induction fuel generalizing iter s events with
  | zero => simp [generateFrames] at hrun
  | succ n ih =>
    cases h : generateFrames_acquire (env.before iter s) with
    | mk a s1 =>
      cases a with
      | loopExit =>
        simp only [generateFrames, h] at hrun ⊢
        exact hrun
      | skipped =>
        simp only [generateFrames, h] at hrun
        have := ih (iter + 1) s1 events hrun
        rw [generateFrames, h]
        exact this
      | notFound =>
        simp only [generateFrames, h] at hrun
        have := ih (iter + 1) s1 events hrun
        rw [generateFrames, h]
        exact this
      | acquired idx =>
        by_cases hok : env.deliverOk iter = true
        · simp only [generateFrames, h, hok, if_true] at hrun
          have := ih (iter + 1) _ _ hrun
          rw [generateFrames, h]
          simp only [hok, if_true]
          exact this
        · simp only [generateFrames, h, hok, if_false, Bool.false_eq_true] at hrun
          rw [generateFrames, h]
          simp only [hok, if_false, Bool.false_eq_true]
          exact hrun

/-- C22. Delivery failure does not leak the index: for every state (with
`frames_allowed` a 32-bit value) in which the acquire step selects index `i`,
the acquire step followed by the delivery-failure lock scope, with nothing in
between, gives back the state before the acquire: record `i` is free again,
`frames_in_use`, `frames_allowed` and every other record are what they were.
The run of the loop ends in that very iteration, with the failed delivery and
the notification as its last transport calls: no further acquire step is taken. -/
theorem delivery_failure_restores_pool (s : Camera) (i : Nat)
    (hsel : (generateFrames_acquire s).1 = Acquire.acquired i)
    (hty : s.mFramesAllowed < 4294967296) :
    FreeAt i s.mBuffers ∧
    inUseAt i (generateFrames_acquire s).2.mBuffers = true ∧
    generateFrames_deliveryFailed i (generateFrames_acquire s).2 = s ∧
    (∀ (env : CaptureEnv) (fuel iter : Nat) (events : List TransportEvent),
      env.before iter s = s →
      env.during iter (generateFrames_acquire s).2 = (generateFrames_acquire s).2 →
      env.deliverOk iter = false →
      generateFrames env (fuel + 1) iter s events =
        some (s, events ++ [TransportEvent.deliverFrame i false,
                            TransportEvent.streamStopped env.notifyOk])) := by
  obtain ⟨hlt, hu, hh, _, _, _, heq⟩ := acquire_spec s i hsel
  have hback := acquire_then_deliveryFailed s i hsel hty
  refine ⟨⟨hu, hh⟩, ?_, hback, ?_⟩
  · rw [heq]
    exact inUseAt_modifyAt_self _ true (fun _ => rfl) i _ hlt
  · intro env fuel iter events hb hd hfail
    have hstep := generateFrames_failed_step env fuel iter s events i (by rw [hb]; exact hsel)
      hfail
    rw [hstep, hb, hd, hback]

/-- On `oneFreeRunning` the acquire step selects index 0; a failed delivery
gives the state back, and the loop ends there. -/
theorem delivery_failure_restores_pool_witness :
    (generateFrames_acquire oneFreeRunning).1 = Acquire.acquired 0 ∧
    generateFrames_deliveryFailed 0 (generateFrames_acquire oneFreeRunning).2 = oneFreeRunning ∧
    generateFrames (quietEnv (fun _ => false) true) 1 0 oneFreeRunning [] =
      some (oneFreeRunning, [] ++ [TransportEvent.deliverFrame 0 false,
                                   TransportEvent.streamStopped true]) :=
  ⟨by decide,
   (delivery_failure_restores_pool oneFreeRunning 0 (by decide) (by decide)).2.2.1,
   (delivery_failure_restores_pool oneFreeRunning 0 (by decide) (by decide)).2.2.2
     (quietEnv (fun _ => false) true) 0 0 [] rfl rfl rfl⟩

/-- C23. Single stream-stopped notification: in every run of the capture loop
that ends, whatever the other callers do in between and whether the loop ends
because the state is no longer `RUNNING` or because a delivery failed, the
transport calls are frame deliveries followed by exactly one `STREAM_STOPPED`
notification, which comes last; and the camera at the end of the run is the
same whether that notification succeeds or fails. -/
theorem single_stream_stopped (env : CaptureEnv) (fuel : Nat) (s : Camera)
    (r : Camera × List TransportEvent)
    (hrun : generateFrames env fuel 0 s [] = some r) :
    ∃ pre, (∀ e ∈ pre, e.isDelivery = true) ∧
      r.2 = pre ++ [TransportEvent.streamStopped env.notifyOk] ∧
      (r.2.filter (fun e => !e.isDelivery)).length = 1 ∧
      ∀ b, generateFrames { env with notifyOk := b } fuel 0 s [] =
        some (r.1, pre ++ [TransportEvent.streamStopped b]) := by
  obtain ⟨pre, hp, he, hb⟩ := generateFrames_events env fuel 0 s [] r hrun
  simp only [List.nil_append] at he hb
  refine ⟨pre, hp, he, ?_, hb⟩
  rw [he, List.filter_append]
  have hnone : pre.filter (fun e => !e.isDelivery) = [] := by
    rw [List.filter_eq_nil_iff]
    intro e hmem
    simp [hp e hmem]
  rw [hnone]
  rfl

/-- A run on `fiveThreeBusy` in which another caller requests the stop before
the third iteration: two frames are delivered and the loop ends with one
notification, here a failing one. -/
theorem single_stream_stopped_witness :
    generateFrames (stopAtEnv 2 (fun _ => true) false) 5 0 fiveThreeBusy [] =
      some (twoDelivered,
            [TransportEvent.deliverFrame 3 true, TransportEvent.deliverFrame 4 true,
             TransportEvent.streamStopped false]) ∧
    ∃ pre, (∀ e ∈ pre, e.isDelivery = true) ∧
      [TransportEvent.deliverFrame 3 true, TransportEvent.deliverFrame 4 true,
        TransportEvent.streamStopped false] =
        pre ++ [TransportEvent.streamStopped false] :=
  ⟨by decide,
   (single_stream_stopped (stopAtEnv 2 (fun _ => true) false) 5 fiveThreeBusy
      (twoDelivered,
        [TransportEvent.deliverFrame 3 true, TransportEvent.deliverFrame 4 true,
         TransportEvent.streamStopped false]) (by decide)).imp
      (fun _ h => ⟨h.1, h.2.1⟩)⟩

/-- C28. Delivery failure is fatal to the stream instance only: when the
acquire step has selected index `i` and the delivery then fails, the loop ends
(with nobody else touching the camera) in a state whose stream state is still
`RUNNING`; `startVideoStream` issued then returns `STREAM_ALREADY_RUNNING` and
changes nothing; `stopVideoStream` followed by `startVideoStream`, with capacity
at least 1 and a usable callback, returns `OK` and the stream runs again. The
failure handling itself never writes the stream state. -/
theorem delivery_failure_keeps_running (alloc : Nat → Option Handle) (stream : Option Nat)
    (s : Camera) (i : Nat) (hsel : (generateFrames_acquire s).1 = Acquire.acquired i) :
    (generateFrames_deliveryFailed i (generateFrames_acquire s).2).mStreamState
      = StreamState.RUNNING ∧
    (∀ (env : CaptureEnv) (fuel iter : Nat) (events : List TransportEvent),
      env.before iter s = s →
      env.during iter (generateFrames_acquire s).2 = (generateFrames_acquire s).2 →
      env.deliverOk iter = false →
      generateFrames env (fuel + 1) iter s events =
        some (generateFrames_deliveryFailed i (generateFrames_acquire s).2,
              events ++ [TransportEvent.deliverFrame i false,
                         TransportEvent.streamStopped env.notifyOk])) ∧
    startVideoStream alloc stream (generateFrames_deliveryFailed i (generateFrames_acquire s).2)
      = (EvsResult.STREAM_ALREADY_RUNNING,
          generateFrames_deliveryFailed i (generateFrames_acquire s).2) ∧
    (stream ≠ none → 1 ≤ s.mFramesAllowed →
      (stopVideoStream id
        (generateFrames_deliveryFailed i (generateFrames_acquire s).2)).mStreamState
        = StreamState.STOPPED ∧
      (startVideoStream alloc stream (stopVideoStream id
        (generateFrames_deliveryFailed i (generateFrames_acquire s).2))).1 = EvsResult.OK ∧
      (startVideoStream alloc stream (stopVideoStream id
        (generateFrames_deliveryFailed i (generateFrames_acquire s).2))).2.mStreamState
        = StreamState.RUNNING) ∧
    (∀ (t : Camera) (j : Nat),
      (generateFrames_deliveryFailed j t).mStreamState = t.mStreamState) := by
  obtain ⟨_, _, _, _, hrun, _, heq⟩ := acquire_spec s i hsel
  have hst : (generateFrames_deliveryFailed i (generateFrames_acquire s).2).mStreamState
      = StreamState.RUNNING := by
    rw [heq]; exact hrun
  have hal : (generateFrames_deliveryFailed i (generateFrames_acquire s).2).mFramesAllowed
      = s.mFramesAllowed := by
    rw [heq]; rfl
  refine ⟨hst, ?_, ?_, ?_, fun _ _ => rfl⟩
  · intro env fuel iter events hb hd hfail
    have hstep := generateFrames_failed_step env fuel iter s events i (by rw [hb]; exact hsel)
      hfail
    rw [hstep, hb, hd]
  · simp [startVideoStream, hst]
  · intro hcb hcap
    have hlow : ¬ s.mFramesAllowed < 1 := by omega
    simp [stopVideoStream, stopVideoStream_request, stopVideoStream_finish, hst,
      startVideoStream, kMinimumBuffersInFlight, hal, hlow, hcb]

/-- After a failed delivery on `oneFreeRunning` the state is still `RUNNING`, a
start is refused, and a stop followed by a start succeeds. -/
theorem delivery_failure_keeps_running_witness :
    (generateFrames_acquire oneFreeRunning).1 = Acquire.acquired 0 ∧
    (generateFrames_deliveryFailed 0 (generateFrames_acquire oneFreeRunning).2).mStreamState
      = StreamState.RUNNING ∧
    startVideoStream allocAlways (some 1)
        (generateFrames_deliveryFailed 0 (generateFrames_acquire oneFreeRunning).2)
      = (EvsResult.STREAM_ALREADY_RUNNING,
          generateFrames_deliveryFailed 0 (generateFrames_acquire oneFreeRunning).2) ∧
    (startVideoStream allocAlways (some 1) (stopVideoStream id
      (generateFrames_deliveryFailed 0 (generateFrames_acquire oneFreeRunning).2))).1
      = EvsResult.OK :=
  ⟨by decide,
   (delivery_failure_keeps_running allocAlways (some 1) oneFreeRunning 0 (by decide)).1,
   (delivery_failure_keeps_running allocAlways (some 1) oneFreeRunning 0 (by decide)).2.2.1,
   ((delivery_failure_keeps_running allocAlways (some 1) oneFreeRunning 0 (by decide)).2.2.2.1
      (by decide) (by decide)).2.1⟩

/-! ### Relocation on release -/

theorem presentCount_prefix_full (l : List BufferRecord) (i : Nat)
    (hfull : ∀ k, k ≤ i → handleAt k l ≠ none) : i + 1 ≤ presentCount l := by
  induction l generalizing i with
  | nil => exact absurd (handleAt_of_ge 0 [] (Nat.le_refl _)) (hfull 0 (Nat.zero_le _))
  | cons r rest ih =>
    rw [presentCount_cons]
    have hr : r.handle ≠ none := hfull 0 (Nat.zero_le _)
    have hsome : r.handle.isSome = true := by
      cases hh : r.handle with
      | none => exact absurd hh hr
      | some v => rfl
    rw [hsome]
    cases i with
    | zero => simp
    | succ k =>
      have := ih k (fun m hm => hfull (m + 1) (by omega))
      simp only [if_true]
      omega

theorem firstAbsent_modifyAt_keep (f : BufferRecord → BufferRecord)
    (hf : ∀ r, (f r).handle = r.handle) (i : Nat) (l : List BufferRecord) :
    firstAbsent (modifyAt f i l) = firstAbsent l := by
  induction l generalizing i with
  | nil => cases i <;> rfl
  | cons r rest ih =>
    cases i with
    | zero => simp [modifyAt, firstAbsent, hf]
    | succ k => simp [modifyAt, firstAbsent, ih]

theorem lowest_absent_below (l : List BufferRecord) (i : Nat)
    (hcount : presentCount l ≤ i) (hi : handleAt i l ≠ none) :
    ∃ j, firstAbsent l = some j ∧ j < i := by
  have hlt : i < l.length := by
    by_contra hge
    exact hi (handleAt_of_ge i l (Nat.not_lt.mp hge))
  cases hf : firstAbsent l with
  | none =>
    have := presentCount_prefix_full l i
      (fun k hk => firstAbsent_none l hf k (by omega))
    omega
  | some j =>
    refine ⟨j, rfl, ?_⟩
    by_contra hge
    have hji : j ≠ i := by
      intro h
      subst h
      exact hi (firstAbsent_spec l j hf).2
    have := presentCount_prefix_full l i
      (fun k hk => firstAbsent_least l j hf k (by omega))
    omega

/-- C25. Relocation on release: for every pool state satisfying the invariant
and every accepted `returnBufferLocked(i)` (non-null handle argument, `i` in
range and in use). If `i ≥ frames_allowed`, there is an absent slot `j < i`,
the lowest-indexed absent slot of the pool; after the call slot `j` holds the
handle that record `i` held, record `i` has an absent handle and
`inUse = false`, every other record keeps its handle, and the number of
records holding a handle is unchanged. If `i < frames_allowed`, every record
keeps its handle. -/
theorem relocation_on_release (i : Nat) (h : Option Handle) (s : Camera) (hinv : PoolInv s)
    (h1 : h ≠ none) (h2 : i < s.mBuffers.length) (h3 : inUseAt i s.mBuffers = true) :
    (s.mFramesAllowed ≤ i →
      ∃ j, j < i ∧ handleAt j s.mBuffers = none ∧
        (∀ k, k < j → handleAt k s.mBuffers ≠ none) ∧
        handleAt j (returnBufferLocked i h s).mBuffers = handleAt i s.mBuffers ∧
        handleAt i s.mBuffers ≠ none ∧
        handleAt i (returnBufferLocked i h s).mBuffers = none ∧
        inUseAt i (returnBufferLocked i h s).mBuffers = false ∧
        (∀ k, k ≠ i → k ≠ j →
          handleAt k (returnBufferLocked i h s).mBuffers = handleAt k s.mBuffers) ∧
        presentCount (returnBufferLocked i h s).mBuffers = presentCount s.mBuffers) ∧
    (i < s.mFramesAllowed →
      ∀ k, handleAt k (returnBufferLocked i h s).mBuffers = handleAt k s.mBuffers) := by
  have hlen : ¬ s.mBuffers.length ≤ i := Nat.not_le.mpr h2
  have hpresent : handleAt i s.mBuffers ≠ none := by
    intro h0
    have := absentFree_at s.mBuffers hinv.1 i h0
    rw [h3] at this
    exact Bool.noConfusion this
  constructor
  · intro hge
    obtain ⟨j, hj, hji⟩ := lowest_absent_below s.mBuffers i (by rw [hinv.2.2.1]; exact hge)
      hpresent
    obtain ⟨hjlt, hjabs⟩ := firstAbsent_spec s.mBuffers j hj
    have hres : (returnBufferLocked i h s).mBuffers =
        modifyAt (fun r => { r with handle := none }) i
          (modifyAt (fun r => { r with handle := handleAt i s.mBuffers }) j
            (modifyAt (fun r => { r with inUse := false }) i s.mBuffers)) := by
      unfold returnBufferLocked
      simp only [h1, if_false, ge_iff_le, hlen, h3, Bool.true_eq_false, hge, if_true]
      unfold relocate
      rw [firstAbsent_modifyAt_keep (fun r => { r with inUse := false }) (fun _ => rfl), hj]
      simp only
      rw [handleAt_modifyAt_keep (fun r => { r with inUse := false }) (fun _ => rfl)]
    have hne : j ≠ i := by omega
    refine ⟨j, hji, hjabs, firstAbsent_least s.mBuffers j hj, ?_, hpresent, ?_, ?_, ?_, ?_⟩
    · rw [hres, handleAt_modifyAt_ne _ j i hne]
      exact handleAt_modifyAt_self (fun r => { r with handle := handleAt i s.mBuffers })
        (handleAt i s.mBuffers) (fun _ => rfl) j _ (by rw [length_modifyAt]; exact hjlt)
    · rw [hres]
      exact handleAt_modifyAt_self (fun r => { r with handle := none }) none (fun _ => rfl) i _
        (by rw [length_modifyAt, length_modifyAt]; exact h2)
    · exact (returnBufferLocked_accepted i h s h1 h2 h3).1
    · intro k hki hkj
      rw [hres, handleAt_modifyAt_ne _ k i hki, handleAt_modifyAt_ne _ k j hkj]
      exact handleAt_modifyAt_keep (fun r => { r with inUse := false }) (fun _ => rfl) k i _
    · unfold returnBufferLocked
      simp only [h1, if_false, ge_iff_le, hlen, h3, Bool.true_eq_false, hge, if_true]
      rw [presentCount_relocate]
      exact presentCount_modifyAt_keep (fun r => { r with inUse := false }) (fun _ => rfl) i _
  · intro hlt k
    have hnot : ¬ s.mFramesAllowed ≤ i := Nat.not_le.mpr hlt
    unfold returnBufferLocked
    simp only [h1, if_false, ge_iff_le, hlen, h3, Bool.true_eq_false, hnot]
    exact handleAt_modifyAt_keep (fun r => { r with inUse := false }) (fun _ => rfl) k i _

/-- On `shrunkWhileOut` (capacity shrunk to 1 while buffer 1 was checked out)
the return of buffer 1 moves its handle into slot 0. -/
theorem relocation_on_release_witness :
    (PoolInv shrunkWhileOut ∧ shrunkWhileOut.mFramesAllowed ≤ 1) ∧
    (returnBufferLocked 1 (some 11) shrunkWhileOut).mBuffers =
      [{ handle := some 11, inUse := false }, { handle := none, inUse := false }] ∧
    ∃ j, j < 1 ∧ handleAt j shrunkWhileOut.mBuffers = none ∧
      handleAt j (returnBufferLocked 1 (some 11) shrunkWhileOut).mBuffers
        = handleAt 1 shrunkWhileOut.mBuffers :=
  ⟨by decide, by decide,
   ((relocation_on_release 1 (some 11) shrunkWhileOut (by decide) (by decide) (by decide)
      (by decide)).1 (by decide)).imp (fun _ hj => ⟨hj.1, hj.2.1, hj.2.2.2.1⟩)⟩

/-- C26. The branch `Failed to find an available buffer slot` is reachable.
First run: capacity 2, the stream started, both buffers handed out, buffer 1
returned by the client while its delivery call is still in flight, that delivery
then reported as failed, the stream stopped and started again, one more buffer
handed out. Second run: the stream started, `forceShutdown` run while
`stopVideoStream` waits for the capture thread, the stream started again. Each
run ends in a state with stream state `RUNNING` and
`mFramesInUse < mFramesAllowed` in which the scan finds no record. -/
theorem buffer_slot_search_fails :
    (run [Op.setMaxFramesInFlight allocAlways 2, Op.startVideoStream allocAlways (some 1),
          Op.acquire, Op.acquire, Op.doneWithFrame 1 (some 11), Op.deliveryFailed 1,
          Op.stopRequest, Op.stopFinish, Op.startVideoStream allocAlways (some 1),
          Op.acquire] fresh =
      { mBuffers := [{ handle := some 10, inUse := true }, { handle := some 11, inUse := true }],
        mFramesAllowed := 2, mFramesInUse := 1, mStreamState := StreamState.RUNNING,
        mStream := some 1, allocCalls := 2, freed := [] } ∧
     (generateFrames_acquire
        (run [Op.setMaxFramesInFlight allocAlways 2, Op.startVideoStream allocAlways (some 1),
          Op.acquire, Op.acquire, Op.doneWithFrame 1 (some 11), Op.deliveryFailed 1,
          Op.stopRequest, Op.stopFinish, Op.startVideoStream allocAlways (some 1),
          Op.acquire] fresh)).1 = Acquire.notFound) ∧
    (run [Op.startVideoStream allocAlways (some 1), Op.stopRequest, Op.shutdownLocked,
          Op.stopFinish, Op.startVideoStream allocAlways (some 1)] fresh =
      { mBuffers := [], mFramesAllowed := 1, mFramesInUse := 0,
        mStreamState := StreamState.RUNNING, mStream := some 1,
        allocCalls := 1, freed := [some 10] } ∧
     (generateFrames_acquire
        (run [Op.startVideoStream allocAlways (some 1), Op.stopRequest, Op.shutdownLocked,
          Op.stopFinish, Op.startVideoStream allocAlways (some 1)] fresh)).1
        = Acquire.notFound) := by
  decide

/-- C29. After `setExtendedInfo_1_1` has stored the empty blob under key 5,
`getExtendedInfo` for key 5 finds the key and reads element 0 of the empty
blob, past its end. A key that was never set yields 0. -/
theorem getExtendedInfo_reads_empty_blob :
    (setExtendedInfo_1_1 5 [] { cam := fresh, mExtInfo := [] }).1 = EvsResult.OK ∧
    extFind 5 (setExtendedInfo_1_1 5 [] { cam := fresh, mExtInfo := [] }).2.mExtInfo
      = some [] ∧
    getExtendedInfo 5 (setExtendedInfo_1_1 5 [] { cam := fresh, mExtInfo := [] }).2 = none ∧
    getExtendedInfo 6 (setExtendedInfo_1_1 5 [] { cam := fresh, mExtInfo := [] }).2
      = some 0 := by
  decide

/-- C30. A well-formed `SUBSCRIPTIONS_CHANGE` message with no plain layer and
two associated layers, (1,0,1) and (2,0,1), each listing publisher 7, against
offers of publisher 7 for layer (2,0,1): `getSubscribedLayers` returns no layer,
where the specification describes the result [(2,0,1)]. -/
theorem subscribed_layer_missed :
    encodeSubscriptionsChange sampleVmsTypes 0 []
        [({ type := 1, subtype := 0, version := 1 }, [7]),
         ({ type := 2, subtype := 0, version := 1 }, [7])]
      = { prop := 299895808, int32Values := [11, 0, 0, 2, 1, 0, 1, 1, 7, 2, 0, 1, 1, 7],
          bytes := [] } ∧
    getSubscribedLayers sampleVmsTypes
        { prop := 299895808, int32Values := [11, 0, 0, 2, 1, 0, 1, 1, 7, 2, 0, 1, 1, 7],
          bytes := [] }
        { publisher_id := 7, offerings := [{ type := 2, subtype := 0, version := 1 }] }
      = some [] ∧
    expectedSubscribedLayers []
        [({ type := 1, subtype := 0, version := 1 }, [7]),
         ({ type := 2, subtype := 0, version := 1 }, [7])]
        { publisher_id := 7, offerings := [{ type := 2, subtype := 0, version := 1 }] }
      = [{ type := 2, subtype := 0, version := 1 }] := by
  decide

/-- C24. VMS data round trip: with the message type `DATA` in the range
`SUBSCRIBE .. PUBLISHER_ID_RESPONSE` that `isValidVmsMessageType` accepts, for
every byte string `b` (the empty one included)
`parseData (createDataMessage b) = b`; and `parseData` returns the empty string
for every property value whose `prop` is not `VEHICLE_MAP_SERVICE`, whose
`int32Values` is empty, or whose message type is not `DATA`. -/
theorem parseData_round_trip (c : VmsTypes)
    (hrange : c.SUBSCRIBE ≤ c.DATA ∧ c.DATA ≤ c.PUBLISHER_ID_RESPONSE)
    (b : List Nat) (v : VehiclePropValue) :
    parseData c (createDataMessage c b) = b ∧
    (v.prop ≠ c.VEHICLE_MAP_SERVICE → parseData c v = []) ∧
    (v.int32Values = [] → parseData c v = []) ∧
    (parseMessageType v ≠ c.DATA → parseData c v = []) := by
  refine ⟨?_, ?_, ?_, ?_⟩
  · cases b with
    | nil => simp [parseData, createDataMessage]
    | cons x rest =>
      simp [parseData, createDataMessage, isValidVmsMessage, isValidVmsProperty,
        isValidVmsMessageType, parseMessageType, kMessageIndex, hrange.1, hrange.2]
  · intro hp
    simp [parseData, isValidVmsMessage, isValidVmsProperty, hp]
  · intro he
    simp [parseData, isValidVmsMessage, isValidVmsMessageType, he]
  · intro ht
    simp [parseData, ht]

/-- With the enumerator values of `sampleVmsTypes` the three bytes 1, 2, 3 and
the empty string come back from `parseData`. -/
theorem parseData_round_trip_witness :
    (sampleVmsTypes.SUBSCRIBE ≤ sampleVmsTypes.DATA ∧
      sampleVmsTypes.DATA ≤ sampleVmsTypes.PUBLISHER_ID_RESPONSE) ∧
    parseData sampleVmsTypes (createDataMessage sampleVmsTypes [1, 2, 3]) = [1, 2, 3] ∧
    parseData sampleVmsTypes (createDataMessage sampleVmsTypes []) = [] :=
  ⟨by decide,
   (parseData_round_trip sampleVmsTypes (by decide) [1, 2, 3]
      (createDataMessage sampleVmsTypes [])).1,
   (parseData_round_trip sampleVmsTypes (by decide) []
      (createDataMessage sampleVmsTypes [])).1⟩

/-! ### The test pattern -/

theorem colorIndex_lt (c width : Nat) (hc : c < width) : colorIndex c width < 8 := by
  unfold colorIndex kNumColors
  have hw : 0 < width := by omega
  rw [Nat.div_lt_iff_lt_mul hw]
  have := Nat.mod_le (c * 8) 4294967296
  omega

theorem colorIndex_mono (c c' width : Nat) (hw : width ≤ 2 ^ 29) (hcc : c ≤ c')
    (hc : c' < width) : colorIndex c width ≤ colorIndex c' width := by
  unfold colorIndex kNumColors
  have h29 : (2 : Nat) ^ 29 = 536870912 := by norm_num
  rw [Nat.mod_eq_of_lt (by omega), Nat.mod_eq_of_lt (by omega)]
  exact Nat.div_le_div_right (by omega)

theorem fillCols_at (width base : Nat) (mem : Nat → Nat) (n off : Nat) :
    fillCols width base n mem off =
      if base ≤ off ∧ off < base + n then kColors.getD (colorIndex (off - base) width) 0
      else mem off := by
  induction n with
  | zero =>
    have : ¬ (base ≤ off ∧ off < base + 0) := by omega
    simp only [fillCols, if_neg this]
  | succ k ih =>
    simp only [fillCols]
    by_cases h : off = base + k
    · have hc : base ≤ off ∧ off < base + (k + 1) := by omega
      have hk : off - base = k := by omega
      rw [if_pos h, if_pos hc, hk]
    · rw [if_neg h, ih]
      by_cases hc : base ≤ off ∧ off < base + k
      · have hc2 : base ≤ off ∧ off < base + (k + 1) := by omega
        rw [if_pos hc, if_pos hc2]
      · have hc2 : ¬ (base ≤ off ∧ off < base + (k + 1)) := by omega
        rw [if_neg hc, if_neg hc2]

theorem fillRows_written (width stride : Nat) (mem : Nat → Nat) (hs : width ≤ stride)
    (n r c : Nat) (hr : r < n) (hc : c < width) :
    fillRows width stride n mem (r * stride + c) = kColors.getD (colorIndex c width) 0 := by
  induction n with
  | zero => omega
  | succ k ih =>
    simp only [fillRows]
    rw [fillCols_at]
    by_cases hrk : r = k
    · subst hrk
      have hcond : r * stride ≤ r * stride + c ∧ r * stride + c < r * stride + width := by omega
      have hsub : r * stride + c - r * stride = c := by omega
      rw [if_pos hcond, hsub]
    · have hlt : r < k := by omega
      have hmul : (r + 1) * stride ≤ k * stride := Nat.mul_le_mul_right stride hlt
      rw [Nat.succ_mul] at hmul
      have hcond : ¬ (k * stride ≤ r * stride + c ∧ r * stride + c < k * stride + width) := by
        omega
      rw [if_neg hcond]
      exact ih hlt

theorem fillRows_padding (width stride : Nat) (mem : Nat → Nat) (n r c : Nat)
    (hc : width ≤ c) (hcs : c < stride) :
    fillRows width stride n mem (r * stride + c) = mem (r * stride + c) := by
  induction n with
  | zero => rfl
  | succ k ih =>
    simp only [fillRows]
    rw [fillCols_at]
    have hcond : ¬ (k * stride ≤ r * stride + c ∧ r * stride + c < k * stride + width) := by
      rcases Nat.lt_trichotomy r k with hlt | heq | hgt
      · have hmul : (r + 1) * stride ≤ k * stride := Nat.mul_le_mul_right stride hlt
        rw [Nat.succ_mul] at hmul
        omega
      · subst heq
        omega
      · have hmul : (k + 1) * stride ≤ r * stride := Nat.mul_le_mul_right stride hgt
        rw [Nat.succ_mul] at hmul
        omega
    rw [if_neg hcond]
    exact ih

/-- C27. Test pattern: for every `width`, `height` and `stride ≥ width` (with
`width = 0` there is no column at all), `fillTestFrame` on a mapped buffer writes, for each row `r < height` and column
`c < width`, the pixel at offset `r * stride + c` with
`kColors[(c * 8 mod 2^32) / width]`; that colour index is below 8, the length of
the table; any two rows receive the same colours; the pixels at columns
`width ≤ c < stride` keep their value; and for `width ≤ 2^29` the colour index
is non-decreasing in `c`. -/
theorem fillTestFrame_pattern (width height stride : Nat) (mem : Nat → Nat)
    (hs : width ≤ stride) :
    ∃ out, fillTestFrame width height stride (some mem) = some out ∧
      (∀ r c, r < height → c < width →
        out (r * stride + c) = kColors.getD ((c * 8 % 4294967296) / width) 0 ∧
        (c * 8 % 4294967296) / width < kNumColors ∧
        (c * 8 % 4294967296) / width < kColors.length) ∧
      (∀ r r' c, r < height → r' < height → c < width →
        out (r * stride + c) = out (r' * stride + c)) ∧
      (∀ r c, width ≤ c → c < stride → out (r * stride + c) = mem (r * stride + c)) ∧
      (width ≤ 2 ^ 29 → ∀ c c', c ≤ c' → c' < width →
        (c * 8 % 4294967296) / width ≤ (c' * 8 % 4294967296) / width) := by
  refine ⟨fillRows width stride height mem, rfl, ?_, ?_, ?_, ?_⟩
  · intro r c hr hc
    exact ⟨fillRows_written width stride mem hs height r c hr hc, colorIndex_lt c width hc,
      colorIndex_lt c width hc⟩
  · intro r r' c hr hr' hc
    rw [fillRows_written width stride mem hs height r c hr hc,
      fillRows_written width stride mem hs height r' c hr' hc]
  · intro r c hc hcs
    exact fillRows_padding width stride mem height r c hc hcs
  · intro h29 c c' hcc hc
    exact colorIndex_mono c c' width h29 hcc hc

/-- A frame of width 4, height 2 and stride 5: the pixel of row 1, column 3 is
written with entry 6 of the table, the padding pixel of row 1 keeps its
value. -/
theorem fillTestFrame_pattern_witness :
    4 ≤ 5 ∧
    ∃ out, fillTestFrame 4 2 5 (some (fun _ => 7)) = some out ∧
      out (1 * 5 + 3) = kColors.getD ((3 * 8 % 4294967296) / 4) 0 ∧
      out (1 * 5 + 4) = 7 :=
  ⟨by decide,
   (fillTestFrame_pattern 4 2 5 (fun _ => 7) (by decide)).imp
     (fun _ h => ⟨h.1, (h.2.1 1 3 (by decide) (by decide)).1,
       h.2.2.2.1 1 4 (by decide) (by decide)⟩)⟩

/-- C31. The message `[SUBSCRIPTIONS_CHANGE, 0]` passes the guard of
`getSubscribedLayers` (valid VMS message, type `SUBSCRIPTIONS_CHANGE`, more
than `kSubscriptionStateSequenceNumberIndex` integers), yet the function reads
the number of layers at index 2, past the end of the two integers. The message
`[SUBSCRIPTIONS_CHANGE, 0, 1, 0]` passes the guard too and holds both counts,
and the function reads the layer it announces at indices 4 to 6, past the end of
the four integers. -/
theorem getSubscribedLayers_reads_past_end :
    (isValidVmsMessage sampleVmsTypes { prop := 299895808, int32Values := [11, 0], bytes := [] }
        = true ∧
     parseMessageType { prop := 299895808, int32Values := [11, 0], bytes := [] }
        = sampleVmsTypes.SUBSCRIPTIONS_CHANGE ∧
     ([11, 0] : List Int).length > kSubscriptionStateSequenceNumberIndex ∧
     ¬ NUMBER_OF_LAYERS < ([11, 0] : List Int).length ∧
     readInt [11, 0] NUMBER_OF_LAYERS = none ∧
     getSubscribedLayers sampleVmsTypes
        { prop := 299895808, int32Values := [11, 0], bytes := [] }
        { publisher_id := 7, offerings := [] } = none) ∧
    (isValidVmsMessage sampleVmsTypes
        { prop := 299895808, int32Values := [11, 0, 1, 0], bytes := [] } = true ∧
     parseMessageType { prop := 299895808, int32Values := [11, 0, 1, 0], bytes := [] }
        = sampleVmsTypes.SUBSCRIPTIONS_CHANGE ∧
     ([11, 0, 1, 0] : List Int).length > kSubscriptionStateSequenceNumberIndex ∧
     readInt [11, 0, 1, 0] NUMBER_OF_LAYERS = some 1 ∧
     readInt [11, 0, 1, 0] NUMBER_OF_ASSOCIATED_LAYERS = some 0 ∧
     ¬ SUBSCRIPTIONS_START < ([11, 0, 1, 0] : List Int).length ∧
     readLayer [11, 0, 1, 0] SUBSCRIPTIONS_START = none ∧
     getSubscribedLayers sampleVmsTypes
        { prop := 299895808, int32Values := [11, 0, 1, 0], bytes := [] }
        { publisher_id := 7, offerings := [] } = none) := by
  decide

end EvsCamera
